import Mathlib

/-!
# CSV import engine (csvimp): value resolution, statement assembly and the run

A shallow embedding of `CSVToolWindow::importStart`, `CSVToolWindow::insertAction`,
`CSVToolWindow::updateAction`, `CSVToolWindow::imageLoadAndEncode` and
`CSVToolWindow::docLoadAndEncode` (src/plugin/csvtoolwindow.cpp), with the
properties of the import engine proved about the embedding.

Modelling conventions.

* A `QString` is `Option String`: `none` is the null string `QString {}`, and
  `some ""` is the empty, non-null string `QString("")`.
* `QString::length()` counts UTF-16 code units (`utf16Length`), not characters.
* A `QVariant` records which constructor built it.  The test `var == false` of
  the source is modelled as "the variant is the boolean `false`", which is what
  the two loaders return on failure.
* A `QMap<QString,QVariant>` is an association list with unique keys; `insert`
  replaces the value of an existing key.  Entries are kept in first-insertion
  order (a `QMap` iterates in key order; the source only iterates a map in order
  to bind every entry on the query, which is insensitive to the order).
* Everything outside the repository (the data source, Qt image and file access,
  the MIME database and the SQL executor) is a field of `World`; what
  `importStart` reads from the atlas window, the dataset and the dialogs is a
  field of `Session`.
* The statements handed to the executor are recorded, oldest first, in the
  field `executed` of the state; the executor answers from the statements
  recorded so far and the statement at hand.
* The row loop of `importStart` runs on a fuel equal to the number of rows,
  which the theorems on the loop show to be enough.
* Message boxes and the progress label are presentation and are not modelled;
  what is appended to the log window is returned as a list of entries.
* The placeholders of a statement are read off its assembly: the text is
  compared with the rendering of a list of pieces, each literal text or the
  placeholder of a name.  Names are arbitrary strings and count as literal
  text.
-/

namespace CSVImp

/-! ## Qt value types -/

/-- A `QString`: `none` is the null string, `some s` a non-null string. -/
abbrev QString := Option String

/-- A `QVariant`, as far as the engine builds them. -/
inductive QVariant where
  /-- `QVariant(QString)`; `ofString none` is the null-marker `QVariant(QString {})`. -/
  | ofString (s : QString)
  /-- `QVariant(bool)`. -/
  | ofBool (b : Bool)
  /-- `QVariant(QByteArray)`. -/
  | ofByteArray (bytes : String)
  deriving DecidableEq, Repr

/-- The null-marker `QVariant(QString {})`. -/
def nullMarker : QVariant := QVariant.ofString none

/-- A `QMap<QString,QVariant>` as an association list with unique keys. -/
abbrev QMap := List (String × QVariant)

/-- `QMap::insert`: replace the value of an existing key, else add the entry. -/
def QMap.insert : QMap → String → QVariant → QMap
  | [], k, v => [(k, v)]
  | (k0, v0) :: rest, k, v =>
    if k0 = k then (k, v) :: rest else (k0, v0) :: QMap.insert rest k v

/-- `QMap::value`: the value stored under a key, if any. -/
def QMap.find : QMap → String → Option QVariant
  | [], _ => none
  | (k0, v0) :: rest, k => if k0 = k then some v0 else QMap.find rest k

/-- The keys of a map. -/
def QMap.keys (m : QMap) : List String := m.map Prod.fst

/-- `QString::length()`: the number of UTF-16 code units of the string; a
character outside the basic multilingual plane takes two. -/
def utf16Length (s : String) : Nat :=
  s.data.foldl (fun n c => n + (if c.toNat < 65536 then 1 else 2)) 0

/-! ## The field mapping model (declared outside `src/`, used as data) -/

/-- `CSVMapField::Action`: the five enumerators that the `switch` of the engine
names, and `Action_Default`, which it sends to its `default:` branch. -/
inductive Action where
  | Action_Default
  | Action_UseColumn
  | Action_UseEmptyString
  | Action_UseAlternateValue
  | Action_UseNull
  | Action_SetColumnFromDataFile
  deriving DecidableEq, Repr

/-- `CSVMapField::IfNull`. -/
inductive IfNull where
  | Nothing
  | UseDefault
  | UseEmptyString
  | UseAlternateValue
  | UseAlternateColumn
  deriving DecidableEq, Repr

/-- `CSVMapField::FileType`; `TYPE_Other` stands for any enumerator that the
`switch (filetype)` of the source sends to its `default:` branch. -/
inductive FileType where
  | TYPE_IMAGE
  | TYPE_IMAGEENC
  | TYPE_FILE
  | TYPE_Other
  deriving DecidableEq, Repr

/-- `CSVMapField`, the attributes read by the engine. -/
structure CSVMapField where
  name : String
  isKey : Bool
  action : Action
  column : Int
  ifNullAction : IfNull
  columnAlt : Int
  ifNullActionAlt : IfNull
  valueAlt : QString
  fileType : FileType
  deriving DecidableEq, Repr

/-- `CSVMap::Action`; `Other` stands for any enumerator that is none of Insert,
Update and Append. -/
inductive MapAction where
  | Insert
  | Update
  | Append
  | Other
  deriving DecidableEq, Repr

/-- `CSVMap`, the attributes read by the engine. -/
structure CSVMap where
  name : String
  table : String
  action : MapAction
  fields : List CSVMapField
  sqlPre : String
  sqlPreContinueOnError : Bool
  sqlPost : String
  deriving DecidableEq, Repr

/-! ## External collaborators -/

/-- A prepared statement as handed to the executor: its text and bound values. -/
structure Stmt where
  sql : String
  bound : QMap
  deriving DecidableEq, Repr

/-- A decoded image (the content of a non-null `QImage`). -/
abbrev Image := String

/-- A `QImage`: `none` is the null image. -/
abbrev QImage := Option Image

/-- Everything the engine calls that lives outside the repository. -/
structure World where
  /-- `_data->value(row, col)`. -/
  dataValue : Int → Int → QString
  /-- `QImage::load(fileName)`: the decoded image, or `none` when loading fails. -/
  imageLoad : String → Option Image
  /-- `QImageWriter::write` in PNG format: the bytes written, or `none` on failure. -/
  imageWrite : Image → Option String
  /-- `QUUEncode` of the buffer. -/
  QUUEncode : String → String
  /-- `QFileInfo::exists`. -/
  fileExists : String → Bool
  /-- `QFile::open(ReadOnly)` followed by `readAll`: `none` when the open fails. -/
  fileOpenRead : String → Option String
  /-- `QMimeDatabase::mimeTypeForFile(...).name()`. -/
  mimeTypeForFile : String → String
  /-- `QSqlQuery::exec`: given the statements executed so far and the statement,
  `none` on success and `some e` on failure with `lastError().text() = e`. -/
  exec : List Stmt → Stmt → Option String

/-- The constant `usetransaction` (csvtoolwindow.cpp line 53). -/
def usetransaction : Bool := false

/-! ## Engine state -/

/-- The members of `CSVToolWindow` that the engine reads and writes, together
with the statements handed to the executor so far (oldest first). -/
structure ToolState where
  _total : Int
  _current : Int
  _error : Int
  _ignored : Int
  _errMsg : String
  _errorList : List String
  __image : QImage
  executed : List Stmt
  deriving DecidableEq, Repr

/-- Construct and run a query from a plain string (`QSqlQuery q("...")`). -/
def runPlain (s : ToolState) (sql : String) : ToolState :=
  { s with executed := s.executed ++ [{ sql := sql, bound := [] }] }

/-- Issue a transaction-control statement only when `usetransaction` is set. -/
def ifTransaction (s : ToolState) (sql : String) : ToolState :=
  if usetransaction then runPlain s sql else s

/-! ## Blob loaders -/

/-- The second half of `imageLoadAndEncode` (lines 993-1014): encode the
member `__image` as PNG, uuencoded when `enc` is set. -/
def imageEncode (w : World) (image : QImage) (enc : Bool) : QVariant × QImage :=
  match image with
  | none => (QVariant.ofBool false, none)
  | some img =>
    match w.imageWrite img with
    | none => (QVariant.ofBool false, some img)
    | some buffer =>
      let imageString := if enc then w.QUUEncode buffer else buffer
      (QVariant.ofString (some imageString), some img)

/-- `CSVToolWindow::imageLoadAndEncode(fileName, enc)`: the returned variant and
the member `__image` afterwards.  A file is loaded only when the name is longer
than one UTF-16 code unit; a failed `QImage::load` leaves the null image behind. -/
def imageLoadAndEncode (w : World) (image : QImage) (fileName : String) (enc : Bool) :
    QVariant × QImage :=
  if utf16Length fileName > 1 then
    match w.imageLoad fileName with
    | none => (QVariant.ofBool false, none)
    | some img => imageEncode w (some img) enc
  else imageEncode w image enc

/-- `CSVToolWindow::docLoadAndEncode(fileName)`. -/
def docLoadAndEncode (w : World) (fileName : String) : QVariant :=
  if w.fileExists fileName = false then QVariant.ofBool false
  else
    match w.fileOpenRead fileName with
    | none => QVariant.ofBool false
    | some bytarr => QVariant.ofByteArray bytarr

/-! ## Value resolution -/

/-- The outcome of the `switch (fields.at(i).action())` for one field: `var` is
`none` on the `continue` paths (the field is skipped), and `mimetype`, `image`
are the local `mimetype` and the member `__image` afterwards. -/
structure Resolved where
  var : Option QVariant
  mimetype : String
  image : QImage
  deriving DecidableEq, Repr

/-- The `switch` of `insertAction` (lines 594-710) for the field `f` on row
`_current`. -/
def insertResolve (w : World) (_current : Int) (f : CSVMapField)
    (mimetype : String) (image : QImage) : Resolved :=
  match f.action with
  | Action.Action_UseColumn =>
    match w.dataValue _current (f.column - 1) with
    | none =>
      match f.ifNullAction with
      | IfNull.UseDefault => ⟨none, mimetype, image⟩
      | IfNull.UseEmptyString => ⟨some (QVariant.ofString (some "")), mimetype, image⟩
      | IfNull.UseAlternateValue => ⟨some (QVariant.ofString f.valueAlt), mimetype, image⟩
      | IfNull.UseAlternateColumn =>
        match w.dataValue _current (f.columnAlt - 1) with
        | none =>
          match f.ifNullActionAlt with
          | IfNull.UseDefault => ⟨none, mimetype, image⟩
          | IfNull.UseEmptyString => ⟨some (QVariant.ofString (some "")), mimetype, image⟩
          | IfNull.UseAlternateValue => ⟨some (QVariant.ofString f.valueAlt), mimetype, image⟩
          | _ => ⟨some (QVariant.ofString none), mimetype, image⟩
        | some value => ⟨some (QVariant.ofString (some value)), mimetype, image⟩
      | _ => ⟨some (QVariant.ofString none), mimetype, image⟩
    | some value => ⟨some (QVariant.ofString (some value)), mimetype, image⟩
  | Action.Action_SetColumnFromDataFile =>
    match w.dataValue _current (f.column - 1) with
    | none => ⟨some (QVariant.ofString none), mimetype, image⟩
    | some _fileName =>
      match f.fileType with
      | FileType.TYPE_IMAGE =>
        let r := imageLoadAndEncode w image _fileName false
        if r.1 = QVariant.ofBool false then ⟨some (QVariant.ofString none), mimetype, r.2⟩
        else ⟨some r.1, mimetype, r.2⟩
      | FileType.TYPE_IMAGEENC =>
        let r := imageLoadAndEncode w image _fileName true
        if r.1 = QVariant.ofBool false then ⟨some (QVariant.ofString none), mimetype, r.2⟩
        else ⟨some r.1, mimetype, r.2⟩
      | FileType.TYPE_FILE =>
        let var := docLoadAndEncode w _fileName
        if var = QVariant.ofBool false then ⟨some (QVariant.ofString none), mimetype, image⟩
        else ⟨some var, w.mimeTypeForFile _fileName, image⟩
      | _ => ⟨some (QVariant.ofString (some _fileName)), mimetype, image⟩
  | Action.Action_UseEmptyString => ⟨some (QVariant.ofString (some "")), mimetype, image⟩
  | Action.Action_UseAlternateValue => ⟨some (QVariant.ofString f.valueAlt), mimetype, image⟩
  | Action.Action_UseNull => ⟨some (QVariant.ofString none), mimetype, image⟩
  | _ => ⟨none, mimetype, image⟩

/-- The `switch` of `updateAction` (lines 798-914) for the field `f` on row
`_current`. -/
def updateResolve (w : World) (_current : Int) (f : CSVMapField)
    (mimetype : String) (image : QImage) : Resolved :=
  match f.action with
  | Action.Action_UseColumn =>
    match w.dataValue _current (f.column - 1) with
    | none =>
      match f.ifNullAction with
      | IfNull.UseDefault => ⟨none, mimetype, image⟩
      | IfNull.UseEmptyString => ⟨some (QVariant.ofString (some "")), mimetype, image⟩
      | IfNull.UseAlternateValue => ⟨some (QVariant.ofString f.valueAlt), mimetype, image⟩
      | IfNull.UseAlternateColumn =>
        match w.dataValue _current (f.columnAlt - 1) with
        | none =>
          match f.ifNullActionAlt with
          | IfNull.UseDefault => ⟨none, mimetype, image⟩
          | IfNull.UseEmptyString => ⟨some (QVariant.ofString (some "")), mimetype, image⟩
          | IfNull.UseAlternateValue => ⟨some (QVariant.ofString f.valueAlt), mimetype, image⟩
          | _ => ⟨some (QVariant.ofString none), mimetype, image⟩
        | some value => ⟨some (QVariant.ofString (some value)), mimetype, image⟩
      | _ => ⟨some (QVariant.ofString none), mimetype, image⟩
    | some value => ⟨some (QVariant.ofString (some value)), mimetype, image⟩
  | Action.Action_SetColumnFromDataFile =>
    match w.dataValue _current (f.column - 1) with
    | none => ⟨some (QVariant.ofString none), mimetype, image⟩
    | some _fileName =>
      match f.fileType with
      | FileType.TYPE_IMAGE =>
        let r := imageLoadAndEncode w image _fileName false
        if r.1 = QVariant.ofBool false then ⟨some (QVariant.ofString none), mimetype, r.2⟩
        else ⟨some r.1, mimetype, r.2⟩
      | FileType.TYPE_IMAGEENC =>
        let r := imageLoadAndEncode w image _fileName true
        if r.1 = QVariant.ofBool false then ⟨some (QVariant.ofString none), mimetype, r.2⟩
        else ⟨some r.1, mimetype, r.2⟩
      | FileType.TYPE_FILE =>
        let var := docLoadAndEncode w _fileName
        if var = QVariant.ofBool false then ⟨some (QVariant.ofString none), mimetype, image⟩
        else ⟨some var, w.mimeTypeForFile _fileName, image⟩
      | _ => ⟨some (QVariant.ofString (some _fileName)), mimetype, image⟩
  | Action.Action_UseEmptyString => ⟨some (QVariant.ofString (some "")), mimetype, image⟩
  | Action.Action_UseAlternateValue => ⟨some (QVariant.ofString f.valueAlt), mimetype, image⟩
  | Action.Action_UseNull => ⟨some (QVariant.ofString none), mimetype, image⟩
  | _ => ⟨none, mimetype, image⟩

/-! ## Statement assembly and execution -/

/-- `qry.bindValue(key, value)` for every entry of a map, onto the values
already bound on the query. -/
def bindAll (bound : QMap) (m : QMap) : QMap :=
  m.foldl (fun b kv => QMap.insert b kv.1 kv.2) bound

/-- `qry.exec()`: the statement is handed to the executor and recorded; the
result is `none` on success and the error text on failure. -/
def execStmt (w : World) (s : ToolState) (q : Stmt) : ToolState × Option String :=
  ({ s with executed := s.executed ++ [q] }, w.exec s.executed q)

/-- The locals of `insertAction` that live across its field loop, and the member
`__image`. -/
structure InsertVars where
  front : String
  back : String
  wherenot : String
  values : QMap
  wheres : QMap
  mimetype : String
  foundMimeType : Bool
  image : QImage
  deriving DecidableEq, Repr

/-- The rest of the loop body of `insertAction` (lines 712-731) for a field that
was not skipped. -/
def insertTail (append : Bool) (v : InsertVars) (f : CSVMapField) (var : QVariant) :
    InsertVars :=
  let label := ":" ++ f.name
  let front := if v.values ≠ [] then v.front ++ ", " else v.front
  let back := if v.values ≠ [] then v.back ++ ", " else v.back
  let values := QMap.insert v.values label var
  let front := front ++ f.name
  let back := back ++ label
  let wherenot :=
    if append = true ∧ f.isKey = true then
      (if v.wheres ≠ [] then v.wherenot ++ " AND " else v.wherenot) ++ (f.name ++ "=" ++ label)
    else v.wherenot
  let wheres :=
    if append = true ∧ f.isKey = true then QMap.insert v.wheres label var else v.wheres
  let foundMimeType := if f.name = "file_mime_type" then true else v.foundMimeType
  { v with front := front, back := back, wherenot := wherenot, values := values,
           wheres := wheres, foundMimeType := foundMimeType }

/-- One iteration of the field loop of `insertAction` (lines 592-732). -/
def insertField (w : World) (_current : Int) (append : Bool) (v : InsertVars)
    (f : CSVMapField) : InsertVars :=
  let r := insertResolve w _current f v.mimetype v.image
  match r.var with
  | none => { v with mimetype := r.mimetype, image := r.image }
  | some var => insertTail append { v with mimetype := r.mimetype, image := r.image } f var

/-- The synthesis of the MIME column in `insertAction` (lines 734-739). -/
def insertMime (v : InsertVars) : InsertVars :=
  if v.foundMimeType = false ∧ v.mimetype ≠ "" then
    { v with values := QMap.insert v.values ":file_mime_type" (QVariant.ofString (some v.mimetype)),
             front := v.front ++ ", file_mime_type",
             back := v.back ++ ", :file_mime_type" }
  else v

/-- The first part of `insertAction` (lines 585-739): the initial values of the
locals, the field loop and the synthesis of the MIME column. -/
def insertLoop (w : World) (map : CSVMap) (append : Bool) (s : ToolState) : InsertVars :=
  let init : InsertVars :=
    { front := "(", back := if append then " SELECT " else " VALUES(",
      wherenot := " WHERE NOT EXISTS (SELECT 1 FROM " ++ map.table ++ " WHERE ",
      values := [], wheres := [], mimetype := "", foundMimeType := false,
      image := s.__image }
  insertMime (map.fields.foldl (insertField w s._current append) init)

/-- `CSVToolWindow::insertAction(append)` on the row `_current`. -/
def insertAction (w : World) (map : CSVMap) (append : Bool) (s : ToolState) : ToolState :=
  let query := "INSERT INTO " ++ map.table ++ " "
  let v := insertLoop w map append s
  let s := { s with __image := v.image }
  if v.values = [] then
    let msg := "IGNORED Record " ++ toString (s._current + 1) ++ ": There are no columns to append"
    { s with _ignored := s._ignored + 1, _errMsg := msg, _errorList := s._errorList ++ [msg] }
  else
    let s1 :=
      if append = true ∧ v.wheres = [] then
        let s0 := ifTransaction s "ROLLBACK TO SAVEPOINT csvinsert;"
        { s0 with _error := s0._error + 1, _errMsg := "No Key defined in Altas Map.",
                  _errorList := s0._errorList ++ ["No Key defined in Altas Map."] }
      else s
    let front := v.front ++ ") "
    let back := v.back ++ (if append then " " else ")")
    let query := query ++ (front ++ back)
    let query := if append then query ++ (v.wherenot ++ ");") else query
    let r := execStmt w s1 { sql := query, bound := bindAll [] v.values }
    match r.2 with
    | none => r.1
    | some e =>
      let s2 := ifTransaction r.1 "ROLLBACK TO SAVEPOINT csvinsert;"
      let msg := "ERROR Record " ++ toString (s2._current + 1) ++ ": " ++ e
      { s2 with _error := s2._error + 1, _errMsg := msg, _errorList := s2._errorList ++ [msg] }

/-- The locals of `updateAction` that live across its field loop, and the member
`__image`. -/
structure UpdateVars where
  set : String
  where_ : String
  values : QMap
  wheres : QMap
  mimetype : String
  foundMimeType : Bool
  image : QImage
  deriving DecidableEq, Repr

/-- The rest of the loop body of `updateAction` (lines 916-933) for a field that
was not skipped. -/
def updateTail (v : UpdateVars) (f : CSVMapField) (var : QVariant) : UpdateVars :=
  let label := ":" ++ f.name
  let foundMimeType := if f.name = "file_mime_type" then true else v.foundMimeType
  if f.isKey = true then
    { v with where_ := (if v.wheres ≠ [] then v.where_ ++ " AND " else v.where_)
                         ++ (f.name ++ "=" ++ label),
             wheres := QMap.insert v.wheres label var,
             foundMimeType := foundMimeType }
  else
    { v with set := (if v.values ≠ [] then v.set ++ ", " else v.set)
                      ++ (f.name ++ "=" ++ label),
             values := QMap.insert v.values label var,
             foundMimeType := foundMimeType }

/-- One iteration of the field loop of `updateAction` (lines 796-934). -/
def updateField (w : World) (_current : Int) (v : UpdateVars) (f : CSVMapField) :
    UpdateVars :=
  let r := updateResolve w _current f v.mimetype v.image
  match r.var with
  | none => { v with mimetype := r.mimetype, image := r.image }
  | some var => updateTail { v with mimetype := r.mimetype, image := r.image } f var

/-- The synthesis of the MIME column in `updateAction` (lines 936-940). -/
def updateMime (v : UpdateVars) : UpdateVars :=
  if v.foundMimeType = false ∧ v.mimetype ≠ "" then
    { v with set := v.set ++ ", file_mime_type=:file_mime_type",
             values := QMap.insert v.values ":file_mime_type"
                         (QVariant.ofString (some v.mimetype)) }
  else v

/-- The first part of `updateAction` (lines 791-940): the initial values of the
locals, the field loop and the synthesis of the MIME column. -/
def updateLoop (w : World) (map : CSVMap) (s : ToolState) : UpdateVars :=
  let init : UpdateVars :=
    { set := "", where_ := " WHERE ", values := [], wheres := [], mimetype := "",
      foundMimeType := false, image := s.__image }
  updateMime (map.fields.foldl (updateField w s._current) init)

/-- `CSVToolWindow::updateAction()` on the row `_current`. -/
def updateAction (w : World) (map : CSVMap) (s : ToolState) : ToolState :=
  let query := "UPDATE " ++ map.table ++ " SET "
  let v := updateLoop w map s
  let s := { s with __image := v.image }
  if v.values = [] then
    let msg := "IGNORED Record " ++ toString (s._current + 1) ++ ": There are no columns to update"
    { s with _ignored := s._ignored + 1, _errMsg := msg, _errorList := s._errorList ++ [msg] }
  else
    let s1 :=
      if v.wheres = [] then
        let s0 := ifTransaction s "ROLLBACK TO SAVEPOINT csvinsert;"
        { s0 with _error := s0._error + 1, _errMsg := "No Key defined in Altas Map.",
                  _errorList := s0._errorList ++ ["No Key defined in Altas Map."] }
      else s
    let query := query ++ (v.set ++ v.where_)
    let r := execStmt w s1 { sql := query, bound := bindAll (bindAll [] v.values) v.wheres }
    match r.2 with
    | none => r.1
    | some e =>
      let s2 := ifTransaction r.1 "ROLLBACK TO SAVEPOINT csvinsert;"
      let msg := "ERROR Record " ++ toString (s2._current + 1) ++ ": " ++ e
      { s2 with _error := s2._error + 1, _errMsg := msg, _errorList := s2._errorList ++ [msg] }

/-! ## Row-level notions used to state the properties -/

/-- The field is skipped on this row: its `switch` ends in `continue`.  (Whether
a field is skipped does not depend on the loop state, see
`insertResolve_var_isNone`.) -/
def skipped (w : World) (row : Int) (f : CSVMapField) : Bool :=
  (insertResolve w row f "" none).var.isNone

/-- The fields that are not skipped on this row, each with the value the loop
resolves for it, in the order of the field list.  The resolution is threaded
through the loop state (`mimetype` and `__image`) exactly as the loop does. -/
def resolveTrace (w : World) (row : Int) :
    List CSVMapField → String → QImage → List (CSVMapField × QVariant)
  | [], _, _ => []
  | f :: fs, mimetype, image =>
    let r := insertResolve w row f mimetype image
    match r.var with
    | none => resolveTrace w row fs r.mimetype r.image
    | some var => (f, var) :: resolveTrace w row fs r.mimetype r.image

/-- The local `mimetype` and the member `__image` after the field loop. -/
def resolveEnd (w : World) (row : Int) :
    List CSVMapField → String → QImage → String × QImage
  | [], mimetype, image => (mimetype, image)
  | f :: fs, mimetype, image =>
    let r := insertResolve w row f mimetype image
    resolveEnd w row fs r.mimetype r.image

/-- The placeholder of a field: a colon followed by its name. -/
def label (f : CSVMapField) : String := ":" ++ f.name

/-- The clause `name=:name` of a field. -/
def clause (f : CSVMapField) : String := f.name ++ "=" ++ label f

/-- The fields included on the current row, each with its resolved value. -/
def rowTrace (w : World) (map : CSVMap) (s : ToolState) : List (CSVMapField × QVariant) :=
  resolveTrace w s._current map.fields "" s.__image

/-- The MIME type detected on the current row (empty when there is none). -/
def rowMime (w : World) (map : CSVMap) (s : ToolState) : String :=
  (resolveEnd w s._current map.fields "" s.__image).1

/-- The member `__image` after the fields of the current row were resolved. -/
def rowImage (w : World) (map : CSVMap) (s : ToolState) : QImage :=
  (resolveEnd w s._current map.fields "" s.__image).2

/-- The row synthesizes the extra column `file_mime_type`: no included field has
that name and the MIME type detected on the row is not empty. -/
def mimeSynthesized (w : World) (map : CSVMap) (s : ToolState) : Prop :=
  (∀ p ∈ rowTrace w map s, p.1.name ≠ "file_mime_type") ∧ rowMime w map s ≠ ""

instance (w : World) (map : CSVMap) (s : ToolState) :
    Decidable (mimeSynthesized w map s) :=
  inferInstanceAs (Decidable
    ((∀ p ∈ rowTrace w map s, p.1.name ≠ "file_mime_type") ∧ rowMime w map s ≠ ""))

/-- The column names of the row: the names of the included fields in field
order, followed by `file_mime_type` when that column is synthesized. -/
def rowColumns (w : World) (map : CSVMap) (s : ToolState) : List String :=
  (rowTrace w map s).map (fun p => p.1.name) ++
    (if mimeSynthesized w map s then ["file_mime_type"] else [])

/-- The items of a list written one after the other, each but the first preceded
by the separator; when `started` is set the first item is preceded by it too. -/
def sepItems (sep : String) : Bool → List String → String
  | _, [] => ""
  | started, x :: rest => (if started then sep else "") ++ x ++ sepItems sep true rest

/-- The entries that a list of resolved fields binds: placeholder and value. -/
def bindings (tr : List (CSVMapField × QVariant)) : QMap :=
  tr.map (fun p => (label p.1, p.2))

/-- The resolved fields that are marked as key. -/
def keyPart (tr : List (CSVMapField × QVariant)) : List (CSVMapField × QVariant) :=
  tr.filter (fun p => p.1.isKey)

/-- The resolved fields that are not marked as key. -/
def setPart (tr : List (CSVMapField × QVariant)) : List (CSVMapField × QVariant) :=
  tr.filter (fun p => !p.1.isKey)

/-- The entries of the local map `values` of `insertAction` after its loop and
the MIME synthesis. -/
def rowValues (w : World) (map : CSVMap) (s : ToolState) : QMap :=
  if mimeSynthesized w map s then
    QMap.insert (bindAll [] (bindings (rowTrace w map s))) ":file_mime_type"
      (QVariant.ofString (some (rowMime w map s)))
  else bindAll [] (bindings (rowTrace w map s))

/-- The entries of the local map `values` of `updateAction` after its loop and
the MIME synthesis. -/
def rowSetValues (w : World) (map : CSVMap) (s : ToolState) : QMap :=
  if mimeSynthesized w map s then
    QMap.insert (bindAll [] (bindings (setPart (rowTrace w map s)))) ":file_mime_type"
      (QVariant.ofString (some (rowMime w map s)))
  else bindAll [] (bindings (setPart (rowTrace w map s)))

/-- The loop state of `insertAction` after the fields `tr` were included,
starting from `a`, in closed form. -/
def insertClosed (append : Bool) (a : InsertVars) (tr : List (CSVMapField × QVariant)) :
    InsertVars :=
  { front := a.front ++ sepItems ", " (decide (a.values ≠ [])) (tr.map (fun p => p.1.name)),
    back := a.back ++ sepItems ", " (decide (a.values ≠ [])) (tr.map (fun p => label p.1)),
    wherenot :=
      if append = true then
        a.wherenot ++ sepItems " AND " (decide (a.wheres ≠ []))
          ((keyPart tr).map (fun p => clause p.1))
      else a.wherenot,
    values := bindAll a.values (bindings tr),
    wheres := if append = true then bindAll a.wheres (bindings (keyPart tr)) else a.wheres,
    mimetype := a.mimetype,
    foundMimeType := a.foundMimeType || tr.any (fun p => decide (p.1.name = "file_mime_type")),
    image := a.image }

/-- The loop state of `updateAction` after the fields `tr` were included,
starting from `a`, in closed form. -/
def updateClosed (a : UpdateVars) (tr : List (CSVMapField × QVariant)) : UpdateVars :=
  { set := a.set ++ sepItems ", " (decide (a.values ≠ []))
      ((setPart tr).map (fun p => clause p.1)),
    where_ := a.where_ ++ sepItems " AND " (decide (a.wheres ≠ []))
      ((keyPart tr).map (fun p => clause p.1)),
    values := bindAll a.values (bindings (setPart tr)),
    wheres := bindAll a.wheres (bindings (keyPart tr)),
    mimetype := a.mimetype,
    foundMimeType := a.foundMimeType || tr.any (fun p => decide (p.1.name = "file_mime_type")),
    image := a.image }

/-- The row was ignored for the given reason: the ignored count grew by one, the
error count is unchanged, exactly one `IGNORED Record` message carrying the
1-based record number was appended, and no statement reached the executor. -/
def IgnoredRow (s t : ToolState) (reason : String) : Prop :=
  t._ignored = s._ignored + 1 ∧ t._error = s._error ∧
    t._errorList = s._errorList ++
      ["IGNORED Record " ++ toString (s._current + 1) ++ ": " ++ reason] ∧
    t.executed = s.executed

/-- The bindings of the Update statement of a row: the non-key fields, the
synthesized MIME type if any, and the key fields. -/
def rowUpdateBound (w : World) (map : CSVMap) (s : ToolState) : QMap :=
  bindings (setPart (rowTrace w map s)) ++
    (if mimeSynthesized w map s then
      [(":file_mime_type", QVariant.ofString (some (rowMime w map s)))] else []) ++
    bindings (keyPart (rowTrace w map s))

/-! ## The run: `importStart` -/

/-- What `importStart` reads from outside the engine: the atlas window, the
dataset, the map selection dialog and the progress dialog. -/
structure Session where
  /-- `atlasWindow()->map()`: the name of the selected map, empty when none. -/
  selectedMap : String
  /-- `atlas->mapList()`. -/
  mapList : List String
  /-- `mList.sort()` followed by `QInputDialog::getItem`: the name chosen, or
  `none` when the dialog is dismissed (`valid` is false). -/
  getItem : List String → Option String
  /-- `atlas->map(mapname)` followed by `map.simplify()`. -/
  atlasMap : String → CSVMap
  /-- `_data->rows()`, or `none` when there is no dataset (`_data` is null). -/
  dataRows : Option Int
  /-- `QString::trimmed`. -/
  trimmed : String → String
  /-- `progress->wasCanceled()` at the check that follows the row `_current`. -/
  wasCanceled : Int → Bool

/-- What `importStart` appends to the log window. -/
inductive LogEntry where
  /-- A text appended as is. -/
  | text (s : String)
  /-- The status block `Map: %1 Table: %2 Method: %3 Total Records: %4
  # Processed: %5 # Ignored: %6 # Errors: %7` with its seven arguments. -/
  | status (map table : String) (method : MapAction)
      (total processed ignored errors : Int)
  deriving DecidableEq, Repr

/-- The outcome of one call of `importStart`: the value returned, the members
afterwards, the local `userCanceled`, and what was appended to the log. -/
structure ImportRun where
  returned : Bool
  state : ToolState
  userCanceled : Bool
  log : List LogEntry
  deriving DecidableEq, Repr

/-- The name of the map to run (lines 369-391), or `none` when `importStart`
returns there: no map is selected and the atlas has none, or the selection
dialog is dismissed. -/
def selectMapName (ses : Session) : Option String :=
  if ses.selectedMap = "" then
    if ses.mapList = [] then none
    else ses.getItem ses.mapList
  else some ses.selectedMap

/-- The pre-statement stage (lines 433-462): the members afterwards, the log
entries, and `false` when `importStart` returns there. -/
def importPre (w : World) (ses : Session) (map : CSVMap) (s : ToolState) :
    ToolState × List LogEntry × Bool :=
  let s := { s with _errMsg := "" }
  if ses.trimmed map.sqlPre ≠ "" then
    let s := ifTransaction s "SAVEPOINT presql;"
    let r := execStmt w s { sql := map.sqlPre, bound := [] }
    match r.2 with
    | none => (r.1, [], true)
    | some e =>
      let msg := "ERROR Running Pre SQL query: " ++ e
      let s := { r.1 with _errMsg := msg }
      let log := [LogEntry.text "\n\n----------------------\n", LogEntry.text msg]
      if map.sqlPreContinueOnError = true then
        let s := ifTransaction s "ROLLBACK TO SAVEPOINT presql;"
        let s := ifTransaction s "RELEASE SAVEPOINT presql;"
        (s, log ++ [LogEntry.text "\n\nContinuing with rest of import\n\n"], true)
      else
        (ifTransaction s "ROLLBACK;", log, false)
  else (s, [], true)

/-- The `switch(action)` of the row loop (lines 475-492). -/
def rowAction (w : World) (map : CSVMap) (s : ToolState) : ToolState :=
  match map.action with
  | MapAction.Insert => insertAction w map false s
  | MapAction.Update => updateAction w map s
  | MapAction.Append => insertAction w map true s
  | MapAction.Other => s

/-- The row loop (lines 472-504), with at most `fuel` iterations: the members
afterwards and the local `userCanceled`.  Each iteration handles the row
`_current`, then polls the progress dialog, and only then moves on. -/
def rowLoop (w : World) (ses : Session) (map : CSVMap) : Nat → ToolState → ToolState × Bool
  | 0, s => (s, false)
  | fuel + 1, s =>
    if s._current < s._total then
      let s1 := ifTransaction s "SAVEPOINT csvinsert;"
      let s2 := rowAction w map s1
      if ses.wasCanceled s2._current = true then (s2, true)
      else rowLoop w ses map fuel { s2 with _current := s2._current + 1 }
    else (s, false)

/-- The last lines of `importStart` (lines 550-567): a cancelled run returns
false; otherwise the value returned tells whether no error was counted. -/
def importEnd (s : ToolState) (userCanceled : Bool) (log : List LogEntry) : ImportRun :=
  if userCanceled = true then
    { returned := false, state := ifTransaction s "ROLLBACK;", userCanceled := true,
      log := log ++
        [LogEntry.text "\n\nImport canceled by user. Changes were rolled back."] }
  else
    let s1 := ifTransaction s "COMMIT"
    { returned := decide (s1._error = 0), state := s1, userCanceled := false, log := log }

/-- The end of `importStart` (lines 507-568): the status report, the
post-statement, and the value returned. -/
def importFinish (w : World) (ses : Session) (map : CSVMap) (s : ToolState)
    (userCanceled : Bool) (log : List LogEntry) : ImportRun :=
  let log :=
    if s._error ≠ 0 ∨ s._ignored ≠ 0 ∨ userCanceled = true then
      log ++ [LogEntry.status map.name map.table map.action s._total s._current
                s._ignored s._error,
              LogEntry.text s._errMsg,
              LogEntry.text ("\n".intercalate s._errorList)]
    else log
  if userCanceled = false ∧ ses.trimmed map.sqlPost ≠ "" then
    let r := execStmt w s { sql := map.sqlPost, bound := [] }
    match r.2 with
    | some e =>
      let msg := "ERROR Running Post SQL query: " ++ e
      let s1 := ifTransaction { r.1 with _errMsg := msg } "ROLLBACK;"
      { returned := false, state := s1, userCanceled := userCanceled,
        log := log ++ [LogEntry.text "\n\n----------------------\n", LogEntry.text msg] }
    | none => importEnd r.1 userCanceled log
  else importEnd s userCanceled log

/-- `CSVToolWindow::importStart()`. -/
def importStart (w : World) (ses : Session) (s : ToolState) : ImportRun :=
  let stop : ImportRun := { returned := false, state := s, userCanceled := false, log := [] }
  match selectMapName ses with
  | none => stop
  | some mapname =>
    let map := ses.atlasMap mapname
    if map.name ≠ mapname ∨ map.fields = [] then stop
    else if ¬ (map.action = MapAction.Insert ∨ map.action = MapAction.Update ∨
        map.action = MapAction.Append) then stop
    else
      match ses.dataRows with
      | none => stop
      | some rows =>
        if rows < 1 then stop
        else
          let s := { s with _total := rows, _current := 0, _error := 0, _ignored := 0 }
          let s := ifTransaction s "BEGIN;"
          let pre := importPre w ses map s
          if pre.2.2 = false then
            { returned := false, state := pre.1, userCanceled := false, log := pre.2.1 }
          else
            let r := rowLoop w ses map pre.1._total.toNat { pre.1 with _current := 0 }
            importFinish w ses map r.1 r.2 pre.2.1

/-- What one iteration of the row loop does with the row `i` before it polls
the progress dialog: the savepoint and the action of the map on that row. -/
def handleRow (w : World) (map : CSVMap) (st : ToolState) (i : Nat) : ToolState :=
  rowAction w map (ifTransaction { st with _current := (i : Int) } "SAVEPOINT csvinsert;")

/-- The map called `name` is the one to run: it is the selected map, or, when
no map is selected, the one chosen in the dialog among the maps of the atlas. -/
def Selected (ses : Session) (name : String) : Prop :=
  (ses.selectedMap ≠ "" ∧ ses.selectedMap = name) ∨
    (ses.selectedMap = "" ∧ ses.mapList ≠ [] ∧ ses.getItem ses.mapList = some name)

instance (ses : Session) (name : String) : Decidable (Selected ses name) :=
  inferInstanceAs (Decidable (_ ∨ _))

/-- The run passes the checks of lines 369-421 with the map `map` and a dataset
of `rows` rows: the map is the one to run; it is found in the atlas and has
fields; its action is Insert, Update or Append; and the dataset has at least
one row. -/
def Ready (ses : Session) (map : CSVMap) (rows : Int) : Prop :=
  Selected ses map.name ∧
  ses.atlasMap map.name = map ∧ map.fields ≠ [] ∧
  (map.action = MapAction.Insert ∨ map.action = MapAction.Update ∨
    map.action = MapAction.Append) ∧
  ses.dataRows = some rows ∧ 1 ≤ rows

instance (ses : Session) (map : CSVMap) (rows : Int) : Decidable (Ready ses map rows) :=
  inferInstanceAs (Decidable (_ ∧ _))

/-- The run passes the pre-statement stage: the pre-statement is blank, or the
executor accepts it, or the map continues on its error. -/
def PrePasses (w : World) (ses : Session) (map : CSVMap) (s : ToolState) : Prop :=
  ses.trimmed map.sqlPre = "" ∨
    w.exec s.executed { sql := map.sqlPre, bound := [] } = none ∨
    map.sqlPreContinueOnError = true

instance (w : World) (ses : Session) (map : CSVMap) (s : ToolState) :
    Decidable (PrePasses w ses map s) :=
  inferInstanceAs (Decidable (_ ∨ _))

/-- The members when the row loop starts: the counters are reset (lines
423-426) and the pre-statement stage is over. -/
def preState (w : World) (ses : Session) (map : CSVMap) (rows : Int) (s : ToolState) :
    ToolState :=
  { (importPre w ses map (ifTransaction
      { s with _total := rows, _current := 0, _error := 0, _ignored := 0 } "BEGIN;")).1
    with _current := 0 }

/-- The log entries of the pre-statement stage. -/
def preLog (w : World) (ses : Session) (map : CSVMap) (rows : Int) (s : ToolState) :
    List LogEntry :=
  (importPre w ses map (ifTransaction
      { s with _total := rows, _current := 0, _error := 0, _ignored := 0 } "BEGIN;")).2.1

/-- The members and the local `userCanceled` when the row loop of a run ends. -/
def rowsRun (w : World) (ses : Session) (map : CSVMap) (rows : Int) (s : ToolState) :
    ToolState × Bool :=
  rowLoop w ses map rows.toNat (preState w ses map rows s)

/-- The world `w` with an executor that accepts the statement `q` when it comes
after the statements `history`, and answers as that of `w` otherwise. -/
def acceptAt (w : World) (history : List Stmt) (q : Stmt) : World :=
  { w with exec := fun h x => if h = history ∧ x = q then none else w.exec h x }

/-- Two states of the tool window agree on every member but `_errMsg`. -/
def SameMembers (a b : ToolState) : Prop :=
  a._total = b._total ∧ a._current = b._current ∧ a._error = b._error ∧
    a._ignored = b._ignored ∧ a._errorList = b._errorList ∧ a.__image = b.__image ∧
    a.executed = b.executed

/-- Two runs return the same value, are cancelled alike, hand the same
statements to the executor and leave the same counters and error list. -/
def SameRun (r1 r2 : ImportRun) : Prop :=
  r1.returned = r2.returned ∧ r1.userCanceled = r2.userCanceled ∧
    SameMembers r1.state r2.state

/-! ## Accounting, the MIME column and placeholders: notions used to state the properties -/

/-- The accounting of one row, from the members `s` before the call to the
members `t` after it: the messages appended to the error list are as many as
the error count and the ignored count grew together, neither count decreased,
and a row that raised the ignored count did not raise the error count. -/
def Accounted (s t : ToolState) : Prop :=
  ∃ msgs : List String, t._errorList = s._errorList ++ msgs ∧
    (msgs.length : Int) = (t._error - s._error) + (t._ignored - s._ignored) ∧
    s._error ≤ t._error ∧ s._ignored ≤ t._ignored ∧
    (s._ignored < t._ignored → t._error = s._error)

/-- The file from which the field loads a document on the row, if it does: the
field has action `Action_SetColumnFromDataFile` and file type `TYPE_FILE`, its
filename cell is non-null, and `docLoadAndEncode` does not return `false`. -/
def fileLoaded (w : World) (row : Int) (f : CSVMapField) : Option String :=
  if f.action = Action.Action_SetColumnFromDataFile ∧ f.fileType = FileType.TYPE_FILE then
    match w.dataValue row (f.column - 1) with
    | none => none
    | some fileName =>
      if docLoadAndEncode w fileName = QVariant.ofBool false then none else some fileName
  else none

/-- The MIME types of the documents loaded on the row, in the order of the
fields that loaded them. -/
def detectedMimes (w : World) (row : Int) (fields : List CSVMapField) : List String :=
  fields.filterMap (fun f => (fileLoaded w row f).map w.mimeTypeForFile)

/-- The fields of the map that are not skipped on the current row, in field
order. -/
def includedFields (w : World) (map : CSVMap) (s : ToolState) : List CSVMapField :=
  map.fields.filter (fun f => !skipped w s._current f)

/-- The MIME type detected on the row: that of the last document loaded on it,
empty when no document was loaded. -/
def detectedMime (w : World) (map : CSVMap) (s : ToolState) : String :=
  (detectedMimes w s._current map.fields).getLastD ""

/-- The extra column `file_mime_type` is due on the current row: the MIME type
of the last document loaded on the row is not empty, and no field included on
the row has the destination name `file_mime_type`. -/
def MimeColumnDue (w : World) (map : CSVMap) (s : ToolState) : Prop :=
  detectedMime w map s ≠ "" ∧ ∀ f ∈ includedFields w map s, f.name ≠ "file_mime_type"

instance (w : World) (map : CSVMap) (s : ToolState) : Decidable (MimeColumnDue w map s) :=
  inferInstanceAs (Decidable (_ ∧ _))

/-- The columns of the row, read off the fields of the map: the names of the
included fields in field order, followed by `file_mime_type` when that column
is due. -/
def dueColumns (w : World) (map : CSVMap) (s : ToolState) : List String :=
  (includedFields w map s).map (fun f => f.name) ++
    (if MimeColumnDue w map s then ["file_mime_type"] else [])

/-- The condition under which the specification expects the extra column
`file_mime_type`: some field loaded a document with a non-empty MIME type on
the current row, and the map has no field with the destination name
`file_mime_type`. -/
def MimeColumnExpected (w : World) (map : CSVMap) (s : ToolState) : Prop :=
  (∃ f ∈ map.fields, ∃ n ∈ fileLoaded w s._current f, w.mimeTypeForFile n ≠ "") ∧
    ∀ f ∈ map.fields, f.name ≠ "file_mime_type"

instance (w : World) (map : CSVMap) (s : ToolState) :
    Decidable (MimeColumnExpected w map s) :=
  inferInstanceAs (Decidable (_ ∧ _))

/-- A piece of the text of a statement: literal text, or the placeholder of a
name. -/
inductive Piece where
  | lit (text : String)
  | ph (name : String)
  deriving DecidableEq, Repr

/-- The text of a piece; a placeholder is written as a colon followed by its
name. -/
def Piece.text : Piece → String
  | Piece.lit t => t
  | Piece.ph n => ":" ++ n

/-- The text of a list of pieces. -/
def render : List Piece → String
  | [] => ""
  | p :: rest => p.text ++ render rest

/-- The placeholders that occur in a list of pieces, in order. -/
def placeholders : List Piece → List String
  | [] => []
  | Piece.lit _ :: rest => placeholders rest
  | Piece.ph n :: rest => (":" ++ n) :: placeholders rest

/-- Groups of pieces written one after the other, each but the first preceded
by the separator; when `started` is set the first group is preceded by it too. -/
def sepPieces (sep : String) : Bool → List (List Piece) → List Piece
  | _, [] => []
  | started, x :: rest =>
    (if started then [Piece.lit sep] else []) ++ x ++ sepPieces sep true rest

/-- The item `name=:name` of a SET or WHERE clause, in pieces. -/
def clausePieces (n : String) : List Piece := [Piece.lit n, Piece.lit "=", Piece.ph n]

/-- The text of the statement of `insertAction` in pieces, for the column names
`cols` and the key names `keys`. -/
def insertPieces (table : String) (append : Bool) (cols keys : List String) : List Piece :=
  [Piece.lit "INSERT INTO ", Piece.lit table, Piece.lit " ("] ++
    sepPieces ", " false (cols.map (fun n => [Piece.lit n])) ++
    (if append then
      [Piece.lit ")  SELECT "] ++ sepPieces ", " false (cols.map (fun n => [Piece.ph n])) ++
        [Piece.lit "  WHERE NOT EXISTS (SELECT 1 FROM ", Piece.lit table, Piece.lit " WHERE "] ++
        sepPieces " AND " false (keys.map clausePieces) ++ [Piece.lit ");"]
    else
      [Piece.lit ")  VALUES("] ++ sepPieces ", " false (cols.map (fun n => [Piece.ph n])) ++
        [Piece.lit ")"])

/-- The text of the statement of `updateAction` in pieces, for the names `sets`
of the SET clause, followed by the synthesized item when `mime` is set, and the
names `keys` of the WHERE clause. -/
def updatePieces (table : String) (sets : List String) (mime : Bool) (keys : List String) :
    List Piece :=
  [Piece.lit "UPDATE ", Piece.lit table, Piece.lit " SET "] ++
    sepPieces ", " false (sets.map clausePieces) ++
    (if mime then [Piece.lit ", file_mime_type=", Piece.ph "file_mime_type"] else []) ++
    [Piece.lit " WHERE "] ++ sepPieces " AND " false (keys.map clausePieces)

/-- The names of the key fields included on the current row, in field order. -/
def keyNames (w : World) (map : CSVMap) (s : ToolState) : List String :=
  ((includedFields w map s).filter (fun f => f.isKey)).map (fun f => f.name)

/-- The names of the other fields included on the current row, in field order. -/
def setNames (w : World) (map : CSVMap) (s : ToolState) : List String :=
  ((includedFields w map s).filter (fun f => !f.isKey)).map (fun f => f.name)

/-! ## What one iteration of a field loop writes -/

/-- One iteration of the field loop of `insertAction`, from the loop state `v`
to `v'`, wrote the field `f` with the value `var` into the statement: the name
of the field was appended to the column list and its placeholder to the
placeholder list, each after a separator when a column was there before, and
the placeholder is bound to `var`; in Append mode a key field was added to the
guard and bound among the keys in the same way. -/
def InsertIncluded (append : Bool) (v v' : InsertVars) (f : CSVMapField) (var : QVariant) :
    Prop :=
  v'.front = (if v.values ≠ [] then v.front ++ ", " else v.front) ++ f.name ∧
  v'.back = (if v.values ≠ [] then v.back ++ ", " else v.back) ++ (":" ++ f.name) ∧
  v'.values = QMap.insert v.values (":" ++ f.name) var ∧
  QMap.find v'.values (":" ++ f.name) = some var ∧
  (append = true → f.isKey = true →
    v'.wherenot = (if v.wheres ≠ [] then v.wherenot ++ " AND " else v.wherenot) ++
      (f.name ++ "=" ++ (":" ++ f.name)) ∧
    v'.wheres = QMap.insert v.wheres (":" ++ f.name) var ∧
    QMap.find v'.wheres (":" ++ f.name) = some var)

/-- One iteration of the field loop of `updateAction`, from the loop state `v`
to `v'`, wrote the field `f` with the value `var` into the statement: the item
`name=:name` of a key field was appended to the WHERE clause, after ` AND `
when a key was there before, and its placeholder is bound to `var` among the
keys; the item of any other field was appended to the SET clause, after `, `
when an item was there before, and its placeholder is bound to `var` among the
values. -/
def UpdateIncluded (v v' : UpdateVars) (f : CSVMapField) (var : QVariant) : Prop :=
  (f.isKey = true →
    v'.where_ = (if v.wheres ≠ [] then v.where_ ++ " AND " else v.where_) ++
      (f.name ++ "=" ++ (":" ++ f.name)) ∧
    v'.wheres = QMap.insert v.wheres (":" ++ f.name) var ∧
    QMap.find v'.wheres (":" ++ f.name) = some var) ∧
  (f.isKey = false →
    v'.set = (if v.values ≠ [] then v.set ++ ", " else v.set) ++
      (f.name ++ "=" ++ (":" ++ f.name)) ∧
    v'.values = QMap.insert v.values (":" ++ f.name) var ∧
    QMap.find v'.values (":" ++ f.name) = some var)

/-- The field `f` is included on the row with the value `var`: it is not
skipped, the iteration of either field loop on it, from the loop states `vi`
and `vu`, writes it into the statement with that value, and on every map that
holds the field it is among the fields included on the row, with that value. -/
def FieldIncluded (w : World) (row : Int) (f : CSVMapField) (append : Bool)
    (vi : InsertVars) (vu : UpdateVars) (var : QVariant) : Prop :=
  skipped w row f = false ∧
  InsertIncluded append vi (insertField w row append vi f) f var ∧
  UpdateIncluded vu (updateField w row vu f) f var ∧
  ∀ (map : CSVMap) (s : ToolState), s._current = row → f ∈ map.fields →
    (f, var) ∈ rowTrace w map s

/-- The field `f` is left out on the row: it is skipped, the iteration of
either field loop on it leaves the loop state as it was, and on no map is it
among the fields included on the row. -/
def FieldLeftOut (w : World) (row : Int) (f : CSVMapField) (append : Bool)
    (vi : InsertVars) (vu : UpdateVars) : Prop :=
  skipped w row f = true ∧
  insertField w row append vi f = vi ∧
  updateField w row vu f = vu ∧
  ∀ (map : CSVMap) (s : ToolState), s._current = row →
    ∀ p ∈ rowTrace w map s, p.1 ≠ f

/-! ## Concrete scenarios -/

/-- A data source backed by a table of rows; cells outside the table are null. -/
def tableValue (table : List (List QString)) (row col : Int) : QString :=
  if 0 ≤ row ∧ 0 ≤ col then
    match table.get? row.toNat with
    | none => none
    | some cells => (cells.get? col.toNat).join
  else none

/-- Three records: an id, a name, a document path and an image path. -/
def demoTable : List (List QString) :=
  [ [some "1", some "Ann", some "doc.txt", some "a.png"],
    [some "2", none, none, none],
    [none, some "Cy", some "missing.txt", some "x"] ]

/-- A world over `demoTable` in which `a.png` is the only image, `doc.txt` the
only file, and the executor accepts every statement. -/
def demoWorld : World where
  dataValue := tableValue demoTable
  imageLoad := fun n => if n = "a.png" then some "IMG" else none
  imageWrite := fun img => some ("PNG:" ++ img)
  QUUEncode := fun b => "UU:" ++ b
  fileExists := fun n => decide (n = "doc.txt")
  fileOpenRead := fun n => if n = "doc.txt" then some "hello" else none
  mimeTypeForFile := fun _ => "text/plain"
  exec := fun _ _ => none

/-- The world `demoWorld` with an executor that rejects every statement. -/
def failWorld : World := { demoWorld with exec := fun _ _ => some "db error" }

/-- A field that takes a column, with every other attribute at its default. -/
def mkField (name : String) (isKey : Bool) (action : Action) (column : Int)
    (ifNullAction : IfNull) : CSVMapField :=
  { name := name, isKey := isKey, action := action, column := column,
    ifNullAction := ifNullAction, columnAlt := 1, ifNullActionAlt := IfNull.Nothing,
    valueAlt := some "alt", fileType := FileType.TYPE_FILE }

/-- A map over table `t` with the given action and fields. -/
def mkMap (action : MapAction) (fields : List CSVMapField) : CSVMap :=
  { name := "m", table := "t", action := action, fields := fields, sqlPre := "",
    sqlPreContinueOnError := false, sqlPost := "" }

/-- The key field `id`, taken from column 1 and left out when the cell is null. -/
def fieldId : CSVMapField :=
  mkField "id" true Action.Action_UseColumn 1 IfNull.UseDefault

/-- The field `name`, taken from column 2, empty when the cell is null. -/
def fieldName : CSVMapField :=
  mkField "name" false Action.Action_UseColumn 2 IfNull.UseEmptyString

/-- The field `doc`, loaded from the file named in column 3. -/
def fieldDoc : CSVMapField :=
  mkField "doc" false Action.Action_SetColumnFromDataFile 3 IfNull.Nothing

/-- The field `doc` as part of the record key. -/
def fieldDocKey : CSVMapField := { fieldDoc with isKey := true }

/-- The field `nick`: column 2, falling back to column 3 and then to the
policy `policy`. -/
def fieldNick (policy : IfNull) : CSVMapField :=
  { mkField "nick" false Action.Action_UseColumn 2 IfNull.UseAlternateColumn with
    columnAlt := 3, ifNullActionAlt := policy }

/-- The loop state of `insertAction` before the first field. -/
def insertStart (append : Bool) : InsertVars :=
  { front := "(", back := if append then " SELECT " else " VALUES(",
    wherenot := " WHERE NOT EXISTS (SELECT 1 FROM t WHERE ", values := [], wheres := [],
    mimetype := "", foundMimeType := false, image := none }

/-- The loop state of `updateAction` before the first field. -/
def updateStart : UpdateVars :=
  { set := "", where_ := " WHERE ", values := [], wheres := [], mimetype := "",
    foundMimeType := false, image := none }

/-- The field `id` as a key that is always bound to the null-marker. -/
def fieldIdNull : CSVMapField :=
  mkField "id" true Action.Action_UseNull 1 IfNull.Nothing

/-- A map with the key `id` and the field `name`. -/
def demoMap (action : MapAction) : CSVMap := mkMap action [fieldId, fieldName]

/-- A map with the key `id`, the field `name` and the document `doc`. -/
def docMap (action : MapAction) : CSVMap := mkMap action [fieldId, fieldName, fieldDoc]

/-- A map whose only field is the key `id`. -/
def keyOnlyMap (action : MapAction) : CSVMap := mkMap action [fieldId]

/-- The state of the tool window at the start of row `row`. -/
def rowState (row : Int) : ToolState :=
  { _total := 3, _current := row, _error := 0, _ignored := 0, _errMsg := "",
    _errorList := [], __image := none, executed := [] }

/-- A string without its leading and trailing white space. -/
def trimSpaces (s : String) : String :=
  String.mk ((s.data.dropWhile Char.isWhitespace).reverse.dropWhile Char.isWhitespace).reverse

/-- A session in which `map` is the selected map of the atlas, the dataset has
`rows` rows, and the user cancels at the check after the row `cancelAt`. -/
def demoSession (map : CSVMap) (rows : Int) (cancelAt : Option Int) : Session :=
  { selectedMap := map.name, mapList := [map.name], getItem := fun _ => none,
    atlasMap := fun n => if n = map.name then map else { map with name := "", fields := [] },
    dataRows := some rows, trimmed := trimSpaces,
    wasCanceled := fun i => decide (cancelAt = some i) }

/-- The members of a fresh tool window. -/
def freshState : ToolState :=
  { _total := 0, _current := 0, _error := 0, _ignored := 0, _errMsg := "",
    _errorList := [], __image := none, executed := [] }

/-- Two records; the first has no id. -/
def noKeyTable : List (List QString) :=
  [ [none, some "Cy"], [some "2", some "Di"] ]

/-- A world over `noKeyTable` whose executor rejects exactly the statements
that end in an empty key predicate. -/
def strictWorld : World :=
  { demoWorld with
    dataValue := tableValue noKeyTable,
    exec := fun _ q =>
      if " WHERE );".data.isSuffixOf q.sql.data ∨ " WHERE ".data.isSuffixOf q.sql.data then
        some "syntax error"
      else none }

/-- The world `demoWorld` with an executor that rejects the statement `sql` and
accepts every other one. -/
def rejectWorld (sql : String) : World :=
  { demoWorld with exec := fun _ q => if q.sql = sql then some "rejected" else none }

/-- The map `demoMap` for Insert with the pre-statement `pre`. -/
def preMap (continueOnError : Bool) : CSVMap :=
  { demoMap MapAction.Insert with sqlPre := "pre", sqlPreContinueOnError := continueOnError }

/-- The map `demoMap` for Insert with the post-statement `post`. -/
def postMap : CSVMap := { demoMap MapAction.Insert with sqlPost := "post" }

/-- The statement that Insert assembles for record 1 of the demo table. -/
def firstInsert : Stmt :=
  { sql := "INSERT INTO t (id, name)  VALUES(:id, :name)",
    bound := [(":id", QVariant.ofString (some "1")),
              (":name", QVariant.ofString (some "Ann"))] }

/-- The field `note`, taken from column 2, with no policy for a null cell. -/
def fieldNote : CSVMapField :=
  mkField "note" false Action.Action_UseColumn 2 IfNull.Nothing

/-- The field `pic`, an image loaded from the file named in column 4. -/
def fieldPic : CSVMapField :=
  { mkField "pic" false Action.Action_SetColumnFromDataFile 4 IfNull.Nothing with
    fileType := FileType.TYPE_IMAGE }

/-- A map with the key `id` and the image `pic`. -/
def picMap (action : MapAction) : CSVMap := mkMap action [fieldId, fieldPic]

/-- The field `file_mime_type`, taken from column 5 and left out when the cell
is null. -/
def fieldMime : CSVMapField :=
  mkField "file_mime_type" false Action.Action_UseColumn 5 IfNull.UseDefault

/-- A map with the key `id`, the document `doc` and the field `file_mime_type`. -/
def mimeMap (action : MapAction) : CSVMap := mkMap action [fieldId, fieldDoc, fieldMime]

/-- A first run of the map with the only field `id` over the demo table, in a
fresh tool window. -/
def firstRun : ImportRun :=
  importStart demoWorld (demoSession (keyOnlyMap MapAction.Insert) 3 none) freshState

/-- The same run once more, in the tool window as the first run left it. -/
def secondRun : ImportRun :=
  importStart demoWorld (demoSession (keyOnlyMap MapAction.Insert) 3 none) firstRun.state

/-- The field `att`, a document loaded from the file named in column 4. -/
def fieldAtt : CSVMapField :=
  mkField "att" false Action.Action_SetColumnFromDataFile 4 IfNull.Nothing

/-- A map with the key `id` and the documents `doc` and `att`. -/
def twoDocMap (action : MapAction) : CSVMap := mkMap action [fieldId, fieldDoc, fieldAtt]

/-- The world `demoWorld` in which every file can be read and the MIME database
knows the type of `doc.txt` only, answering the empty name for any other file. -/
def blankMimeWorld : World :=
  { demoWorld with
    fileExists := fun _ => true,
    fileOpenRead := fun n => some ("bytes of " ++ n),
    mimeTypeForFile := fun n => if n = "doc.txt" then "text/plain" else "" }

/-- The statement that Update assembles for record 1 of the demo table with the
map `docMap`. -/
def docUpdate : Stmt :=
  { sql := "UPDATE t SET name=:name, doc=:doc, file_mime_type=:file_mime_type WHERE id=:id",
    bound := [(":name", QVariant.ofString (some "Ann")),
              (":doc", QVariant.ofByteArray "hello"),
              (":file_mime_type", QVariant.ofString (some "text/plain")),
              (":id", QVariant.ofString (some "1"))] }

/-- The statement that Append assembles for record 1 of the demo table with the
map `docMap`. -/
def docAppend : Stmt :=
  { sql := "INSERT INTO t (id, name, doc, file_mime_type)  SELECT :id, :name, :doc, " ++
      ":file_mime_type  WHERE NOT EXISTS (SELECT 1 FROM t WHERE id=:id);",
    bound := [(":id", QVariant.ofString (some "1")),
              (":name", QVariant.ofString (some "Ann")),
              (":doc", QVariant.ofByteArray "hello"),
              (":file_mime_type", QVariant.ofString (some "text/plain"))] }

/-- Two records; the image file name of the first is one character long. -/
def picTable : List (List QString) :=
  [ [some "1", none, none, some "x"], [some "2", none, none, some "a.png"] ]

/-- The world `demoWorld` over `picTable`. -/
def picWorld : World := { demoWorld with dataValue := tableValue picTable }

/-- A first run of the map `picMap` over `picTable`, in a fresh tool window. -/
def firstPicRun : ImportRun :=
  importStart picWorld (demoSession (picMap MapAction.Insert) 2 none) freshState

/-- The same run once more, in the tool window as the first run left it. -/
def secondPicRun : ImportRun :=
  importStart picWorld (demoSession (picMap MapAction.Insert) 2 none) firstPicRun.state

/-! ## Strings and maps -/

theorem sepItems_true_append (sep : String) (l : List String) (x : String) (b : Bool) :
    sepItems sep b (l ++ [x]) =
      sepItems sep b l ++ ((if b = true ∨ l ≠ [] then sep else "") ++ x) := by
  induction l generalizing b with
  | nil => simp [sepItems]
  | cons y ys ih => simp [sepItems, ih, String.append_assoc]

theorem intercalate_go_eq (sep acc : String) (l : List String) :
    String.intercalate.go acc sep l = acc ++ sepItems sep true l := by
  induction l generalizing acc with
  | nil => simp [String.intercalate.go, sepItems]
  | cons y ys ih => simp [String.intercalate.go, sepItems, ih, String.append_assoc]

theorem sepItems_false (sep : String) (l : List String) :
    sepItems sep false l = sep.intercalate l := by
  cases l with
  | nil => simp [sepItems, String.intercalate]
  | cons y ys => simp [sepItems, String.intercalate, intercalate_go_eq]

theorem QMap.insert_ne_nil (m : QMap) (k : String) (v : QVariant) :
    QMap.insert m k v ≠ [] := by
  cases m with
  | nil => simp [QMap.insert]
  | cons e rest =>
    obtain ⟨k0, v0⟩ := e
    simp only [QMap.insert]
    split <;> simp

theorem QMap.insert_fresh (m : QMap) (k : String) (v : QVariant) (h : k ∉ QMap.keys m) :
    QMap.insert m k v = m ++ [(k, v)] := by
  induction m with
  | nil => simp [QMap.insert]
  | cons e rest ih =>
    obtain ⟨k0, v0⟩ := e
    simp only [QMap.keys, List.map_cons, List.mem_cons, not_or] at h
    have hne : ¬ k0 = k := fun e => h.1 e.symm
    simp only [QMap.insert, hne, if_false, List.cons_append]
    rw [ih (by simpa [QMap.keys] using h.2)]

theorem QMap.find_insert_self (m : QMap) (k : String) (v : QVariant) :
    QMap.find (QMap.insert m k v) k = some v := by
  induction m with
  | nil => simp [QMap.insert, QMap.find]
  | cons e rest ih =>
    obtain ⟨k0, v0⟩ := e
    by_cases hk : k0 = k
    · simp [QMap.insert, QMap.find, hk]
    · simp [QMap.insert, QMap.find, hk, ih]

theorem bindAll_fresh (b m : QMap)
    (hnd : (QMap.keys b ++ QMap.keys m).Nodup) : bindAll b m = b ++ m := by
  induction m generalizing b with
  | nil => simp [bindAll]
  | cons e rest ih =>
    obtain ⟨k, v⟩ := e
    have hk : k ∉ QMap.keys b := by
      intro hmem
      have := List.nodup_append.mp hnd
      exact this.2.2 hmem (by simp [QMap.keys])
    have hstep : bindAll b ((k, v) :: rest) = bindAll (QMap.insert b k v) rest := by
      simp [bindAll]
    rw [hstep, QMap.insert_fresh b k v hk, ih]
    · simp
    · have : QMap.keys (b ++ [(k, v)]) ++ QMap.keys rest
          = QMap.keys b ++ QMap.keys ((k, v) :: rest) := by simp [QMap.keys]
      rw [this]; exact hnd

theorem QMap.find_of_mem (m : QMap) (k : String) (v : QVariant)
    (hnd : (QMap.keys m).Nodup) (h : (k, v) ∈ m) : QMap.find m k = some v := by
  induction m with
  | nil => simp at h
  | cons e rest ih =>
    obtain ⟨k0, v0⟩ := e
    simp only [QMap.keys, List.map_cons, List.nodup_cons] at hnd
    rcases List.mem_cons.mp h with heq | hmem
    · cases heq; simp [QMap.find]
    · have hne : ¬ k0 = k := by
        intro e; subst e
        exact hnd.1 (List.mem_map.mpr ⟨(k0, v), hmem, rfl⟩)
      simp only [QMap.find, hne, if_false]
      exact ih hnd.2 hmem

/-! ## The field loops in closed form -/

theorem updateResolve_eq_insertResolve (w : World) (row : Int) (f : CSVMapField)
    (mimetype : String) (image : QImage) :
    updateResolve w row f mimetype image = insertResolve w row f mimetype image := by
  unfold updateResolve insertResolve
  rfl

theorem ite_var_some (c : Prop) [Decidable c] (a b : QVariant) (m1 m2 : String)
    (i1 i2 : QImage) :
    (if c then (⟨some a, m1, i1⟩ : Resolved) else ⟨some b, m2, i2⟩).var
      = some (if c then a else b) := by
  split <;> rfl

theorem insertResolve_skip_state (w : World) (row : Int) (f : CSVMapField)
    (mimetype : String) (image : QImage)
    (h : (insertResolve w row f mimetype image).var = none) :
    insertResolve w row f mimetype image = ⟨none, mimetype, image⟩ := by
  unfold insertResolve at h ⊢
  repeat' split at h
  all_goals first
    | (simp [ite_var_some] at h; done)
    | skip
  all_goals simp_all

theorem insertResolve_var_isNone (w : World) (row : Int) (f : CSVMapField)
    (mimetype : String) (image : QImage) :
    (insertResolve w row f mimetype image).var.isNone = skipped w row f := by
  unfold skipped insertResolve
  repeat' split
  all_goals simp_all [ite_var_some]

theorem foldl_insertTail_closed (append : Bool) (tr : List (CSVMapField × QVariant))
    (a : InsertVars) :
    tr.foldl (fun v p => insertTail append v p.1 p.2) a = insertClosed append a tr := by
  induction tr generalizing a with
  | nil =>
    cases append <;> simp [insertClosed, sepItems, bindAll, bindings, keyPart]
  | cons p rest ih =>
    rw [List.foldl_cons, ih]
    obtain ⟨f, var⟩ := p
    simp only [insertClosed, insertTail, InsertVars.mk.injEq]
    refine ⟨?_, ?_, ?_, ?_, ?_, ?_, ?_, ?_⟩
    · by_cases hv : a.values = [] <;>
        simp [hv, sepItems, QMap.insert_ne_nil, String.append_assoc, label]
    · by_cases hv : a.values = [] <;>
        simp [hv, sepItems, QMap.insert_ne_nil, String.append_assoc, label]
    · cases append
      · simp
      · by_cases hk : f.isKey = true
        · by_cases hw : a.wheres = [] <;>
            simp [hk, hw, keyPart, sepItems, QMap.insert_ne_nil, String.append_assoc, label, clause]
        · simp [hk, keyPart]
    · simp [bindAll, bindings, label]
    · cases append
      · simp
      · by_cases hk : f.isKey = true
        · simp [hk, keyPart, bindAll, bindings, label]
        · simp [hk, keyPart]
    · trivial
    · by_cases hn : f.name = "file_mime_type" <;> simp [hn]
    · trivial

theorem foldl_insertTail_state (append : Bool) (tr : List (CSVMapField × QVariant))
    (a : InsertVars) (m : String) (i : QImage) :
    tr.foldl (fun v p => insertTail append v p.1 p.2) { a with mimetype := m, image := i }
      = { tr.foldl (fun v p => insertTail append v p.1 p.2) a with
            mimetype := m, image := i } := by
  induction tr generalizing a with
  | nil => rfl
  | cons p rest ih =>
    simp only [List.foldl_cons]
    rw [← ih]
    rfl

theorem insert_loop_tail (w : World) (row : Int) (append : Bool)
    (fields : List CSVMapField) (a : InsertVars) :
    fields.foldl (insertField w row append) a =
      { (resolveTrace w row fields a.mimetype a.image).foldl
            (fun v p => insertTail append v p.1 p.2) a with
          mimetype := (resolveEnd w row fields a.mimetype a.image).1,
          image := (resolveEnd w row fields a.mimetype a.image).2 } := by
  induction fields generalizing a with
  | nil => simp [resolveTrace, resolveEnd]
  | cons f fs ih =>
    cases hr : (insertResolve w row f a.mimetype a.image).var with
    | none =>
      have hs := insertResolve_skip_state w row f a.mimetype a.image hr
      have hstep : insertField w row append a f = a := by
        simp [insertField, hs]
      rw [List.foldl_cons, hstep, ih]
      simp [resolveTrace, resolveEnd, hs]
    | some var =>
      have hstep : insertField w row append a f =
          { insertTail append a f var with
              mimetype := (insertResolve w row f a.mimetype a.image).mimetype,
              image := (insertResolve w row f a.mimetype a.image).image } := by
        simp only [insertField, hr]
        rfl
      rw [List.foldl_cons, hstep, ih, foldl_insertTail_state]
      simp only [resolveTrace, resolveEnd, hr, List.foldl_cons]

theorem insert_loop_eq (w : World) (row : Int) (append : Bool) (fields : List CSVMapField)
    (a : InsertVars) :
    fields.foldl (insertField w row append) a =
      { insertClosed append a (resolveTrace w row fields a.mimetype a.image) with
          mimetype := (resolveEnd w row fields a.mimetype a.image).1,
          image := (resolveEnd w row fields a.mimetype a.image).2 } := by
  rw [insert_loop_tail, foldl_insertTail_closed]

theorem foldl_updateTail_closed (tr : List (CSVMapField × QVariant)) (a : UpdateVars) :
    tr.foldl (fun v p => updateTail v p.1 p.2) a = updateClosed a tr := by
  induction tr generalizing a with
  | nil => simp [updateClosed, sepItems, bindAll, bindings, keyPart, setPart]
  | cons p rest ih =>
    rw [List.foldl_cons, ih]
    obtain ⟨f, var⟩ := p
    by_cases hk : f.isKey = true
    · simp only [updateClosed, updateTail, hk, if_true, UpdateVars.mk.injEq]
      refine ⟨?_, ?_, ?_, ?_, ?_, ?_, ?_⟩
      · simp [setPart, hk]
      · by_cases hw : a.wheres = [] <;>
          simp [hk, hw, keyPart, sepItems, QMap.insert_ne_nil, String.append_assoc, label,
            clause]
      · simp [setPart, hk]
      · simp [hk, keyPart, bindAll, bindings, label]
      · trivial
      · by_cases hn : f.name = "file_mime_type" <;> simp [hn]
      · trivial
    · simp only [updateClosed, updateTail, hk, if_false, UpdateVars.mk.injEq]
      refine ⟨?_, ?_, ?_, ?_, ?_, ?_, ?_⟩
      · by_cases hv : a.values = [] <;>
          simp [hk, hv, setPart, sepItems, QMap.insert_ne_nil, String.append_assoc, label,
            clause]
      · simp [keyPart, hk]
      · simp [hk, setPart, bindAll, bindings, label]
      · simp [keyPart, hk]
      · trivial
      · by_cases hn : f.name = "file_mime_type" <;> simp [hn]
      · trivial

theorem foldl_updateTail_state (tr : List (CSVMapField × QVariant))
    (a : UpdateVars) (m : String) (i : QImage) :
    tr.foldl (fun v p => updateTail v p.1 p.2) { a with mimetype := m, image := i }
      = { tr.foldl (fun v p => updateTail v p.1 p.2) a with mimetype := m, image := i } := by
  induction tr generalizing a with
  | nil => rfl
  | cons p rest ih =>
    simp only [List.foldl_cons]
    rw [← ih]
    congr 1
    obtain ⟨f, var⟩ := p
    simp only [updateTail]
    split <;> rfl

theorem update_loop_tail (w : World) (row : Int) (fields : List CSVMapField)
    (a : UpdateVars) :
    fields.foldl (updateField w row) a =
      { (resolveTrace w row fields a.mimetype a.image).foldl
            (fun v p => updateTail v p.1 p.2) a with
          mimetype := (resolveEnd w row fields a.mimetype a.image).1,
          image := (resolveEnd w row fields a.mimetype a.image).2 } := by
  induction fields generalizing a with
  | nil => simp [resolveTrace, resolveEnd]
  | cons f fs ih =>
    cases hr : (insertResolve w row f a.mimetype a.image).var with
    | none =>
      have hs := insertResolve_skip_state w row f a.mimetype a.image hr
      have hstep : updateField w row a f = a := by
        simp [updateField, updateResolve_eq_insertResolve, hs]
      rw [List.foldl_cons, hstep, ih]
      simp [resolveTrace, resolveEnd, hs]
    | some var =>
      have hstep : updateField w row a f =
          { updateTail a f var with
              mimetype := (insertResolve w row f a.mimetype a.image).mimetype,
              image := (insertResolve w row f a.mimetype a.image).image } := by
        simp only [updateField, updateResolve_eq_insertResolve, hr, updateTail]
        split <;> rfl
      rw [List.foldl_cons, hstep, ih, foldl_updateTail_state]
      simp only [resolveTrace, resolveEnd, hr, List.foldl_cons]

theorem update_loop_eq (w : World) (row : Int) (fields : List CSVMapField)
    (a : UpdateVars) :
    fields.foldl (updateField w row) a =
      { updateClosed a (resolveTrace w row fields a.mimetype a.image) with
          mimetype := (resolveEnd w row fields a.mimetype a.image).1,
          image := (resolveEnd w row fields a.mimetype a.image).2 } := by
  rw [update_loop_tail, foldl_updateTail_closed]

/-! ## The rows in closed form -/

theorem resolveEnd_of_trace_nil (w : World) (row : Int) (fields : List CSVMapField)
    (mimetype : String) (image : QImage)
    (h : resolveTrace w row fields mimetype image = []) :
    resolveEnd w row fields mimetype image = (mimetype, image) := by
  induction fields generalizing mimetype image with
  | nil => rfl
  | cons f fs ih =>
    cases hr : (insertResolve w row f mimetype image).var with
    | none =>
      have hs := insertResolve_skip_state w row f mimetype image hr
      simp only [resolveTrace, hs] at h
      simp only [resolveEnd, hs]
      exact ih _ _ h
    | some var => simp [resolveTrace, hr] at h

theorem resolveTrace_map_fst (w : World) (row : Int) (fields : List CSVMapField)
    (mimetype : String) (image : QImage) :
    (resolveTrace w row fields mimetype image).map (fun p => p.1) =
      fields.filter (fun f => !skipped w row f) := by
  induction fields generalizing mimetype image with
  | nil => rfl
  | cons f fs ih =>
    have hsk := insertResolve_var_isNone w row f mimetype image
    cases hr : (insertResolve w row f mimetype image).var with
    | none =>
      rw [hr] at hsk
      simp only [resolveTrace, hr]
      rw [ih, List.filter_cons]
      simp [← hsk]
    | some var =>
      rw [hr] at hsk
      simp only [resolveTrace, hr, List.map_cons]
      rw [ih, List.filter_cons]
      simp [← hsk]

theorem mimeSynthesized_trace_ne_nil (w : World) (map : CSVMap) (s : ToolState)
    (h : mimeSynthesized w map s) : rowTrace w map s ≠ [] := by
  intro hnil
  have := resolveEnd_of_trace_nil w s._current map.fields "" s.__image hnil
  exact h.2 (by simp [rowMime, this])

theorem bindAll_eq_nil (b m : QMap) : bindAll b m = [] ↔ b = [] ∧ m = [] := by
  induction m generalizing b with
  | nil => simp [bindAll]
  | cons e rest ih =>
    have hstep : bindAll b (e :: rest) = bindAll (QMap.insert b e.1 e.2) rest := by
      simp [bindAll]
    rw [hstep, ih]
    simp [QMap.insert_ne_nil]

theorem rowValues_eq_nil (w : World) (map : CSVMap) (s : ToolState) :
    rowValues w map s = [] ↔ rowTrace w map s = [] := by
  unfold rowValues
  split
  · rename_i h
    simp [QMap.insert_ne_nil, mimeSynthesized_trace_ne_nil w map s h]
  · simp [bindAll_eq_nil, bindings]

theorem rowColumns_eq_nil (w : World) (map : CSVMap) (s : ToolState) :
    rowColumns w map s = [] ↔ rowTrace w map s = [] := by
  unfold rowColumns
  split
  · rename_i h
    simp [mimeSynthesized_trace_ne_nil w map s h]
  · simp

theorem foundMime_false_iff (tr : List (CSVMapField × QVariant)) :
    (false || tr.any (fun p => decide (p.1.name = "file_mime_type"))) = false ↔
      ∀ p ∈ tr, p.1.name ≠ "file_mime_type" := by
  simp

theorem insertLoop_eq (w : World) (map : CSVMap) (append : Bool) (s : ToolState) :
    insertLoop w map append s =
      { front := "(" ++ ", ".intercalate (rowColumns w map s),
        back := (if append then " SELECT " else " VALUES(") ++
          ", ".intercalate ((rowColumns w map s).map (fun n => ":" ++ n)),
        wherenot := " WHERE NOT EXISTS (SELECT 1 FROM " ++ map.table ++ " WHERE " ++
          (if append = true then
            " AND ".intercalate ((keyPart (rowTrace w map s)).map (fun p => clause p.1))
           else ""),
        values := rowValues w map s,
        wheres := if append = true then bindAll [] (bindings (keyPart (rowTrace w map s)))
          else [],
        mimetype := rowMime w map s,
        foundMimeType :=
          (rowTrace w map s).any (fun p => decide (p.1.name = "file_mime_type")),
        image := rowImage w map s } := by
  unfold insertLoop
  cases append <;>
  · simp only [insert_loop_eq, insertClosed, insertMime, Bool.false_eq_true, if_false, if_true]
    split_ifs with hc
    · have hsyn : mimeSynthesized w map s := by
        simpa [mimeSynthesized, rowTrace, rowMime] using hc
      have hne : resolveTrace w s._current map.fields "" s.__image ≠ [] :=
        mimeSynthesized_trace_ne_nil w map s hsyn
      simp only [InsertVars.mk.injEq]
      refine ⟨?_, ?_, ?_, ?_, ?_, ?_, ?_, ?_⟩
      · simp [rowColumns, hsyn, ← sepItems_false, sepItems_true_append, rowTrace, hne,
          String.append_assoc]
      · simp [rowColumns, hsyn, ← sepItems_false, sepItems_true_append, rowTrace, hne,
          String.append_assoc, label, Function.comp_def]
      · simp [← sepItems_false, rowTrace]
      · simp [rowValues, hsyn, rowTrace, rowMime]
      · simp [rowTrace]
      · rfl
      · simp [rowTrace]
      · rfl
    · have hsyn : ¬ mimeSynthesized w map s := by
        simpa [mimeSynthesized, rowTrace, rowMime] using hc
      simp only [InsertVars.mk.injEq]
      refine ⟨?_, ?_, ?_, ?_, ?_, ?_, ?_, ?_⟩
      · simp [rowColumns, hsyn, ← sepItems_false, rowTrace]
      · simp [rowColumns, hsyn, ← sepItems_false, rowTrace, label, Function.comp_def]
      · simp [← sepItems_false, rowTrace]
      · simp [rowValues, hsyn, rowTrace]
      · simp [rowTrace]
      · rfl
      · simp [rowTrace]
      · rfl

theorem updateLoop_eq (w : World) (map : CSVMap) (s : ToolState) :
    updateLoop w map s =
      { set := ", ".intercalate ((setPart (rowTrace w map s)).map (fun p => clause p.1)) ++
          (if mimeSynthesized w map s then ", file_mime_type=:file_mime_type" else ""),
        where_ := " WHERE " ++
          " AND ".intercalate ((keyPart (rowTrace w map s)).map (fun p => clause p.1)),
        values := rowSetValues w map s,
        wheres := bindAll [] (bindings (keyPart (rowTrace w map s))),
        mimetype := rowMime w map s,
        foundMimeType :=
          (rowTrace w map s).any (fun p => decide (p.1.name = "file_mime_type")),
        image := rowImage w map s } := by
  unfold updateLoop
  have hiff : ((false || (resolveTrace w s._current map.fields "" s.__image).any
      (fun p => decide (p.1.name = "file_mime_type"))) = false ∧
      (resolveEnd w s._current map.fields "" s.__image).1 ≠ "") ↔ mimeSynthesized w map s := by
    simp [mimeSynthesized, rowTrace, rowMime]
  by_cases hsyn : mimeSynthesized w map s
  · simp only [update_loop_eq, updateClosed, updateMime, hsyn, if_true]
    rw [if_pos (hiff.mpr hsyn)]
    simp only [UpdateVars.mk.injEq]
    refine ⟨?_, ?_, ?_, ?_, ?_, ?_, ?_⟩
    · simp [← sepItems_false, rowTrace]
    · simp [← sepItems_false, rowTrace]
    · simp [rowSetValues, hsyn, rowTrace, rowMime]
    · simp [rowTrace]
    · rfl
    · simp [rowTrace]
    · rfl
  · simp only [update_loop_eq, updateClosed, updateMime, hsyn, if_false]
    rw [if_neg (fun hc => hsyn (hiff.mp hc))]
    simp only [UpdateVars.mk.injEq]
    refine ⟨?_, ?_, ?_, ?_, ?_, ?_, ?_⟩
    · simp [← sepItems_false, rowTrace]
    · simp [← sepItems_false, rowTrace]
    · simp [rowSetValues, hsyn, rowTrace]
    · simp [rowTrace]
    · rfl
    · simp [rowTrace]
    · rfl

theorem rowSetValues_eq_nil (w : World) (map : CSVMap) (s : ToolState) :
    rowSetValues w map s = [] ↔
      setPart (rowTrace w map s) = [] ∧ ¬ mimeSynthesized w map s := by
  unfold rowSetValues
  split
  · rename_i h
    simp [QMap.insert_ne_nil, h]
  · rename_i h
    simp [bindAll_eq_nil, bindings, h]

theorem rowTrace_eq_nil (w : World) (map : CSVMap) (s : ToolState) :
    rowTrace w map s = [] ↔ ∀ f ∈ map.fields, skipped w s._current f = true := by
  have h := resolveTrace_map_fst w s._current map.fields "" s.__image
  constructor
  · intro hnil f hf
    unfold rowTrace at hnil
    rw [hnil] at h
    have hfil : map.fields.filter (fun f => !skipped w s._current f) = [] := by
      simpa using h.symm
    by_contra hsk
    have : f ∈ map.fields.filter (fun f => !skipped w s._current f) := by
      simp only [List.mem_filter]
      exact ⟨hf, by simpa using hsk⟩
    rw [hfil] at this
    simp at this
  · intro hall
    have hfil : map.fields.filter (fun f => !skipped w s._current f) = [] := by
      rw [List.filter_eq_nil_iff]
      intro f hf
      simp [hall f hf]
    rw [hfil] at h
    unfold rowTrace
    simpa using h

theorem rowImage_of_trace_nil (w : World) (map : CSVMap) (s : ToolState)
    (h : rowTrace w map s = []) : rowImage w map s = s.__image := by
  have := resolveEnd_of_trace_nil w s._current map.fields "" s.__image h
  simp [rowImage, this]

/-! ## Distinct keys -/

theorem QMap.keys_insert (m : QMap) (k : String) (v : QVariant) :
    QMap.keys (QMap.insert m k v) = if k ∈ QMap.keys m then QMap.keys m else QMap.keys m ++ [k] := by
  induction m with
  | nil => simp [QMap.insert, QMap.keys]
  | cons e rest ih =>
    obtain ⟨k0, v0⟩ := e
    by_cases hk : k0 = k
    · subst hk
      simp [QMap.insert, QMap.keys]
    · have hk2 : ¬ k = k0 := fun e => hk e.symm
      simp only [QMap.keys] at ih
      simp only [QMap.insert, hk, if_false, QMap.keys, List.map_cons, List.mem_cons, hk2,
        false_or, ih]
      split <;> simp

theorem QMap.keys_insert_nodup (m : QMap) (k : String) (v : QVariant)
    (h : (QMap.keys m).Nodup) : (QMap.keys (QMap.insert m k v)).Nodup := by
  rw [QMap.keys_insert]
  split
  · exact h
  · rename_i hk
    rw [List.nodup_append]
    refine ⟨h, by simp, ?_⟩
    intro a ha hb
    simp only [List.mem_singleton] at hb
    subst hb
    exact hk ha

theorem bindAll_keys_nodup (b m : QMap) (h : (QMap.keys b).Nodup) :
    (QMap.keys (bindAll b m)).Nodup := by
  induction m generalizing b with
  | nil => simpa [bindAll] using h
  | cons e rest ih =>
    have hstep : bindAll b (e :: rest) = bindAll (QMap.insert b e.1 e.2) rest := by
      simp [bindAll]
    rw [hstep]
    exact ih _ (QMap.keys_insert_nodup b e.1 e.2 h)

theorem bindAll_nil_self (m : QMap) (h : (QMap.keys m).Nodup) : bindAll [] m = m := by
  have := bindAll_fresh [] m (by simpa [QMap.keys] using h)
  simpa using this

theorem rowValues_keys_nodup (w : World) (map : CSVMap) (s : ToolState) :
    (QMap.keys (rowValues w map s)).Nodup := by
  unfold rowValues
  split
  · exact QMap.keys_insert_nodup _ _ _ (bindAll_keys_nodup [] _ (by simp [QMap.keys]))
  · exact bindAll_keys_nodup [] _ (by simp [QMap.keys])

theorem rowSetValues_keys_nodup (w : World) (map : CSVMap) (s : ToolState) :
    (QMap.keys (rowSetValues w map s)).Nodup := by
  unfold rowSetValues
  split
  · exact QMap.keys_insert_nodup _ _ _ (bindAll_keys_nodup [] _ (by simp [QMap.keys]))
  · exact bindAll_keys_nodup [] _ (by simp [QMap.keys])

theorem label_injective : Function.Injective (fun n : String => ":" ++ n) := by
  intro a b h
  have hd : (":" ++ a).data = (":" ++ b).data := by
    simpa using congrArg String.data h
  rw [String.data_append, String.data_append] at hd
  exact String.ext (List.append_cancel_left hd)

theorem rowTrace_labels_nodup (w : World) (map : CSVMap) (s : ToolState)
    (hnd : (map.fields.map (fun f => f.name)).Nodup) :
    (QMap.keys (bindings (rowTrace w map s))).Nodup := by
  have hfst := resolveTrace_map_fst w s._current map.fields "" s.__image
  have hsub : ((rowTrace w map s).map (fun p => p.1)).Sublist map.fields := by
    unfold rowTrace
    rw [hfst]
    exact List.filter_sublist _
  have hnames : (((rowTrace w map s).map (fun p => p.1)).map (fun f => f.name)).Nodup :=
    List.Nodup.sublist (List.Sublist.map _ hsub) hnd
  have hlabels := List.Nodup.map label_injective hnames
  simpa [QMap.keys, bindings, label, List.map_map, Function.comp_def] using hlabels

theorem keys_bindings_sublist (l1 l2 : List (CSVMapField × QVariant)) (h : l1.Sublist l2) :
    (QMap.keys (bindings l1)).Sublist (QMap.keys (bindings l2)) := by
  unfold QMap.keys bindings
  exact List.Sublist.map _ (List.Sublist.map _ h)

/-! ## Value resolution (claims C1 to C4) -/

theorem insertField_of_resolve (w : World) (row : Int) (append : Bool) (v : InsertVars)
    (f : CSVMapField) (var : QVariant)
    (h : insertResolve w row f v.mimetype v.image = ⟨some var, v.mimetype, v.image⟩) :
    insertField w row append v f = insertTail append v f var := by
  simp [insertField, h]

theorem insertField_of_skip (w : World) (row : Int) (append : Bool) (v : InsertVars)
    (f : CSVMapField)
    (h : insertResolve w row f v.mimetype v.image = ⟨none, v.mimetype, v.image⟩) :
    insertField w row append v f = v := by
  simp [insertField, h]

theorem updateField_of_resolve (w : World) (row : Int) (v : UpdateVars)
    (f : CSVMapField) (var : QVariant)
    (h : insertResolve w row f v.mimetype v.image = ⟨some var, v.mimetype, v.image⟩) :
    updateField w row v f = updateTail v f var := by
  simp [updateField, updateResolve_eq_insertResolve, h]

theorem updateField_of_skip (w : World) (row : Int) (v : UpdateVars) (f : CSVMapField)
    (h : insertResolve w row f v.mimetype v.image = ⟨none, v.mimetype, v.image⟩) :
    updateField w row v f = v := by
  simp [updateField, updateResolve_eq_insertResolve, h]

/-- The rest of the loop body of `insertAction` adds the name of the field to the
column list and its placeholder to the value list, and binds the placeholder
to the value; in Append mode a key field is bound in `wheres` as well. -/
theorem insertTail_includes (append : Bool) (v : InsertVars) (f : CSVMapField)
    (var : QVariant) :
    (insertTail append v f var).front
        = (if v.values ≠ [] then v.front ++ ", " else v.front) ++ f.name ∧
    (insertTail append v f var).back
        = (if v.values ≠ [] then v.back ++ ", " else v.back) ++ (":" ++ f.name) ∧
    QMap.find (insertTail append v f var).values (":" ++ f.name) = some var ∧
    (append = true → f.isKey = true →
      QMap.find (insertTail append v f var).wheres (":" ++ f.name) = some var) := by
  refine ⟨rfl, rfl, QMap.find_insert_self _ _ _, fun ha hk => ?_⟩
  simp [insertTail, ha, hk, QMap.find_insert_self]

/-- The rest of the loop body of `updateAction` adds the clause of a key field
to the WHERE clause and binds it in `wheres`, and adds the clause of any other
field to the SET clause and binds it in `values`. -/
theorem updateTail_includes (v : UpdateVars) (f : CSVMapField) (var : QVariant) :
    (f.isKey = true →
      (updateTail v f var).where_
          = (if v.wheres ≠ [] then v.where_ ++ " AND " else v.where_) ++
              (f.name ++ "=" ++ (":" ++ f.name)) ∧
        QMap.find (updateTail v f var).wheres (":" ++ f.name) = some var) ∧
    (f.isKey = false →
      (updateTail v f var).set
          = (if v.values ≠ [] then v.set ++ ", " else v.set) ++
              (f.name ++ "=" ++ (":" ++ f.name)) ∧
        QMap.find (updateTail v f var).values (":" ++ f.name) = some var) := by
  constructor
  · intro hk
    simp [updateTail, hk, QMap.find_insert_self]
  · intro hk
    simp [updateTail, hk, QMap.find_insert_self]

theorem insertIncluded_of_var (w : World) (row : Int) (append : Bool) (v : InsertVars)
    (f : CSVMapField) (var : QVariant)
    (h : (insertResolve w row f v.mimetype v.image).var = some var) :
    InsertIncluded append v (insertField w row append v f) f var := by
  have hstep : insertField w row append v f =
      insertTail append { v with
        mimetype := (insertResolve w row f v.mimetype v.image).mimetype,
        image := (insertResolve w row f v.mimetype v.image).image } f var := by
    simp only [insertField, h]
  rw [hstep]
  refine ⟨rfl, rfl, rfl, QMap.find_insert_self _ _ _, fun ha hk => ?_⟩
  simp [insertTail, ha, hk, QMap.find_insert_self]

theorem updateIncluded_of_var (w : World) (row : Int) (v : UpdateVars)
    (f : CSVMapField) (var : QVariant)
    (h : (insertResolve w row f v.mimetype v.image).var = some var) :
    UpdateIncluded v (updateField w row v f) f var := by
  have hstep : updateField w row v f =
      updateTail { v with
        mimetype := (insertResolve w row f v.mimetype v.image).mimetype,
        image := (insertResolve w row f v.mimetype v.image).image } f var := by
    simp only [updateField, updateResolve_eq_insertResolve, h]
  rw [hstep]
  constructor
  · intro hk
    simp [updateTail, hk, QMap.find_insert_self]
  · intro hk
    simp [updateTail, hk, QMap.find_insert_self]

theorem mem_resolveTrace (w : World) (row : Int) (f : CSVMapField) (var : QVariant)
    (h : ∀ mimetype image, (insertResolve w row f mimetype image).var = some var)
    (fields : List CSVMapField) (hf : f ∈ fields) (mimetype : String) (image : QImage) :
    (f, var) ∈ resolveTrace w row fields mimetype image := by
  induction fields generalizing mimetype image with
  | nil => simp at hf
  | cons g gs ih =>
    rcases List.mem_cons.mp hf with hfg | hmem
    · subst hfg
      simp [resolveTrace, h mimetype image]
    · cases hr : (insertResolve w row g mimetype image).var with
      | none =>
        simp only [resolveTrace, hr]
        exact ih hmem _ _
      | some v =>
        simp only [resolveTrace, hr]
        exact List.mem_cons_of_mem _ (ih hmem _ _)

theorem fieldIncluded_of_var (w : World) (row : Int) (f : CSVMapField) (append : Bool)
    (vi : InsertVars) (vu : UpdateVars) (var : QVariant)
    (h : ∀ mimetype image, (insertResolve w row f mimetype image).var = some var) :
    FieldIncluded w row f append vi vu var := by
  refine ⟨?_, insertIncluded_of_var w row append vi f var (h _ _),
    updateIncluded_of_var w row vu f var (h _ _), fun map s hs hf => ?_⟩
  · simp [skipped, h]
  · subst hs
    exact mem_resolveTrace w s._current f var h _ hf _ _

theorem fieldLeftOut_of_skip (w : World) (row : Int) (f : CSVMapField) (append : Bool)
    (vi : InsertVars) (vu : UpdateVars)
    (h : ∀ mimetype image, insertResolve w row f mimetype image = ⟨none, mimetype, image⟩) :
    FieldLeftOut w row f append vi vu := by
  have hsk : skipped w row f = true := by simp [skipped, h]
  refine ⟨hsk, insertField_of_skip _ _ _ _ _ (h _ _), updateField_of_skip _ _ _ _ (h _ _),
    fun map s hs p hp hpf => ?_⟩
  subst hs
  have hfst := resolveTrace_map_fst w s._current map.fields "" s.__image
  have hmem : p.1 ∈ (rowTrace w map s).map (fun p => p.1) := List.mem_map.mpr ⟨p, hp, rfl⟩
  unfold rowTrace at hmem
  rw [hfst, List.mem_filter, hpf, hsk] at hmem
  simp at hmem

theorem included_of_resolve (w : World) (row : Int) (f : CSVMapField) (append : Bool)
    (vi : InsertVars) (vu : UpdateVars) (var : QVariant)
    (h : ∀ mimetype image, insertResolve w row f mimetype image = ⟨some var, mimetype, image⟩) :
    (insertField w row append vi f = insertTail append vi f var ∧
      updateField w row vu f = updateTail vu f var) ∧
    FieldIncluded w row f append vi vu var :=
  ⟨⟨insertField_of_resolve _ _ _ _ _ _ (h _ _), updateField_of_resolve _ _ _ _ _ (h _ _)⟩,
    fieldIncluded_of_var w row f append vi vu var (fun m i => by rw [h])⟩

/-- C1: in the field loops of `insertAction` and `updateAction`, a field with
action `Action_UseColumn` whose cell at (row, column-1) is non-null is included
with exactly that cell value: its name and placeholder are written into the
statement text, the placeholder is bound to the value, and the field is among
the fields included on the row of every map that holds it.  When the cell is
null, `UseDefault` leaves the field out (the loop state is untouched: nothing
is added to the text or to the bindings), `UseEmptyString` includes the field
with the empty non-null string and `UseAlternateValue` includes it with the
field's `valueAlt`. -/
theorem useColumn_primary_policy (w : World) (row : Int) (f : CSVMapField) (append : Bool)
    (vi : InsertVars) (vu : UpdateVars) (h : f.action = Action.Action_UseColumn) :
    (∀ value, w.dataValue row (f.column - 1) = some value →
      (insertField w row append vi f
          = insertTail append vi f (QVariant.ofString (some value)) ∧
        updateField w row vu f = updateTail vu f (QVariant.ofString (some value))) ∧
      FieldIncluded w row f append vi vu (QVariant.ofString (some value))) ∧
    (w.dataValue row (f.column - 1) = none →
      (f.ifNullAction = IfNull.UseDefault → FieldLeftOut w row f append vi vu) ∧
      (f.ifNullAction = IfNull.UseEmptyString →
        (insertField w row append vi f
            = insertTail append vi f (QVariant.ofString (some "")) ∧
          updateField w row vu f = updateTail vu f (QVariant.ofString (some ""))) ∧
        FieldIncluded w row f append vi vu (QVariant.ofString (some ""))) ∧
      (f.ifNullAction = IfNull.UseAlternateValue →
        (insertField w row append vi f
            = insertTail append vi f (QVariant.ofString f.valueAlt) ∧
          updateField w row vu f = updateTail vu f (QVariant.ofString f.valueAlt)) ∧
        FieldIncluded w row f append vi vu (QVariant.ofString f.valueAlt))) := by
  refine ⟨fun value hv => ?_, fun hnull => ⟨fun hp => ?_, fun hp => ?_, fun hp => ?_⟩⟩
  · exact included_of_resolve _ _ _ _ _ _ _ (fun m i => by simp [insertResolve, h, hv])
  · exact fieldLeftOut_of_skip _ _ _ _ _ _ (fun m i => by simp [insertResolve, h, hnull, hp])
  · exact included_of_resolve _ _ _ _ _ _ _
      (fun m i => by simp [insertResolve, h, hnull, hp])
  · exact included_of_resolve _ _ _ _ _ _ _
      (fun m i => by simp [insertResolve, h, hnull, hp])

/-- C2: for an `Action_UseColumn` field whose primary cell is null and whose
`ifNullAction` is `UseAlternateColumn`, the field is included with the cell at
(row, columnAlt-1) when that cell is non-null.  When it is null too,
`ifNullActionAlt` decides: `UseDefault` leaves the field out, `UseEmptyString`
includes it with the empty string, `UseAlternateValue` with `valueAlt`, and
every other alternate policy (a second `UseAlternateColumn` included) with the
null-marker.  An included field has its name and placeholder written into the
statement text and its placeholder bound to the value, and is among the fields
included on the row of every map that holds it. -/
theorem useColumn_alternate_policy (w : World) (row : Int) (f : CSVMapField)
    (append : Bool) (vi : InsertVars) (vu : UpdateVars)
    (h : f.action = Action.Action_UseColumn)
    (hnull : w.dataValue row (f.column - 1) = none)
    (halt : f.ifNullAction = IfNull.UseAlternateColumn) :
    (∀ value, w.dataValue row (f.columnAlt - 1) = some value →
      (insertField w row append vi f
          = insertTail append vi f (QVariant.ofString (some value)) ∧
        updateField w row vu f = updateTail vu f (QVariant.ofString (some value))) ∧
      FieldIncluded w row f append vi vu (QVariant.ofString (some value))) ∧
    (w.dataValue row (f.columnAlt - 1) = none →
      (f.ifNullActionAlt = IfNull.UseDefault → FieldLeftOut w row f append vi vu) ∧
      (f.ifNullActionAlt = IfNull.UseEmptyString →
        (insertField w row append vi f
            = insertTail append vi f (QVariant.ofString (some "")) ∧
          updateField w row vu f = updateTail vu f (QVariant.ofString (some ""))) ∧
        FieldIncluded w row f append vi vu (QVariant.ofString (some ""))) ∧
      (f.ifNullActionAlt = IfNull.UseAlternateValue →
        (insertField w row append vi f
            = insertTail append vi f (QVariant.ofString f.valueAlt) ∧
          updateField w row vu f = updateTail vu f (QVariant.ofString f.valueAlt)) ∧
        FieldIncluded w row f append vi vu (QVariant.ofString f.valueAlt)) ∧
      (f.ifNullActionAlt ≠ IfNull.UseDefault → f.ifNullActionAlt ≠ IfNull.UseEmptyString →
        f.ifNullActionAlt ≠ IfNull.UseAlternateValue →
        (insertField w row append vi f = insertTail append vi f nullMarker ∧
          updateField w row vu f = updateTail vu f nullMarker) ∧
        FieldIncluded w row f append vi vu nullMarker)) := by
  refine ⟨fun value hv => ?_, fun hnull2 => ⟨fun hp => ?_, fun hp => ?_, fun hp => ?_,
    fun h1 h2 h3 => ?_⟩⟩
  · exact included_of_resolve _ _ _ _ _ _ _
      (fun m i => by simp [insertResolve, h, hnull, halt, hv])
  · exact fieldLeftOut_of_skip _ _ _ _ _ _
      (fun m i => by simp [insertResolve, h, hnull, halt, hnull2, hp])
  · exact included_of_resolve _ _ _ _ _ _ _
      (fun m i => by simp [insertResolve, h, hnull, halt, hnull2, hp])
  · exact included_of_resolve _ _ _ _ _ _ _
      (fun m i => by simp [insertResolve, h, hnull, halt, hnull2, hp])
  · refine included_of_resolve _ _ _ _ _ _ _ (fun m i => ?_)
    cases hp : f.ifNullActionAlt <;> simp_all [insertResolve, nullMarker]

/-- C3: whatever the row holds, a field with action `Action_UseEmptyString` is
included with the empty string, a field with action `Action_UseAlternateValue`
with its `valueAlt`, and a field with action `Action_UseNull` with the
null-marker: its name and placeholder are written into the statement text, the
placeholder is bound to the value, and the field is among the fields included
on the row of every map that holds it.  A field with any action other than
`Action_UseColumn`, `Action_SetColumnFromDataFile` and these three is left out:
the loop state is untouched, and it appears neither in the text nor in the
bindings. -/
theorem constant_actions (w : World) (row : Int) (f : CSVMapField) (append : Bool)
    (vi : InsertVars) (vu : UpdateVars) :
    (f.action = Action.Action_UseEmptyString →
      (insertField w row append vi f
          = insertTail append vi f (QVariant.ofString (some "")) ∧
        updateField w row vu f = updateTail vu f (QVariant.ofString (some ""))) ∧
      FieldIncluded w row f append vi vu (QVariant.ofString (some ""))) ∧
    (f.action = Action.Action_UseAlternateValue →
      (insertField w row append vi f
          = insertTail append vi f (QVariant.ofString f.valueAlt) ∧
        updateField w row vu f = updateTail vu f (QVariant.ofString f.valueAlt)) ∧
      FieldIncluded w row f append vi vu (QVariant.ofString f.valueAlt)) ∧
    (f.action = Action.Action_UseNull →
      (insertField w row append vi f = insertTail append vi f nullMarker ∧
        updateField w row vu f = updateTail vu f nullMarker) ∧
      FieldIncluded w row f append vi vu nullMarker) ∧
    (f.action ≠ Action.Action_UseColumn →
      f.action ≠ Action.Action_SetColumnFromDataFile →
      f.action ≠ Action.Action_UseEmptyString →
      f.action ≠ Action.Action_UseAlternateValue →
      f.action ≠ Action.Action_UseNull →
      FieldLeftOut w row f append vi vu) := by
  refine ⟨fun h => ?_, fun h => ?_, fun h => ?_, fun h1 h2 h3 h4 h5 => ?_⟩
  · exact included_of_resolve _ _ _ _ _ _ _ (fun m i => by simp [insertResolve, h])
  · exact included_of_resolve _ _ _ _ _ _ _ (fun m i => by simp [insertResolve, h])
  · exact included_of_resolve _ _ _ _ _ _ _
      (fun m i => by simp [insertResolve, h, nullMarker])
  · refine fieldLeftOut_of_skip _ _ _ _ _ _ (fun m i => ?_)
    cases hp : f.action <;> simp_all [insertResolve]

theorem insertField_of_resolve_image (w : World) (row : Int) (append : Bool)
    (v : InsertVars) (f : CSVMapField) (var : QVariant) (image : QImage)
    (h : insertResolve w row f v.mimetype v.image = ⟨some var, v.mimetype, image⟩) :
    insertField w row append v f = insertTail append { v with image := image } f var := by
  simp [insertField, h]

theorem updateField_of_resolve_image (w : World) (row : Int) (v : UpdateVars)
    (f : CSVMapField) (var : QVariant) (image : QImage)
    (h : insertResolve w row f v.mimetype v.image = ⟨some var, v.mimetype, image⟩) :
    updateField w row v f = updateTail { v with image := image } f var := by
  simp [updateField, updateResolve_eq_insertResolve, h]

theorem dataFile_not_skipped (w : World) (row : Int) (f : CSVMapField)
    (mimetype : String) (image : QImage)
    (h : f.action = Action.Action_SetColumnFromDataFile) :
    (insertResolve w row f mimetype image).var ≠ none := by
  unfold insertResolve
  rw [h]
  simp only []
  cases w.dataValue row (f.column - 1) with
  | none => simp
  | some fileName => cases f.fileType <;> simp [ite_var_some]

/-- C4: for a field with action `Action_SetColumnFromDataFile`, when the
filename cell at (row, column-1) is null, or when the loader chosen by the file
type (`imageLoadAndEncode` for `TYPE_IMAGE` and `TYPE_IMAGEENC`,
`docLoadAndEncode` for `TYPE_FILE`) returns `false`, the field is included with
the null-marker: its name and placeholder are written into the statement text
and the placeholder is bound to the null-marker.  When the failure does not
hang on the image left by an earlier call, the field is among the fields
included on the row of every map that holds it, with the null-marker.  Such a
field is never skipped, whatever the loop state. -/
theorem dataFile_failure_binds_null (w : World) (row : Int) (f : CSVMapField)
    (append : Bool) (vi : InsertVars) (vu : UpdateVars)
    (h : f.action = Action.Action_SetColumnFromDataFile) :
    (w.dataValue row (f.column - 1) = none →
      (insertField w row append vi f = insertTail append vi f nullMarker ∧
        updateField w row vu f = updateTail vu f nullMarker) ∧
      FieldIncluded w row f append vi vu nullMarker) ∧
    (∀ fileName, w.dataValue row (f.column - 1) = some fileName →
      (f.fileType = FileType.TYPE_IMAGE →
        ((imageLoadAndEncode w vi.image fileName false).1 = QVariant.ofBool false →
          insertField w row append vi f = insertTail append
            { vi with image := (imageLoadAndEncode w vi.image fileName false).2 } f
            nullMarker ∧
          InsertIncluded append vi (insertField w row append vi f) f nullMarker) ∧
        ((imageLoadAndEncode w vu.image fileName false).1 = QVariant.ofBool false →
          updateField w row vu f = updateTail
            { vu with image := (imageLoadAndEncode w vu.image fileName false).2 } f
            nullMarker ∧
          UpdateIncluded vu (updateField w row vu f) f nullMarker) ∧
        ((∀ image, (imageLoadAndEncode w image fileName false).1 = QVariant.ofBool false) →
          FieldIncluded w row f append vi vu nullMarker)) ∧
      (f.fileType = FileType.TYPE_IMAGEENC →
        ((imageLoadAndEncode w vi.image fileName true).1 = QVariant.ofBool false →
          insertField w row append vi f = insertTail append
            { vi with image := (imageLoadAndEncode w vi.image fileName true).2 } f
            nullMarker ∧
          InsertIncluded append vi (insertField w row append vi f) f nullMarker) ∧
        ((imageLoadAndEncode w vu.image fileName true).1 = QVariant.ofBool false →
          updateField w row vu f = updateTail
            { vu with image := (imageLoadAndEncode w vu.image fileName true).2 } f
            nullMarker ∧
          UpdateIncluded vu (updateField w row vu f) f nullMarker) ∧
        ((∀ image, (imageLoadAndEncode w image fileName true).1 = QVariant.ofBool false) →
          FieldIncluded w row f append vi vu nullMarker)) ∧
      (f.fileType = FileType.TYPE_FILE →
        docLoadAndEncode w fileName = QVariant.ofBool false →
        (insertField w row append vi f = insertTail append vi f nullMarker ∧
          updateField w row vu f = updateTail vu f nullMarker) ∧
        FieldIncluded w row f append vi vu nullMarker)) ∧
    skipped w row f = false ∧
    (insertResolve w row f vi.mimetype vi.image).var ≠ none ∧
    (updateResolve w row f vu.mimetype vu.image).var ≠ none := by
  refine ⟨fun hnull => ?_, fun fileName hv => ⟨fun ht => ⟨fun hl => ⟨?_, ?_⟩,
    fun hl => ⟨?_, ?_⟩, fun hall => ?_⟩, fun ht => ⟨fun hl => ⟨?_, ?_⟩, fun hl => ⟨?_, ?_⟩,
    fun hall => ?_⟩, fun ht hl => ?_⟩, ?_, ?_, ?_⟩
  · exact included_of_resolve _ _ _ _ _ _ _
      (fun m i => by simp [insertResolve, h, hnull, nullMarker])
  · exact insertField_of_resolve_image _ _ _ _ _ _ _
      (by simp [insertResolve, h, hv, ht, hl, nullMarker])
  · exact insertIncluded_of_var _ _ _ _ _ _
      (by simp [insertResolve, h, hv, ht, hl, nullMarker])
  · exact updateField_of_resolve_image _ _ _ _ _ _
      (by simp [insertResolve, h, hv, ht, hl, nullMarker])
  · exact updateIncluded_of_var _ _ _ _ _
      (by simp [insertResolve, h, hv, ht, hl, nullMarker])
  · exact fieldIncluded_of_var _ _ _ _ _ _ _
      (fun m i => by simp [insertResolve, h, hv, ht, hall i, nullMarker])
  · exact insertField_of_resolve_image _ _ _ _ _ _ _
      (by simp [insertResolve, h, hv, ht, hl, nullMarker])
  · exact insertIncluded_of_var _ _ _ _ _ _
      (by simp [insertResolve, h, hv, ht, hl, nullMarker])
  · exact updateField_of_resolve_image _ _ _ _ _ _
      (by simp [insertResolve, h, hv, ht, hl, nullMarker])
  · exact updateIncluded_of_var _ _ _ _ _
      (by simp [insertResolve, h, hv, ht, hl, nullMarker])
  · exact fieldIncluded_of_var _ _ _ _ _ _ _
      (fun m i => by simp [insertResolve, h, hv, ht, hall i, nullMarker])
  · exact included_of_resolve _ _ _ _ _ _ _
      (fun m i => by simp [insertResolve, h, hv, ht, hl, nullMarker])
  · have := dataFile_not_skipped w row f "" none h
    unfold skipped
    cases hr : (insertResolve w row f "" none).var with
    | none => exact absurd hr this
    | some v => rfl
  · exact dataFile_not_skipped w row f _ _ h
  · rw [updateResolve_eq_insertResolve]
    exact dataFile_not_skipped w row f _ _ h

/-! ## The actions in closed form -/

theorem insertAction_of_values_nil (w : World) (map : CSVMap) (append : Bool)
    (s : ToolState) (h : rowTrace w map s = []) :
    insertAction w map append s =
      { s with
        _ignored := s._ignored + 1,
        _errMsg := "IGNORED Record " ++ toString (s._current + 1) ++
          ": There are no columns to append",
        _errorList := s._errorList ++ ["IGNORED Record " ++ toString (s._current + 1) ++
          ": There are no columns to append"] } := by
  have hv : rowValues w map s = [] := (rowValues_eq_nil w map s).mpr h
  have hi := rowImage_of_trace_nil w map s h
  unfold insertAction
  simp only [insertLoop_eq, hv, hi, if_true]

theorem insertAction_of_values_ne_nil (w : World) (map : CSVMap) (append : Bool)
    (s : ToolState) (h : rowTrace w map s ≠ []) :
    insertAction w map append s =
      (let sql := "INSERT INTO " ++ map.table ++ " (" ++
          ", ".intercalate (rowColumns w map s) ++
          (if append = true then
            ")  SELECT " ++ ", ".intercalate ((rowColumns w map s).map (fun n => ":" ++ n)) ++
              "  WHERE NOT EXISTS (SELECT 1 FROM " ++ map.table ++ " WHERE " ++
              " AND ".intercalate ((keyPart (rowTrace w map s)).map (fun p => clause p.1)) ++
              ");"
           else
            ")  VALUES(" ++ ", ".intercalate ((rowColumns w map s).map (fun n => ":" ++ n)) ++
              ")")
        let q : Stmt := { sql := sql, bound := rowValues w map s }
        let nokey : List String :=
          if append = true ∧ keyPart (rowTrace w map s) = [] then
            ["No Key defined in Altas Map."] else []
        let failed : List String :=
          match w.exec s.executed q with
          | none => []
          | some e => ["ERROR Record " ++ toString (s._current + 1) ++ ": " ++ e]
        { s with
          __image := rowImage w map s,
          _error := s._error + nokey.length + failed.length,
          _errMsg := (nokey ++ failed).getLastD s._errMsg,
          _errorList := s._errorList ++ nokey ++ failed,
          executed := s.executed ++ [q] }) := by
  have hv : rowValues w map s ≠ [] := fun e => h ((rowValues_eq_nil w map s).mp e)
  have hb : bindAll [] (rowValues w map s) = rowValues w map s :=
    bindAll_nil_self _ (rowValues_keys_nodup w map s)
  have e1 : " (" = " " ++ "(" := by decide
  have e2 : ")  SELECT " = ") " ++ " SELECT " := by decide
  have e3 : "  WHERE NOT EXISTS (SELECT 1 FROM " = " " ++ " WHERE NOT EXISTS (SELECT 1 FROM " := by
    decide
  have e4 : ")  VALUES(" = ") " ++ " VALUES(" := by decide
  unfold insertAction
  simp only [insertLoop_eq, hv, hb, if_false, execStmt, ifTransaction, usetransaction,
    Bool.false_eq_true]
  cases append
  · simp only [Bool.false_eq_true, false_and, if_false, e1, e4, String.append_assoc]
    cases hx : w.exec s.executed _ <;> simp [hx]
  · by_cases hk : keyPart (rowTrace w map s) = []
    · simp only [true_and, if_true, hk, bindings, bindAll, List.map_nil, List.foldl_nil, e1,
        e2, e3, String.append_assoc]
      cases hx : w.exec s.executed _ <;> simp [hx, add_assoc]
    · have hw : bindAll [] (bindings (keyPart (rowTrace w map s))) ≠ [] := by
        intro e
        exact hk (by simpa [bindings] using ((bindAll_eq_nil _ _).mp e).2)
      simp only [true_and, if_true, hk, hw, if_false, e1, e2, e3, String.append_assoc]
      cases hx : w.exec s.executed _ <;> simp [hx]

theorem updateAction_of_values_nil (w : World) (map : CSVMap) (s : ToolState)
    (h : rowSetValues w map s = []) :
    updateAction w map s =
      { s with
        __image := rowImage w map s,
        _ignored := s._ignored + 1,
        _errMsg := "IGNORED Record " ++ toString (s._current + 1) ++
          ": There are no columns to update",
        _errorList := s._errorList ++ ["IGNORED Record " ++ toString (s._current + 1) ++
          ": There are no columns to update"] } := by
  unfold updateAction
  simp only [updateLoop_eq, h, if_true]

theorem updateAction_of_values_ne_nil (w : World) (map : CSVMap) (s : ToolState)
    (h : rowSetValues w map s ≠ []) :
    updateAction w map s =
      (let sql := "UPDATE " ++ map.table ++ " SET " ++
          ", ".intercalate ((setPart (rowTrace w map s)).map (fun p => clause p.1)) ++
          (if mimeSynthesized w map s then ", file_mime_type=:file_mime_type" else "") ++
          " WHERE " ++
          " AND ".intercalate ((keyPart (rowTrace w map s)).map (fun p => clause p.1))
        let q : Stmt :=
          { sql := sql,
            bound := bindAll (rowSetValues w map s)
              (bindAll [] (bindings (keyPart (rowTrace w map s)))) }
        let nokey : List String :=
          if keyPart (rowTrace w map s) = [] then ["No Key defined in Altas Map."] else []
        let failed : List String :=
          match w.exec s.executed q with
          | none => []
          | some e => ["ERROR Record " ++ toString (s._current + 1) ++ ": " ++ e]
        { s with
          __image := rowImage w map s,
          _error := s._error + nokey.length + failed.length,
          _errMsg := (nokey ++ failed).getLastD s._errMsg,
          _errorList := s._errorList ++ nokey ++ failed,
          executed := s.executed ++ [q] }) := by
  have hb : bindAll [] (rowSetValues w map s) = rowSetValues w map s :=
    bindAll_nil_self _ (rowSetValues_keys_nodup w map s)
  unfold updateAction
  simp only [updateLoop_eq, h, hb, if_false, execStmt, ifTransaction, usetransaction,
    Bool.false_eq_true]
  by_cases hk : keyPart (rowTrace w map s) = []
  · simp only [if_true, hk, bindings, bindAll, List.map_nil, List.foldl_nil,
      String.append_assoc]
    cases hx : w.exec s.executed _ <;> simp [hx, add_assoc]
  · have hw : bindAll [] (bindings (keyPart (rowTrace w map s))) ≠ [] := by
      intro e
      exact hk (by simpa [bindings] using ((bindAll_eq_nil _ _).mp e).2)
    simp only [hk, hw, if_false, String.append_assoc]
    cases hx : w.exec s.executed _ <;> simp [hx]

/-! ## Statement assembly and row accounting (claims C5 to C10) -/

theorem rowTrace_ne_nil_of_exists (w : World) (map : CSVMap) (s : ToolState)
    (h : ∃ f ∈ map.fields, skipped w s._current f = false) : rowTrace w map s ≠ [] := by
  intro hnil
  obtain ⟨f, hf, hsk⟩ := h
  have := (rowTrace_eq_nil w map s).mp hnil f hf
  rw [hsk] at this
  exact Bool.false_ne_true this

theorem keyPart_map_fst (w : World) (map : CSVMap) (s : ToolState) :
    (keyPart (rowTrace w map s)).map (fun p => p.1) =
      map.fields.filter (fun f => f.isKey && !skipped w s._current f) := by
  have h := resolveTrace_map_fst w s._current map.fields "" s.__image
  unfold keyPart rowTrace
  have hf : (resolveTrace w s._current map.fields "" s.__image).filter (fun p => p.1.isKey)
      = (resolveTrace w s._current map.fields "" s.__image).filter
          ((fun f : CSVMapField => f.isKey) ∘ (fun p => p.1)) := rfl
  rw [hf, ← List.filter_map, h, List.filter_filter]

theorem setPart_map_fst (w : World) (map : CSVMap) (s : ToolState) :
    (setPart (rowTrace w map s)).map (fun p => p.1) =
      map.fields.filter (fun f => !f.isKey && !skipped w s._current f) := by
  have h := resolveTrace_map_fst w s._current map.fields "" s.__image
  unfold setPart rowTrace
  have hf : (resolveTrace w s._current map.fields "" s.__image).filter (fun p => !p.1.isKey)
      = (resolveTrace w s._current map.fields "" s.__image).filter
          ((fun f : CSVMapField => !f.isKey) ∘ (fun p => p.1)) := rfl
  rw [hf, ← List.filter_map, h, List.filter_filter]

theorem eq_colon_append (x : String) : "=" ++ (":" ++ x) = "=:" ++ x := by
  rw [← String.append_assoc]
  rfl

theorem find_bindings_of_mem (tr : List (CSVMapField × QVariant))
    (hnd : (QMap.keys (bindings tr)).Nodup) (p : CSVMapField × QVariant) (hp : p ∈ tr) :
    QMap.find (bindings tr) (label p.1) = some p.2 :=
  QMap.find_of_mem _ _ _ hnd (List.mem_map.mpr ⟨p, hp, rfl⟩)

/-- C5: for action Insert, when the field names of the map are distinct, at
least one field is not skipped on the row and no MIME column is synthesized,
exactly one statement is handed to the executor.  Its text is
`INSERT INTO <table> (<n1>, <n2>, ...)  VALUES(:<n1>, :<n2>, ...)`, where the
names are those of the fields that are not skipped, in the order of the field
list of the map; its bindings are, in that order, each placeholder with the
value resolved for its field, and nothing else. -/
theorem insert_statement (w : World) (map : CSVMap) (s : ToolState)
    (hnd : (map.fields.map (fun f => f.name)).Nodup)
    (hsome : ∃ f ∈ map.fields, skipped w s._current f = false)
    (hmime : ¬ mimeSynthesized w map s) :
    (insertAction w map false s).executed = s.executed ++
      [{ sql := "INSERT INTO " ++ map.table ++ " (" ++
            ", ".intercalate ((rowTrace w map s).map (fun p => p.1.name)) ++
            ")  VALUES(" ++
            ", ".intercalate ((rowTrace w map s).map (fun p => ":" ++ p.1.name)) ++ ")",
         bound := (rowTrace w map s).map (fun p => (":" ++ p.1.name, p.2)) }] ∧
    (rowTrace w map s).map (fun p => p.1)
      = map.fields.filter (fun f => !skipped w s._current f) ∧
    ∀ p ∈ rowTrace w map s,
      QMap.find ((rowTrace w map s).map (fun p => (":" ++ p.1.name, p.2))) (":" ++ p.1.name)
        = some p.2 := by
  have hne := rowTrace_ne_nil_of_exists w map s hsome
  have hlab := rowTrace_labels_nodup w map s hnd
  have hcols : rowColumns w map s = (rowTrace w map s).map (fun p => p.1.name) := by
    simp [rowColumns, hmime]
  have hvals : rowValues w map s = bindings (rowTrace w map s) := by
    simp only [rowValues, hmime, if_false]
    exact bindAll_nil_self _ hlab
  refine ⟨?_, resolveTrace_map_fst w s._current map.fields "" s.__image, ?_⟩
  · rw [insertAction_of_values_ne_nil w map false s hne]
    simp [hcols, hvals, bindings, label, List.map_map, Function.comp_def,
      String.append_assoc]
  · intro p hp
    exact find_bindings_of_mem _ hlab p hp

/-- C6: for Insert, Append and Update alike, a row on which every field of the
map is skipped is ignored: the ignored count grows by exactly one, the error
count is unchanged, exactly one message `IGNORED Record <row + 1>: ...` is
appended to the error list, and no statement is handed to the executor. -/
theorem all_skipped_row_ignored (w : World) (map : CSVMap) (s : ToolState) (append : Bool)
    (h : ∀ f ∈ map.fields, skipped w s._current f = true) :
    IgnoredRow s (insertAction w map append s) "There are no columns to append" ∧
    IgnoredRow s (updateAction w map s) "There are no columns to update" := by
  have hnil := (rowTrace_eq_nil w map s).mpr h
  have hset : rowSetValues w map s = [] := by
    rw [rowSetValues_eq_nil]
    refine ⟨by simp [setPart, hnil], fun hs => ?_⟩
    exact mimeSynthesized_trace_ne_nil w map s hs hnil
  constructor
  · rw [insertAction_of_values_nil w map append s hnil]
    simp [IgnoredRow, String.append_assoc]
  · rw [updateAction_of_values_nil w map s hset]
    simp [IgnoredRow, String.append_assoc]

/-- C7: for action Append, the statements handed to the executor on a row are:
none when no column is included, and otherwise exactly the statement
`INSERT INTO <table> (<columns>)  SELECT <placeholders>  WHERE NOT EXISTS
(SELECT 1 FROM <table> WHERE <k1>=:<k1> AND <k2>=:<k2> ...);`, whose key
clauses are those of the fields marked `isKey` that are not skipped on the row,
in the order of the field list, and whose columns, placeholders and bindings
are the ones Insert uses on the same row. -/
theorem append_statement (w : World) (map : CSVMap) (s : ToolState) :
    (insertAction w map true s).executed = s.executed ++
      (if rowColumns w map s = [] then [] else
        [{ sql := "INSERT INTO " ++ map.table ++ " (" ++
              ", ".intercalate (rowColumns w map s) ++ ")  SELECT " ++
              ", ".intercalate ((rowColumns w map s).map (fun n => ":" ++ n)) ++
              "  WHERE NOT EXISTS (SELECT 1 FROM " ++ map.table ++ " WHERE " ++
              " AND ".intercalate
                ((keyPart (rowTrace w map s)).map (fun p => p.1.name ++ "=:" ++ p.1.name)) ++
              ");",
           bound := rowValues w map s }]) ∧
    (keyPart (rowTrace w map s)).map (fun p => p.1)
      = map.fields.filter (fun f => f.isKey && !skipped w s._current f) ∧
    (insertAction w map false s).executed = s.executed ++
      (if rowColumns w map s = [] then [] else
        [{ sql := "INSERT INTO " ++ map.table ++ " (" ++
              ", ".intercalate (rowColumns w map s) ++ ")  VALUES(" ++
              ", ".intercalate ((rowColumns w map s).map (fun n => ":" ++ n)) ++ ")",
           bound := rowValues w map s }]) := by
  refine ⟨?_, keyPart_map_fst w map s, ?_⟩
  · by_cases hnil : rowTrace w map s = []
    · rw [insertAction_of_values_nil w map true s hnil]
      simp [(rowColumns_eq_nil w map s).mpr hnil]
    · have hc : rowColumns w map s ≠ [] := fun e => hnil ((rowColumns_eq_nil w map s).mp e)
      rw [insertAction_of_values_ne_nil w map true s hnil]
      simp [hc, clause, label, eq_colon_append, String.append_assoc]
  · by_cases hnil : rowTrace w map s = []
    · rw [insertAction_of_values_nil w map false s hnil]
      simp [(rowColumns_eq_nil w map s).mpr hnil]
    · have hc : rowColumns w map s ≠ [] := fun e => hnil ((rowColumns_eq_nil w map s).mp e)
      rw [insertAction_of_values_ne_nil w map false s hnil]
      simp [hc, String.append_assoc]

theorem keyPart_setPart_perm (tr : List (CSVMapField × QVariant)) :
    (keyPart tr ++ setPart tr).Perm tr := by
  unfold keyPart setPart
  have h := List.filter_append_perm (fun p : CSVMapField × QVariant => p.1.isKey) tr
  have hf : (fun p : CSVMapField × QVariant => !p.1.isKey)
      = (fun x => !decide ((fun p : CSVMapField × QVariant => p.1.isKey) x = true)) := by
    funext x; simp
  rw [hf]
  simpa using h

theorem label_ne_of_name_ne (tr : List (CSVMapField × QVariant))
    (h : ∀ p ∈ tr, p.1.name ≠ "file_mime_type") :
    ":file_mime_type" ∉ QMap.keys (bindings tr) := by
  intro hmem
  simp only [QMap.keys, bindings, List.map_map, List.mem_map, Function.comp] at hmem
  obtain ⟨p, hp, he⟩ := hmem
  have e6 : ":file_mime_type" = ":" ++ "file_mime_type" := by decide
  rw [e6] at he
  exact h p hp (label_injective he)

theorem rowUpdateBound_keys_nodup (w : World) (map : CSVMap) (s : ToolState)
    (hnd : (map.fields.map (fun f => f.name)).Nodup) :
    (QMap.keys (rowUpdateBound w map s)).Nodup := by
  have hlab := rowTrace_labels_nodup w map s hnd
  have hperm : (QMap.keys (rowUpdateBound w map s)).Perm
      ((if mimeSynthesized w map s then [":file_mime_type"] else []) ++
        QMap.keys (bindings (rowTrace w map s))) := by
    have h1 := keyPart_setPart_perm (rowTrace w map s)
    have h2 : (QMap.keys (bindings (keyPart (rowTrace w map s) ++
        setPart (rowTrace w map s)))).Perm (QMap.keys (bindings (rowTrace w map s))) := by
      unfold QMap.keys bindings
      exact (h1.map _).map _
    refine List.Perm.trans ?_ (List.Perm.append_left _ h2)
    unfold rowUpdateBound
    have hx : ∀ (a b : List String) (x : String), (a ++ x :: b).Perm (x :: (b ++ a)) := by
      intro a b x
      exact (List.perm_middle).trans (List.Perm.cons _ List.perm_append_comm)
    split
    · simpa [QMap.keys, bindings] using hx _ _ _
    · simpa [QMap.keys, bindings] using List.perm_append_comm
  rw [hperm.nodup_iff]
  split
  · rename_i hs
    simp only [List.singleton_append, List.nodup_cons]
    exact ⟨label_ne_of_name_ne _ hs.1, hlab⟩
  · simpa using hlab

theorem rowUpdateBound_eq (w : World) (map : CSVMap) (s : ToolState)
    (hnd : (map.fields.map (fun f => f.name)).Nodup) :
    bindAll (rowSetValues w map s) (bindAll [] (bindings (keyPart (rowTrace w map s))))
      = rowUpdateBound w map s := by
  have hlab := rowTrace_labels_nodup w map s hnd
  have hall := rowUpdateBound_keys_nodup w map s hnd
  have hkeysub : (QMap.keys (bindings (keyPart (rowTrace w map s)))).Nodup :=
    List.Nodup.sublist (keys_bindings_sublist _ _ (List.filter_sublist _)) hlab
  have hsetsub : (QMap.keys (bindings (setPart (rowTrace w map s)))).Nodup :=
    List.Nodup.sublist (keys_bindings_sublist _ _ (List.filter_sublist _)) hlab
  have hset : rowSetValues w map s = bindings (setPart (rowTrace w map s)) ++
      (if mimeSynthesized w map s then
        [(":file_mime_type", QVariant.ofString (some (rowMime w map s)))] else []) := by
    unfold rowSetValues
    rw [bindAll_nil_self _ hsetsub]
    split
    · rename_i hs
      apply QMap.insert_fresh
      have := label_ne_of_name_ne (rowTrace w map s) hs.1
      intro hmem
      exact this ((keys_bindings_sublist _ _ (List.filter_sublist _)).subset hmem)
    · simp
  rw [bindAll_nil_self _ hkeysub, hset]
  apply bindAll_fresh
  have : QMap.keys (bindings (setPart (rowTrace w map s)) ++
      (if mimeSynthesized w map s then
        [(":file_mime_type", QVariant.ofString (some (rowMime w map s)))] else [])) ++
      QMap.keys (bindings (keyPart (rowTrace w map s))) =
      QMap.keys (rowUpdateBound w map s) := by
    simp [rowUpdateBound, QMap.keys]
  rw [this]
  exact hall

theorem setPart_ne_nil_of_exists (w : World) (map : CSVMap) (s : ToolState)
    (h : ∃ f ∈ map.fields, f.isKey = false ∧ skipped w s._current f = false) :
    setPart (rowTrace w map s) ≠ [] := by
  intro hnil
  obtain ⟨f, hf, hk, hsk⟩ := h
  have hmap := setPart_map_fst w map s
  rw [hnil] at hmap
  have hmem : f ∈ map.fields.filter (fun f => !f.isKey && !skipped w s._current f) := by
    simp [List.mem_filter, hf, hk, hsk]
  rw [← hmap] at hmem
  simp at hmem

theorem setPart_eq_nil_of_forall (w : World) (map : CSVMap) (s : ToolState)
    (h : ∀ f ∈ map.fields, f.isKey = false → skipped w s._current f = true) :
    setPart (rowTrace w map s) = [] := by
  have hmap := setPart_map_fst w map s
  have hfil : map.fields.filter (fun f => !f.isKey && !skipped w s._current f) = [] := by
    rw [List.filter_eq_nil_iff]
    intro f hf
    cases hk : f.isKey
    · simp [h f hf hk]
    · simp
  rw [hfil] at hmap
  simpa using hmap

theorem keyPart_eq_nil_of_forall (w : World) (map : CSVMap) (s : ToolState)
    (h : ∀ f ∈ map.fields, f.isKey = true → skipped w s._current f = true) :
    keyPart (rowTrace w map s) = [] := by
  have hmap := keyPart_map_fst w map s
  have hfil : map.fields.filter (fun f => f.isKey && !skipped w s._current f) = [] := by
    rw [List.filter_eq_nil_iff]
    intro f hf
    cases hk : f.isKey
    · simp
    · simp [h f hf hk]
  rw [hfil] at hmap
  simpa using hmap

/-- C8, as amended: for action Update, when the field names of the map are
distinct and at least one field that is not a key is not skipped on the row,
exactly one statement is handed to the executor.  Its text is
`UPDATE <table> SET <s1>=:<s1>, <s2>=:<s2> ... WHERE <k1>=:<k1> AND ...`: the
WHERE clause holds exactly the key fields that are not skipped, the SET clause
exactly the other fields that are not skipped, each in the order of the field
list, and the SET clause ends with the extra item
`file_mime_type=:file_mime_type` when the MIME column is synthesized.  Every
placeholder of both clauses is bound to the value resolved for its field, and
`:file_mime_type` to the detected MIME type. -/
theorem update_statement (w : World) (map : CSVMap) (s : ToolState)
    (hnd : (map.fields.map (fun f => f.name)).Nodup)
    (hset : ∃ f ∈ map.fields, f.isKey = false ∧ skipped w s._current f = false) :
    (updateAction w map s).executed = s.executed ++
      [{ sql := "UPDATE " ++ map.table ++ " SET " ++
            ", ".intercalate
              ((setPart (rowTrace w map s)).map (fun p => p.1.name ++ "=:" ++ p.1.name) ++
                (if mimeSynthesized w map s then ["file_mime_type=:file_mime_type"]
                 else [])) ++
            " WHERE " ++
            " AND ".intercalate
              ((keyPart (rowTrace w map s)).map (fun p => p.1.name ++ "=:" ++ p.1.name)),
         bound := rowUpdateBound w map s }] ∧
    (setPart (rowTrace w map s)).map (fun p => p.1)
      = map.fields.filter (fun f => !f.isKey && !skipped w s._current f) ∧
    (keyPart (rowTrace w map s)).map (fun p => p.1)
      = map.fields.filter (fun f => f.isKey && !skipped w s._current f) ∧
    (∀ p ∈ rowTrace w map s,
      QMap.find (rowUpdateBound w map s) (":" ++ p.1.name) = some p.2) ∧
    (mimeSynthesized w map s →
      QMap.find (rowUpdateBound w map s) ":file_mime_type"
        = some (QVariant.ofString (some (rowMime w map s)))) := by
  have hsp := setPart_ne_nil_of_exists w map s hset
  have hne : rowSetValues w map s ≠ [] := by
    intro e
    exact hsp ((rowSetValues_eq_nil w map s).mp e).1
  have hknd := rowUpdateBound_keys_nodup w map s hnd
  refine ⟨?_, setPart_map_fst w map s, keyPart_map_fst w map s, ?_, ?_⟩
  · rw [updateAction_of_values_ne_nil w map s hne, rowUpdateBound_eq w map s hnd]
    have hsep : ", ".intercalate
          ((setPart (rowTrace w map s)).map (fun p => p.1.name ++ "=:" ++ p.1.name) ++
            (if mimeSynthesized w map s then ["file_mime_type=:file_mime_type"] else []))
        = ", ".intercalate ((setPart (rowTrace w map s)).map (fun p => clause p.1)) ++
            (if mimeSynthesized w map s then ", file_mime_type=:file_mime_type" else "") := by
      have hcl : (setPart (rowTrace w map s)).map (fun p => p.1.name ++ "=:" ++ p.1.name)
          = (setPart (rowTrace w map s)).map (fun p => clause p.1) := by
        apply List.map_congr_left
        intro p _
        simp [clause, label, eq_colon_append, String.append_assoc]
      rw [hcl]
      split
      · rw [← sepItems_false, ← sepItems_false, sepItems_true_append]
        have e7 : ", file_mime_type=:file_mime_type" = ", " ++ "file_mime_type=:file_mime_type" := by
          decide
        simp [hsp, e7]
      · simp
    have hcw : (keyPart (rowTrace w map s)).map (fun p => p.1.name ++ "=:" ++ p.1.name)
        = (keyPart (rowTrace w map s)).map (fun p => clause p.1) := by
      apply List.map_congr_left
      intro p _
      simp [clause, label, eq_colon_append, String.append_assoc]
    rw [hsep, hcw]
    simp only [String.append_assoc]
  · intro p hp
    apply QMap.find_of_mem _ _ _ hknd
    have hperm := keyPart_setPart_perm (rowTrace w map s)
    have hp2 : p ∈ keyPart (rowTrace w map s) ++ setPart (rowTrace w map s) :=
      hperm.mem_iff.mpr hp
    simp only [rowUpdateBound, List.mem_append, bindings, List.mem_map]
    rcases List.mem_append.mp hp2 with hk | hs
    · exact Or.inr ⟨p, hk, rfl⟩
    · exact Or.inl (Or.inl ⟨p, hs, rfl⟩)
  · intro hs
    apply QMap.find_of_mem _ _ _ hknd
    simp [rowUpdateBound, hs]

/-- C9: for action Update, a row whose SET list is empty (no field other than
the key fields is included, and no MIME column is synthesized) is ignored even
when key fields resolved: the ignored count grows by one, the error count is
unchanged, the message
`IGNORED Record <row + 1>: There are no columns to update` is appended, and no
statement is handed to the executor. -/
theorem update_empty_set_ignored (w : World) (map : CSVMap) (s : ToolState)
    (hset : ∀ f ∈ map.fields, f.isKey = false → skipped w s._current f = true)
    (hmime : ¬ mimeSynthesized w map s) :
    IgnoredRow s (updateAction w map s) "There are no columns to update" := by
  have hnil : rowSetValues w map s = [] :=
    (rowSetValues_eq_nil w map s).mpr ⟨setPart_eq_nil_of_forall w map s hset, hmime⟩
  rw [updateAction_of_values_nil w map s hnil]
  simp [IgnoredRow, String.append_assoc]

/-- C10, as amended: for actions Update and Append, on a row on which every
field marked `isKey` is skipped while at least one field is not skipped, the
error count increases, the ignored count does not change, and the message
appended to the error list for the missing key is exactly
`No Key defined in Altas Map.`. -/
theorem no_key_row_error (w : World) (map : CSVMap) (s : ToolState)
    (hkey : ∀ f ∈ map.fields, f.isKey = true → skipped w s._current f = true)
    (hsome : ∃ f ∈ map.fields, skipped w s._current f = false) :
    (s._error < (insertAction w map true s)._error ∧
      (insertAction w map true s)._ignored = s._ignored ∧
      ∃ rest, (insertAction w map true s)._errorList
        = s._errorList ++ "No Key defined in Altas Map." :: rest) ∧
    (s._error < (updateAction w map s)._error ∧
      (updateAction w map s)._ignored = s._ignored ∧
      ∃ rest, (updateAction w map s)._errorList
        = s._errorList ++ "No Key defined in Altas Map." :: rest) := by
  have hk := keyPart_eq_nil_of_forall w map s hkey
  have hne := rowTrace_ne_nil_of_exists w map s hsome
  have hset : rowSetValues w map s ≠ [] := by
    intro e
    have hsp := ((rowSetValues_eq_nil w map s).mp e).1
    have hperm := keyPart_setPart_perm (rowTrace w map s)
    rw [hk, hsp] at hperm
    exact hne (List.Perm.nil_eq hperm).symm
  constructor
  · rw [insertAction_of_values_ne_nil w map true s hne]
    simp only [hk, and_self, if_true]
    split
    · simp
    · simp; omega
  · rw [updateAction_of_values_ne_nil w map s hset]
    simp only [hk, if_true]
    split
    · simp
    · simp; omega

/-! ## Concrete instances -/

/-- C1 at concrete inputs: on record 1 the key `id` is written into the text of
the Insert statement and bound to the cell `1`, and Update binds it among the
keys; on record 3, where the cell is null and the policy `UseDefault`, the
field is left out; on record 2 `name` is bound to the empty string. -/
theorem useColumn_primary_policy_witness :
    (fieldId.action = Action.Action_UseColumn ∧
      fieldName.action = Action.Action_UseColumn ∧
      demoWorld.dataValue 0 (fieldId.column - 1) = some "1" ∧
      demoWorld.dataValue 2 (fieldId.column - 1) = none ∧
      demoWorld.dataValue 1 (fieldName.column - 1) = none) ∧
    (insertField demoWorld 0 false (insertStart false) fieldId).front = "(id" ∧
    (insertField demoWorld 0 false (insertStart false) fieldId).back = " VALUES(:id" ∧
    (insertField demoWorld 0 false (insertStart false) fieldId).values
      = [(":id", QVariant.ofString (some "1"))] ∧
    (updateField demoWorld 0 updateStart fieldId).where_ = " WHERE id=:id" ∧
    QMap.find (updateField demoWorld 0 updateStart fieldId).wheres ":id"
      = some (QVariant.ofString (some "1")) ∧
    (fieldId, QVariant.ofString (some "1"))
      ∈ rowTrace demoWorld (demoMap MapAction.Insert) (rowState 0) ∧
    updateField demoWorld 2 updateStart fieldId = updateStart ∧
    (∀ p ∈ rowTrace demoWorld (demoMap MapAction.Update) (rowState 2), p.1 ≠ fieldId) ∧
    (insertField demoWorld 1 true (insertStart true) fieldName).values
      = [(":name", QVariant.ofString (some ""))] := by
  have h0 := (useColumn_primary_policy demoWorld 0 fieldId false (insertStart false)
    updateStart rfl).1 "1" (by decide)
  have h2 := ((useColumn_primary_policy demoWorld 2 fieldId false (insertStart false)
    updateStart rfl).2 (by decide)).1 rfl
  have h1 := ((useColumn_primary_policy demoWorld 1 fieldName true (insertStart true)
    updateStart rfl).2 (by decide)).2.1 rfl
  obtain ⟨_, _, ⟨hf, hb, hv, _, _⟩, hu, htr⟩ := h0
  obtain ⟨_, _, hu2, htr2⟩ := h2
  obtain ⟨_, _, ⟨_, _, hv1, _, _⟩, _, _⟩ := h1
  exact ⟨⟨rfl, rfl, by decide, by decide, by decide⟩, hf.trans (by decide),
    hb.trans (by decide), hv.trans (by decide), (hu.1 rfl).1.trans (by decide),
    (hu.1 rfl).2.2, htr _ _ rfl (by decide), hu2, htr2 _ _ rfl, hv1.trans (by decide)⟩

/-- C2 at concrete inputs: on record 2 both the primary and the alternate cell
of `nick` are null; with the alternate policy `UseAlternateColumn` the field is
written into the statement and bound to the null-marker; with the alternate
policy `UseDefault` it is left out. -/
theorem useColumn_alternate_policy_witness :
    ((fieldNick IfNull.UseAlternateColumn).action = Action.Action_UseColumn ∧
      demoWorld.dataValue 1 ((fieldNick IfNull.UseAlternateColumn).column - 1) = none ∧
      (fieldNick IfNull.UseAlternateColumn).ifNullAction = IfNull.UseAlternateColumn ∧
      demoWorld.dataValue 1 ((fieldNick IfNull.UseAlternateColumn).columnAlt - 1) = none) ∧
    (insertField demoWorld 1 false (insertStart false)
      (fieldNick IfNull.UseAlternateColumn)).front = "(nick" ∧
    (insertField demoWorld 1 false (insertStart false)
      (fieldNick IfNull.UseAlternateColumn)).values = [(":nick", nullMarker)] ∧
    (updateField demoWorld 1 updateStart (fieldNick IfNull.UseAlternateColumn)).set
      = "nick=:nick" ∧
    (updateField demoWorld 1 updateStart (fieldNick IfNull.UseAlternateColumn)).values
      = [(":nick", nullMarker)] ∧
    insertField demoWorld 1 false (insertStart false) (fieldNick IfNull.UseDefault)
      = insertStart false := by
  have h1 := ((useColumn_alternate_policy demoWorld 1 (fieldNick IfNull.UseAlternateColumn)
    false (insertStart false) updateStart rfl (by decide) rfl).2 (by decide)).2.2.2
      (by decide) (by decide) (by decide)
  have h2 := ((useColumn_alternate_policy demoWorld 1 (fieldNick IfNull.UseDefault)
    false (insertStart false) updateStart rfl (by decide) rfl).2 (by decide)).1 rfl
  obtain ⟨_, _, ⟨hf, _, hv, _, _⟩, hu, _⟩ := h1
  obtain ⟨_, hi2, _, _⟩ := h2
  exact ⟨⟨rfl, by decide, rfl, by decide⟩, hf.trans (by decide), hv.trans (by decide),
    (hu.2 rfl).1.trans (by decide), (hu.2 rfl).2.1.trans (by decide), hi2⟩

/-- C3 at concrete inputs: a field with action `Action_UseNull` is written into
the Append statement of record 1 as a key bound to the null-marker, a field
with action `Action_UseAlternateValue` is bound to its `valueAlt`, and a field
with action `Action_Default` is left out. -/
theorem constant_actions_witness :
    (fieldIdNull.action = Action.Action_UseNull ∧
      (mkField "c" false Action.Action_UseAlternateValue 1 IfNull.Nothing).action
        = Action.Action_UseAlternateValue) ∧
    (insertField demoWorld 0 true (insertStart true) fieldIdNull).back = " SELECT :id" ∧
    (insertField demoWorld 0 true (insertStart true) fieldIdNull).wherenot
      = " WHERE NOT EXISTS (SELECT 1 FROM t WHERE id=:id" ∧
    (insertField demoWorld 0 true (insertStart true) fieldIdNull).wheres
      = [(":id", nullMarker)] ∧
    (updateField demoWorld 0 updateStart
      (mkField "c" false Action.Action_UseAlternateValue 1 IfNull.Nothing)).values
        = [(":c", QVariant.ofString (some "alt"))] ∧
    updateField demoWorld 0 updateStart
      (mkField "d" false Action.Action_Default 1 IfNull.Nothing) = updateStart := by
  have h1 := (constant_actions demoWorld 0 fieldIdNull true (insertStart true)
    updateStart).2.2.1 rfl
  have h2 := (constant_actions demoWorld 0
    (mkField "c" false Action.Action_UseAlternateValue 1 IfNull.Nothing) true
    (insertStart true) updateStart).2.1 rfl
  have h3 := (constant_actions demoWorld 0
    (mkField "d" false Action.Action_Default 1 IfNull.Nothing) true
    (insertStart true) updateStart).2.2.2 (by decide) (by decide) (by decide) (by decide)
    (by decide)
  obtain ⟨_, _, ⟨_, hb, _, _, hk⟩, _, _⟩ := h1
  obtain ⟨_, _, _, hu, _⟩ := h2
  obtain ⟨_, _, hu3, _⟩ := h3
  exact ⟨⟨rfl, rfl⟩, hb.trans (by decide), (hk rfl rfl).1.trans (by decide),
    (hk rfl rfl).2.1.trans (by decide), (hu.2 rfl).2.1.trans (by decide), hu3⟩

/-- C4 at concrete inputs: on record 3 the document `missing.txt` does not
exist, the loader returns `false`, and `doc` is written into the statement and
bound to the null-marker; on record 2 the filename cell is null and Update
binds `doc` to the null-marker; on record 3 the image `x` cannot be encoded in
a fresh tool window and `pic` is bound to the null-marker. -/
theorem dataFile_failure_binds_null_witness :
    (fieldDoc.action = Action.Action_SetColumnFromDataFile ∧
      fieldPic.action = Action.Action_SetColumnFromDataFile ∧
      demoWorld.dataValue 2 (fieldDoc.column - 1) = some "missing.txt" ∧
      docLoadAndEncode demoWorld "missing.txt" = QVariant.ofBool false ∧
      demoWorld.dataValue 1 (fieldDoc.column - 1) = none ∧
      demoWorld.dataValue 2 (fieldPic.column - 1) = some "x" ∧
      (imageLoadAndEncode demoWorld (insertStart false).image "x" false).1
        = QVariant.ofBool false) ∧
    (insertField demoWorld 2 false (insertStart false) fieldDoc).front = "(doc" ∧
    (insertField demoWorld 2 false (insertStart false) fieldDoc).back = " VALUES(:doc" ∧
    (insertField demoWorld 2 false (insertStart false) fieldDoc).values
      = [(":doc", nullMarker)] ∧
    (fieldDoc, nullMarker) ∈ rowTrace demoWorld (docMap MapAction.Insert) (rowState 2) ∧
    (updateField demoWorld 1 updateStart fieldDoc).set = "doc=:doc" ∧
    (updateField demoWorld 1 updateStart fieldDoc).values = [(":doc", nullMarker)] ∧
    (insertField demoWorld 2 false (insertStart false) fieldPic).values
      = [(":pic", nullMarker)] := by
  have h1 := ((dataFile_failure_binds_null demoWorld 2 fieldDoc false (insertStart false)
    updateStart rfl).2.1 "missing.txt" (by decide)).2.2 rfl (by decide)
  have h2 := (dataFile_failure_binds_null demoWorld 1 fieldDoc false (insertStart false)
    updateStart rfl).1 (by decide)
  have h3 := (((dataFile_failure_binds_null demoWorld 2 fieldPic false (insertStart false)
    updateStart rfl).2.1 "x" (by decide)).1 rfl).1 (by decide)
  obtain ⟨_, _, ⟨hf, hb, hv, _, _⟩, _, htr⟩ := h1
  obtain ⟨_, _, _, hu, _⟩ := h2
  obtain ⟨_, _, _, hv3, _, _⟩ := h3
  exact ⟨⟨rfl, rfl, by decide, by decide, by decide, by decide, by decide⟩,
    hf.trans (by decide), hb.trans (by decide), hv.trans (by decide),
    htr _ _ rfl (by decide), (hu.2 rfl).1.trans (by decide),
    (hu.2 rfl).2.1.trans (by decide), hv3.trans (by decide)⟩

/-- C5 at a concrete input: record 2 of the demo table, whose `name` cell is
null, is inserted with `name` bound to the empty string. -/
theorem insert_statement_witness :
    (((demoMap MapAction.Insert).fields.map (fun f => f.name)).Nodup ∧
      (∃ f ∈ (demoMap MapAction.Insert).fields,
        skipped demoWorld (rowState 1)._current f = false) ∧
      ¬ mimeSynthesized demoWorld (demoMap MapAction.Insert) (rowState 1)) ∧
    (insertAction demoWorld (demoMap MapAction.Insert) false (rowState 1)).executed =
      [{ sql := "INSERT INTO t (id, name)  VALUES(:id, :name)",
         bound := [(":id", QVariant.ofString (some "2")),
                   (":name", QVariant.ofString (some ""))] }] :=
  ⟨⟨by decide, by decide, by decide⟩,
    (insert_statement demoWorld (demoMap MapAction.Insert) (rowState 1)
      (by decide) (by decide) (by decide)).1⟩

/-- C6 at a concrete input: on record 3 the only field `id` is skipped, and the
row is ignored by Insert, Append and Update. -/
theorem all_skipped_row_ignored_witness :
    (∀ f ∈ (keyOnlyMap MapAction.Append).fields,
      skipped demoWorld (rowState 2)._current f = true) ∧
    IgnoredRow (rowState 2)
      (insertAction demoWorld (keyOnlyMap MapAction.Append) true (rowState 2))
      "There are no columns to append" ∧
    IgnoredRow (rowState 2) (updateAction demoWorld (keyOnlyMap MapAction.Append) (rowState 2))
      "There are no columns to update" :=
  ⟨by decide,
    all_skipped_row_ignored demoWorld (keyOnlyMap MapAction.Append) (rowState 2) true
      (by decide)⟩

/-- C8 as stated fails: on record 1 of the demo table, with the non-key fields
`name` and `doc` included, the SET clause of the Update statement holds the
extra item `file_mime_type=:file_mime_type`, which is no field of the map. -/
theorem update_statement_counterexample :
    ((docMap MapAction.Update).fields.map (fun f => f.name)).Nodup ∧
    (updateAction demoWorld (docMap MapAction.Update) (rowState 0)).executed =
      [{ sql := "UPDATE t SET name=:name, doc=:doc, file_mime_type=:file_mime_type WHERE id=:id",
         bound := [(":name", QVariant.ofString (some "Ann")),
                   (":doc", QVariant.ofByteArray "hello"),
                   (":file_mime_type", QVariant.ofString (some "text/plain")),
                   (":id", QVariant.ofString (some "1"))] }] ∧
    ¬ (∀ q ∈ (updateAction demoWorld (docMap MapAction.Update) (rowState 0)).executed,
        q.sql = "UPDATE " ++ (docMap MapAction.Update).table ++ " SET " ++
          ", ".intercalate
            (((docMap MapAction.Update).fields.filter
              (fun f => !f.isKey && !skipped demoWorld 0 f)).map
                (fun f => f.name ++ "=:" ++ f.name)) ++
          " WHERE " ++
          " AND ".intercalate
            (((docMap MapAction.Update).fields.filter
              (fun f => f.isKey && !skipped demoWorld 0 f)).map
                (fun f => f.name ++ "=:" ++ f.name))) := by
  decide

/-- C8 as amended, at a concrete input: record 1 of the demo table. -/
theorem update_statement_witness :
    (((docMap MapAction.Update).fields.map (fun f => f.name)).Nodup ∧
      ∃ f ∈ (docMap MapAction.Update).fields,
        f.isKey = false ∧ skipped demoWorld (rowState 0)._current f = false) ∧
    (updateAction demoWorld (docMap MapAction.Update) (rowState 0)).executed =
      [{ sql := "UPDATE t SET name=:name, doc=:doc, file_mime_type=:file_mime_type WHERE id=:id",
         bound := [(":name", QVariant.ofString (some "Ann")),
                   (":doc", QVariant.ofByteArray "hello"),
                   (":file_mime_type", QVariant.ofString (some "text/plain")),
                   (":id", QVariant.ofString (some "1"))] }] :=
  ⟨⟨by decide, by decide⟩,
    (update_statement demoWorld (docMap MapAction.Update) (rowState 0)
      (by decide) (by decide)).1⟩

/-- C9 at a concrete input: on record 1 the key `id` resolves, there is no
other field, and Update ignores the row. -/
theorem update_empty_set_ignored_witness :
    ((∀ f ∈ (keyOnlyMap MapAction.Update).fields,
        f.isKey = false → skipped demoWorld (rowState 0)._current f = true) ∧
      ¬ mimeSynthesized demoWorld (keyOnlyMap MapAction.Update) (rowState 0) ∧
      skipped demoWorld (rowState 0)._current fieldId = false) ∧
    IgnoredRow (rowState 0)
      (updateAction demoWorld (keyOnlyMap MapAction.Update) (rowState 0))
      "There are no columns to update" :=
  ⟨⟨by decide, by decide, by decide⟩,
    update_empty_set_ignored demoWorld (keyOnlyMap MapAction.Update) (rowState 0)
      (by decide) (by decide)⟩

/-- C10 as stated fails.  On record 3 the key `id` is skipped and `name` is
included: the message recorded by Append is `No Key defined in Altas Map.`, not
`No Key defined in map.`.  With `id` as the only field the same record is
ignored and no error is counted.  A key bound to the null-marker counts as a
key: no error is counted and no message is appended. -/
theorem no_key_row_error_counterexample :
    (insertAction demoWorld (demoMap MapAction.Append) true (rowState 2))._errorList
      = ["No Key defined in Altas Map."] ∧
    "No Key defined in map." ∉
      (insertAction demoWorld (demoMap MapAction.Append) true (rowState 2))._errorList ∧
    "No Key defined in map." ∉
      (updateAction demoWorld (demoMap MapAction.Update) (rowState 2))._errorList ∧
    (insertAction demoWorld (keyOnlyMap MapAction.Append) true (rowState 2))._error = 0 ∧
    (insertAction demoWorld (keyOnlyMap MapAction.Append) true (rowState 2))._ignored = 1 ∧
    (updateAction demoWorld (keyOnlyMap MapAction.Update) (rowState 2))._error = 0 ∧
    (updateAction demoWorld (keyOnlyMap MapAction.Update) (rowState 2))._ignored = 1 ∧
    (insertAction demoWorld (mkMap MapAction.Append [fieldIdNull, fieldName]) true
      (rowState 0))._error = 0 ∧
    (insertAction demoWorld (mkMap MapAction.Append [fieldIdNull, fieldName]) true
      (rowState 0))._errorList = [] := by
  decide

/-- C10 as amended, at a concrete input: on record 3 the key `id` is skipped
and `name` is included. -/
theorem no_key_row_error_witness :
    ((∀ f ∈ (demoMap MapAction.Append).fields,
        f.isKey = true → skipped demoWorld (rowState 2)._current f = true) ∧
      ∃ f ∈ (demoMap MapAction.Append).fields,
        skipped demoWorld (rowState 2)._current f = false) ∧
    (rowState 2)._error
      < (insertAction demoWorld (demoMap MapAction.Append) true (rowState 2))._error ∧
    (rowState 2)._error
      < (updateAction demoWorld (demoMap MapAction.Append) (rowState 2))._error :=
  ⟨⟨by decide, by decide⟩,
    (no_key_row_error demoWorld (demoMap MapAction.Append) (rowState 2)
      (by decide) (by decide)).1.1,
    (no_key_row_error demoWorld (demoMap MapAction.Append) (rowState 2)
      (by decide) (by decide)).2.1⟩

/-! ## The run in closed form -/

theorem insertAction_frame (w : World) (map : CSVMap) (append : Bool) (s : ToolState) :
    (insertAction w map append s)._current = s._current ∧
      (insertAction w map append s)._total = s._total := by
  by_cases h : rowTrace w map s = []
  · rw [insertAction_of_values_nil w map append s h]
    exact ⟨rfl, rfl⟩
  · rw [insertAction_of_values_ne_nil w map append s h]
    exact ⟨rfl, rfl⟩

theorem updateAction_frame (w : World) (map : CSVMap) (s : ToolState) :
    (updateAction w map s)._current = s._current ∧
      (updateAction w map s)._total = s._total := by
  by_cases h : rowSetValues w map s = []
  · rw [updateAction_of_values_nil w map s h]
    exact ⟨rfl, rfl⟩
  · rw [updateAction_of_values_ne_nil w map s h]
    exact ⟨rfl, rfl⟩

theorem rowAction_frame (w : World) (map : CSVMap) (s : ToolState) :
    (rowAction w map s)._current = s._current ∧ (rowAction w map s)._total = s._total := by
  unfold rowAction
  split
  · exact insertAction_frame w map false s
  · exact updateAction_frame w map s
  · exact insertAction_frame w map true s
  · exact ⟨rfl, rfl⟩

theorem handleRow_frame (w : World) (map : CSVMap) (s : ToolState) (i : Nat) :
    (handleRow w map s i)._current = (i : Int) ∧ (handleRow w map s i)._total = s._total := by
  unfold handleRow
  have h := rowAction_frame w map
    (ifTransaction { s with _current := (i : Int) } "SAVEPOINT csvinsert;")
  simpa [ifTransaction, usetransaction] using h

theorem handleRow_of_current (w : World) (map : CSVMap) (s : ToolState) (i : Nat)
    (h : s._current = (i : Int)) :
    rowAction w map (ifTransaction s "SAVEPOINT csvinsert;") = handleRow w map s i := by
  unfold handleRow
  have : { s with _current := (i : Int) } = s := by
    cases s
    simp only [ToolState.mk.injEq] at *
    simp_all
  rw [this]

theorem foldl_handleRow_total (w : World) (map : CSVMap) (l : List Nat) (s : ToolState) :
    (l.foldl (handleRow w map) s)._total = s._total := by
  induction l generalizing s with
  | nil => rfl
  | cons i rest ih =>
    rw [List.foldl_cons, ih]
    exact (handleRow_frame w map s i).2

theorem foldl_handleRow_range_succ (w : World) (map : CSVMap) (i : Nat) (s : ToolState) :
    (List.range (i + 1)).foldl (handleRow w map) s
      = handleRow w map ((List.range i).foldl (handleRow w map) s) i := by
  rw [List.range_succ, List.foldl_append]
  rfl

theorem foldl_handleRow_current (w : World) (map : CSVMap) (i : Nat) (s : ToolState) :
    ((List.range (i + 1)).foldl (handleRow w map) s)._current = (i : Int) := by
  rw [foldl_handleRow_range_succ]
  exact (handleRow_frame w map _ i).1

theorem handleRow_set_current (w : World) (map : CSVMap) (s : ToolState) (x : Int)
    (j : Nat) : handleRow w map { s with _current := x } j = handleRow w map s j := rfl

theorem foldl_handleRow_set_current (w : World) (map : CSVMap) (l : List Nat)
    (s : ToolState) (x : Int) (h : l ≠ []) :
    l.foldl (handleRow w map) { s with _current := x } = l.foldl (handleRow w map) s := by
  cases l with
  | nil => exact absurd rfl h
  | cons j rest => rfl

theorem foldl_handleRow_set_current_end (w : World) (map : CSVMap) (l : List Nat)
    (s : ToolState) (x n : Int) :
    { l.foldl (handleRow w map) { s with _current := x } with _current := n }
      = { l.foldl (handleRow w map) s with _current := n } := by
  cases l with
  | nil => rfl
  | cons j rest => rfl

theorem rowLoop_no_cancel (w : World) (ses : Session) (map : CSVMap) (n : Nat) :
    ∀ (k c : Nat) (s : ToolState), c + k = n → s._current = (c : Int) →
      s._total = (n : Int) →
      (∀ j : Nat, c ≤ j → j < n → ses.wasCanceled (j : Int) = false) →
      rowLoop w ses map k s
        = ({ (List.range' c k).foldl (handleRow w map) s with _current := (n : Int) },
            false) := by
  intro k
  induction k with
  | zero =>
    intro c s hck hc ht _
    have hcn : c = n := by omega
    subst hcn
    have : { s with _current := (c : Int) } = s := by
      cases s
      simp only [ToolState.mk.injEq] at *
      simp_all
    simp [rowLoop, this]
  | succ k ih =>
    intro c s hck hc ht hnc
    have hlt : s._current < s._total := by
      rw [hc, ht]
      exact_mod_cast (by omega : c < n)
    have hrow := handleRow_of_current w map s c hc
    have hfr := handleRow_frame w map s c
    have hcan : ses.wasCanceled (handleRow w map s c)._current = false := by
      rw [hfr.1]
      exact hnc c (le_refl c) (by omega)
    simp only [rowLoop, hlt, if_true, hrow, hcan, Bool.false_eq_true, if_false]
    rw [ih (c + 1) _ (by omega) (by simp [hfr.1]) (by simpa [hfr.2] using ht)
      (fun j hj hjn => hnc j (by omega) hjn)]
    rw [foldl_handleRow_set_current_end]
    simp [List.range']

theorem rowLoop_cancel (w : World) (ses : Session) (map : CSVMap) (n i : Nat) (hi : i < n)
    (hcancel : ses.wasCanceled (i : Int) = true) :
    ∀ (k c : Nat) (s : ToolState), c + k = n → c ≤ i → s._current = (c : Int) →
      s._total = (n : Int) →
      (∀ j : Nat, c ≤ j → j < i → ses.wasCanceled (j : Int) = false) →
      rowLoop w ses map k s
        = ((List.range' c (i + 1 - c)).foldl (handleRow w map) s, true) := by
  intro k
  induction k with
  | zero =>
    intro c s hck hci _ _ _
    omega
  | succ k ih =>
    intro c s hck hci hc ht hnc
    have hlt : s._current < s._total := by
      rw [hc, ht]
      exact_mod_cast (by omega : c < n)
    have hrow := handleRow_of_current w map s c hc
    have hfr := handleRow_frame w map s c
    by_cases hceq : c = i
    · subst hceq
      have hcan : ses.wasCanceled (handleRow w map s c)._current = true := by
        rw [hfr.1]
        exact hcancel
      simp [rowLoop, hlt, hrow, hcan, List.range']
    · have hcan : ses.wasCanceled (handleRow w map s c)._current = false := by
        rw [hfr.1]
        exact hnc c (le_refl c) (by omega)
      simp only [rowLoop, hlt, if_true, hrow, hcan, Bool.false_eq_true, if_false]
      rw [ih (c + 1) _ (by omega) (by omega) (by simp [hfr.1]) (by simpa [hfr.2] using ht)
        (fun j hj hji => hnc j (by omega) hji)]
      have hne : List.range' (c + 1) (i + 1 - (c + 1)) ≠ [] := by
        have : 0 < i + 1 - (c + 1) := by omega
        intro e
        have hl := congrArg List.length e
        simp at hl
        omega
      rw [foldl_handleRow_set_current _ _ _ _ _ hne]
      have hsplit : i + 1 - c = (i + 1 - (c + 1)) + 1 := by omega
      rw [hsplit]
      simp [List.range']

theorem ifTransaction_eq (s : ToolState) (sql : String) : ifTransaction s sql = s := by
  simp [ifTransaction, usetransaction]

theorem selectMapName_of_ready (ses : Session) (map : CSVMap) (rows : Int)
    (h : Ready ses map rows) : selectMapName ses = some map.name := by
  unfold selectMapName
  rcases h.1 with ⟨hne, heq⟩ | ⟨hemp, hlist, hget⟩
  · rw [if_neg hne, heq]
  · simp [hemp, hlist, hget]

theorem importPre_passes (w : World) (ses : Session) (map : CSVMap) (s : ToolState) :
    (importPre w ses map s).2.2 = true ↔ PrePasses w ses map s := by
  unfold importPre PrePasses
  simp only [ifTransaction_eq, execStmt]
  by_cases ht : ses.trimmed map.sqlPre = ""
  · simp [ht]
  · cases hx : w.exec s.executed { sql := map.sqlPre, bound := [] } with
    | none => simp [ht, hx]
    | some e =>
      cases hc : map.sqlPreContinueOnError <;> simp [ht, hx, hc]

theorem importPre_frame (w : World) (ses : Session) (map : CSVMap) (s : ToolState) :
    (importPre w ses map s).1._total = s._total ∧
    (importPre w ses map s).1._current = s._current ∧
    (importPre w ses map s).1._error = s._error ∧
    (importPre w ses map s).1._ignored = s._ignored ∧
    (importPre w ses map s).1._errorList = s._errorList ∧
    (importPre w ses map s).1.__image = s.__image := by
  unfold importPre
  simp only [ifTransaction_eq, execStmt]
  by_cases ht : ses.trimmed map.sqlPre = ""
  · simp [ht]
  · cases hx : w.exec s.executed { sql := map.sqlPre, bound := [] } with
    | none => simp [ht, hx]
    | some e =>
      cases hc : map.sqlPreContinueOnError <;> simp [ht, hx, hc]

theorem preState_frame (w : World) (ses : Session) (map : CSVMap) (rows : Int)
    (s : ToolState) :
    (preState w ses map rows s)._total = rows ∧
    (preState w ses map rows s)._current = 0 ∧
    (preState w ses map rows s)._error = 0 ∧
    (preState w ses map rows s)._ignored = 0 ∧
    (preState w ses map rows s)._errorList = s._errorList ∧
    (preState w ses map rows s).__image = s.__image := by
  have h := importPre_frame w ses map (ifTransaction
      { s with _total := rows, _current := 0, _error := 0, _ignored := 0 } "BEGIN;")
  simp only [ifTransaction_eq] at h
  unfold preState
  rw [ifTransaction_eq]
  exact ⟨h.1, rfl, h.2.2.1, h.2.2.2.1, h.2.2.2.2.1, h.2.2.2.2.2⟩

theorem preState_executed (w : World) (ses : Session) (map : CSVMap) (rows : Int)
    (s : ToolState) :
    (preState w ses map rows s).executed = s.executed ++
      (if ses.trimmed map.sqlPre = "" then [] else [{ sql := map.sqlPre, bound := [] }]) := by
  unfold preState importPre
  simp only [ifTransaction_eq, execStmt]
  by_cases ht : ses.trimmed map.sqlPre = ""
  · simp [ht]
  · cases hx : w.exec s.executed { sql := map.sqlPre, bound := [] } with
    | none => simp [ht, hx]
    | some e =>
      cases hc : map.sqlPreContinueOnError <;> simp [ht, hx, hc]

theorem importStart_of_ready (w : World) (ses : Session) (map : CSVMap) (rows : Int)
    (s : ToolState) (h : Ready ses map rows) (hp : PrePasses w ses map s) :
    importStart w ses s =
      importFinish w ses map
        (rowLoop w ses map rows.toNat (preState w ses map rows s)).1
        (rowLoop w ses map rows.toNat (preState w ses map rows s)).2
        (preLog w ses map rows s) := by
  have hsel := selectMapName_of_ready ses map rows h
  obtain ⟨_, hmap, hfields, hact, hrows, hone⟩ := h
  have hpass : (importPre w ses map
      { s with _total := rows, _current := 0, _error := 0, _ignored := 0 }).2.2 = true :=
    (importPre_passes w ses map _).mpr hp
  have hfr := importPre_frame w ses map
      { s with _total := rows, _current := 0, _error := 0, _ignored := 0 }
  unfold importStart
  simp only [hsel, hmap, hfields, hact, hrows, ifTransaction_eq, hpass, hfr.1, preState,
    preLog]
  simp [not_lt.mpr hone]

theorem importStart_of_pre_abort (w : World) (ses : Session) (map : CSVMap) (rows : Int)
    (s : ToolState) (h : Ready ses map rows) (hp : ¬ PrePasses w ses map s) :
    importStart w ses s =
      { returned := false,
        state := (importPre w ses map
          { s with _total := rows, _current := 0, _error := 0, _ignored := 0 }).1,
        userCanceled := false,
        log := (importPre w ses map
          { s with _total := rows, _current := 0, _error := 0, _ignored := 0 }).2.1 } := by
  have hsel := selectMapName_of_ready ses map rows h
  obtain ⟨_, hmap, hfields, hact, hrows, hone⟩ := h
  have hpass : (importPre w ses map
      { s with _total := rows, _current := 0, _error := 0, _ignored := 0 }).2.2 = false := by
    cases hx : (importPre w ses map
      { s with _total := rows, _current := 0, _error := 0, _ignored := 0 }).2.2 with
    | false => rfl
    | true => exact absurd ((importPre_passes w ses map _).mp hx) hp
  unfold importStart
  simp only [hsel, hmap, hfields, hact, hrows, ifTransaction_eq, hpass]
  simp [not_lt.mpr hone]

theorem importEnd_frame (s : ToolState) (c : Bool) (log : List LogEntry) :
    (importEnd s c log).state = s ∧ (importEnd s c log).userCanceled = c ∧
      (importEnd s c log).returned = (!c && decide (s._error = 0)) := by
  unfold importEnd
  cases c <;> simp [ifTransaction_eq]

theorem importFinish_frame (w : World) (ses : Session) (map : CSVMap) (s : ToolState)
    (c : Bool) (log : List LogEntry) :
    (importFinish w ses map s c log).userCanceled = c ∧
    (importFinish w ses map s c log).state._total = s._total ∧
    (importFinish w ses map s c log).state._current = s._current ∧
    (importFinish w ses map s c log).state._error = s._error ∧
    (importFinish w ses map s c log).state._ignored = s._ignored ∧
    (importFinish w ses map s c log).state._errorList = s._errorList ∧
    (importFinish w ses map s c log).state.__image = s.__image ∧
    (importFinish w ses map s c log).state.executed = s.executed ++
      (if c = false ∧ ses.trimmed map.sqlPost ≠ "" then
        [{ sql := map.sqlPost, bound := [] }] else []) := by
  unfold importFinish importEnd
  simp only [execStmt, ifTransaction_eq]
  cases c
  · by_cases ht : ses.trimmed map.sqlPost = ""
    · simp [ht]
    · cases hx : w.exec s.executed { sql := map.sqlPost, bound := [] } <;> simp [ht, hx]
  · simp

theorem importFinish_returned_of_cancel (w : World) (ses : Session) (map : CSVMap)
    (s : ToolState) (log : List LogEntry) :
    (importFinish w ses map s true log).returned = false := by
  unfold importFinish
  simp [importEnd]

theorem importFinish_returned_of_post_ok (w : World) (ses : Session) (map : CSVMap)
    (s : ToolState) (log : List LogEntry)
    (h : ses.trimmed map.sqlPost = "" ∨
      w.exec s.executed { sql := map.sqlPost, bound := [] } = none) :
    (importFinish w ses map s false log).returned = decide (s._error = 0) := by
  unfold importFinish
  simp only [execStmt, ifTransaction_eq]
  by_cases ht : ses.trimmed map.sqlPost = ""
  · simp [ht, importEnd, ifTransaction_eq]
  · have hx : w.exec s.executed { sql := map.sqlPost, bound := [] } = none := by
      rcases h with h | h
      · exact absurd h ht
      · exact h
    simp [ht, hx, importEnd, ifTransaction_eq]

theorem importFinish_of_post_rejected (w : World) (ses : Session) (map : CSVMap)
    (s : ToolState) (log : List LogEntry) (e : String)
    (ht : ses.trimmed map.sqlPost ≠ "")
    (hx : w.exec s.executed { sql := map.sqlPost, bound := [] } = some e) :
    (importFinish w ses map s false log).returned = false ∧
    (importFinish w ses map s false log).state =
      { s with executed := s.executed ++ [{ sql := map.sqlPost, bound := [] }],
               _errMsg := "ERROR Running Post SQL query: " ++ e } := by
  unfold importFinish
  simp [execStmt, ifTransaction_eq, ht, hx]

/-! ## Row errors and the run (claims C11 to C20) -/

theorem rowsRun_no_cancel (w : World) (ses : Session) (map : CSVMap) (rows : Int)
    (s : ToolState) (hrows : 1 ≤ rows) (hnc : ∀ i, ses.wasCanceled i = false) :
    rowsRun w ses map rows s =
      ({ (List.range rows.toNat).foldl (handleRow w map) (preState w ses map rows s)
          with _current := rows }, false) := by
  have hfr := preState_frame w ses map rows s
  have hn : ((rows.toNat : Nat) : Int) = rows := Int.toNat_of_nonneg (by omega)
  have h := rowLoop_no_cancel w ses map rows.toNat rows.toNat 0
    (preState w ses map rows s) (by omega) (by simpa using hfr.2.1) (by rw [hn]; exact hfr.1)
    (fun j _ _ => hnc j)
  unfold rowsRun
  rw [h, hn, List.range_eq_range']

theorem rowsRun_cancel (w : World) (ses : Session) (map : CSVMap) (rows : Int)
    (s : ToolState) (i : Nat) (hi : (i : Int) < rows)
    (hcancel : ses.wasCanceled (i : Int) = true)
    (hfirst : ∀ j : Nat, j < i → ses.wasCanceled (j : Int) = false) :
    rowsRun w ses map rows s =
      ((List.range (i + 1)).foldl (handleRow w map) (preState w ses map rows s), true) := by
  have hfr := preState_frame w ses map rows s
  have hn : ((rows.toNat : Nat) : Int) = rows := Int.toNat_of_nonneg (by omega)
  have hin : i < rows.toNat := by omega
  have h := rowLoop_cancel w ses map rows.toNat i hin hcancel rows.toNat 0
    (preState w ses map rows s) (by omega) (by omega) (by simpa using hfr.2.1)
    (by rw [hn]; exact hfr.1) (fun j _ hj => hfirst j hj)
  unfold rowsRun
  rw [h, List.range_eq_range']
  simp

/-- C13: when the run passes the preconditions (a valid map, a dataset of
`rows` rows with `rows` at least one) and the pre-statement stage, and the
progress dialog never reports a cancellation, then, whatever the executor
answers, the row loop handles the rows 0, 1, ..., rows-1 each once and in
increasing order and ends with `_current` equal to `rows`; `importStart`
finishes from that state. -/
theorem import_handles_every_row (w : World) (ses : Session) (map : CSVMap) (rows : Int)
    (s : ToolState) (hready : Ready ses map rows) (hpre : PrePasses w ses map s)
    (hnc : ∀ i, ses.wasCanceled i = false) :
    rowsRun w ses map rows s =
      ({ (List.range rows.toNat).foldl (handleRow w map) (preState w ses map rows s)
          with _current := rows }, false) ∧
    importStart w ses s =
      importFinish w ses map
        { (List.range rows.toNat).foldl (handleRow w map) (preState w ses map rows s)
            with _current := rows }
        false (preLog w ses map rows s) ∧
    (importStart w ses s).state._current = rows ∧
    (importStart w ses s).userCanceled = false := by
  have hrun := rowsRun_no_cancel w ses map rows s hready.2.2.2.2.2 hnc
  have hstart := importStart_of_ready w ses map rows s hready hpre
  unfold rowsRun at hrun
  rw [hrun] at hstart
  refine ⟨by unfold rowsRun; exact hrun, hstart, ?_, ?_⟩
  · rw [hstart]
    exact (importFinish_frame w ses map _ false _).2.2.1
  · rw [hstart]
    exact (importFinish_frame w ses map _ false _).1

/-- C14: `importStart` returns false, hands no statement to the executor and
leaves every member as it was (the counters `_total`, `_current`, `_error`,
`_ignored` and the error list among them) whenever a precondition fails: no
map is selected and the atlas holds no maps; the map to run is not found or
has no fields; its action is none of Insert, Update, Append; there is no
dataset, or the dataset has less than one row. -/
theorem import_precondition_failure (w : World) (ses : Session) (s : ToolState)
    (name : String)
    (h : (ses.selectedMap = "" ∧ ses.mapList = []) ∨
      (Selected ses name ∧
        ((ses.atlasMap name).name ≠ name ∨ (ses.atlasMap name).fields = [])) ∨
      (Selected ses name ∧
        ¬ ((ses.atlasMap name).action = MapAction.Insert ∨
          (ses.atlasMap name).action = MapAction.Update ∨
          (ses.atlasMap name).action = MapAction.Append)) ∨
      ses.dataRows = none ∨ (∃ r, ses.dataRows = some r ∧ r < 1)) :
    (importStart w ses s).returned = false ∧ (importStart w ses s).state = s ∧
      (importStart w ses s).log = [] := by
  have hsel : ∀ n, Selected ses n → selectMapName ses = some n := by
    intro n hn
    unfold selectMapName
    rcases hn with ⟨hne, heq⟩ | ⟨hemp, hlist, hget⟩
    · rw [if_neg hne, heq]
    · simp [hemp, hlist, hget]
  rcases h with ⟨h1, h2⟩ | ⟨hs, hbad⟩ | ⟨hs, hbad⟩ | hnone | ⟨r, hr, hlt⟩
  · simp [importStart, selectMapName, h1, h2]
  · simp only [importStart, hsel name hs]
    rw [if_pos hbad]
    exact ⟨rfl, rfl, rfl⟩
  · simp only [importStart, hsel name hs]
    split
    · exact ⟨rfl, rfl, rfl⟩
    · simp [hbad]
  · unfold importStart
    split
    · exact ⟨rfl, rfl, rfl⟩
    · simp only [hnone]
      split
      · exact ⟨rfl, rfl, rfl⟩
      · split <;> exact ⟨rfl, rfl, rfl⟩
  · unfold importStart
    split
    · exact ⟨rfl, rfl, rfl⟩
    · simp only [hr, hlt, if_true]
      split
      · exact ⟨rfl, rfl, rfl⟩
      · split <;> exact ⟨rfl, rfl, rfl⟩

theorem importStart_eq_finish (w : World) (ses : Session) (map : CSVMap) (rows : Int)
    (s : ToolState) (hready : Ready ses map rows) (hpre : PrePasses w ses map s) :
    importStart w ses s =
      importFinish w ses map (rowsRun w ses map rows s).1 (rowsRun w ses map rows s).2
        (preLog w ses map rows s) :=
  importStart_of_ready w ses map rows s hready hpre

/-- C16: in a run that passed the preconditions and the pre-statement stage,
the statements handed to the executor are those of the pre-statement stage and
of the rows, followed by the post-statement if and only if the run was not
cancelled and the post-statement is not empty after trimming; this holds
whatever the error count of the rows is.  If the executor rejects the
post-statement, `importStart` returns false, also when no error was counted. -/
theorem post_statement_executed_iff (w : World) (ses : Session) (map : CSVMap)
    (rows : Int) (s : ToolState) (hready : Ready ses map rows)
    (hpre : PrePasses w ses map s) :
    (importStart w ses s).userCanceled = (rowsRun w ses map rows s).2 ∧
    (importStart w ses s).state.executed = (rowsRun w ses map rows s).1.executed ++
      (if (importStart w ses s).userCanceled = false ∧ ses.trimmed map.sqlPost ≠ "" then
        [{ sql := map.sqlPost, bound := [] }] else []) ∧
    (importStart w ses s).state._error = (rowsRun w ses map rows s).1._error ∧
    ((importStart w ses s).userCanceled = false → ses.trimmed map.sqlPost ≠ "" →
      ∀ e, w.exec (rowsRun w ses map rows s).1.executed { sql := map.sqlPost, bound := [] }
          = some e →
        (importStart w ses s).returned = false) := by
  have hstart := importStart_eq_finish w ses map rows s hready hpre
  have hfr := importFinish_frame w ses map (rowsRun w ses map rows s).1
    (rowsRun w ses map rows s).2 (preLog w ses map rows s)
  rw [hstart]
  refine ⟨hfr.1, ?_, hfr.2.2.2.1, ?_⟩
  · rw [hfr.1]
    exact hfr.2.2.2.2.2.2.2
  · intro hc ht e he
    rw [hfr.1] at hc
    rw [hc]
    exact (importFinish_of_post_rejected w ses map _ _ e ht he).1

/-- C17, as amended: when the post-statement fails, `importStart` records the
error in `_errMsg` and returns false; a ROLLBACK is issued only when the
constant `usetransaction` is set, which it is not: the post-statement is the
last statement handed to the executor, and nothing undoes the rows applied
during the run. -/
theorem post_failure_no_rollback (w : World) (ses : Session) (map : CSVMap)
    (rows : Int) (s : ToolState) (e : String) (hready : Ready ses map rows)
    (hpre : PrePasses w ses map s)
    (hnc : (rowsRun w ses map rows s).2 = false)
    (hpost : ses.trimmed map.sqlPost ≠ "")
    (hrej : w.exec (rowsRun w ses map rows s).1.executed { sql := map.sqlPost, bound := [] }
      = some e) :
    usetransaction = false ∧
    (importStart w ses s).returned = false ∧
    (importStart w ses s).state._errMsg = "ERROR Running Post SQL query: " ++ e ∧
    (importStart w ses s).state.executed =
      (rowsRun w ses map rows s).1.executed ++ [{ sql := map.sqlPost, bound := [] }] := by
  have hstart := importStart_eq_finish w ses map rows s hready hpre
  rw [hnc] at hstart
  have hfin := importFinish_of_post_rejected w ses map (rowsRun w ses map rows s).1
    (preLog w ses map rows s) e hpost hrej
  rw [hstart]
  refine ⟨rfl, hfin.1, ?_, ?_⟩
  · rw [hfin.2]
  · rw [hfin.2]

/-- C18: for a run that passed the preconditions and the pre-statement stage,
was not cancelled, and whose post-statement is blank or accepted by the
executor, `importStart` returns true if and only if the accumulated error count
is zero, whatever the ignored count is. -/
theorem import_returns_true_iff_no_error (w : World) (ses : Session) (map : CSVMap)
    (rows : Int) (s : ToolState) (hready : Ready ses map rows)
    (hpre : PrePasses w ses map s)
    (hnc : (importStart w ses s).userCanceled = false)
    (hpost : ses.trimmed map.sqlPost = "" ∨
      w.exec (rowsRun w ses map rows s).1.executed { sql := map.sqlPost, bound := [] }
        = none) :
    ((importStart w ses s).returned = true ↔ (importStart w ses s).state._error = 0) := by
  have hstart := importStart_eq_finish w ses map rows s hready hpre
  have hfr := importFinish_frame w ses map (rowsRun w ses map rows s).1
    (rowsRun w ses map rows s).2 (preLog w ses map rows s)
  rw [hstart] at hnc ⊢
  rw [hfr.1] at hnc
  rw [hfr.2.2.2.1, hnc, importFinish_returned_of_post_ok w ses map _ _ hpost]
  simp

/-- C19: when cancellation is first observed at the check for the row `i`, the
row loop has handled the rows 0 to `i`, the row `i` completely, and no row
after it; `importStart` does not hand the post-statement to the executor and
returns false, whatever the error count is. -/
theorem cancel_stops_run (w : World) (ses : Session) (map : CSVMap) (rows : Int)
    (s : ToolState) (i : Nat) (hready : Ready ses map rows) (hpre : PrePasses w ses map s)
    (hi : (i : Int) < rows) (hcancel : ses.wasCanceled (i : Int) = true)
    (hfirst : ∀ j : Nat, j < i → ses.wasCanceled (j : Int) = false) :
    rowsRun w ses map rows s =
      ((List.range (i + 1)).foldl (handleRow w map) (preState w ses map rows s), true) ∧
    (importStart w ses s).returned = false ∧
    (importStart w ses s).userCanceled = true ∧
    (importStart w ses s).state.executed =
      ((List.range (i + 1)).foldl (handleRow w map) (preState w ses map rows s)).executed ∧
    (importStart w ses s).state._error =
      ((List.range (i + 1)).foldl (handleRow w map) (preState w ses map rows s))._error := by
  have hrun := rowsRun_cancel w ses map rows s i hi hcancel hfirst
  have hstart := importStart_eq_finish w ses map rows s hready hpre
  rw [hrun] at hstart
  have hfr := importFinish_frame w ses map
    ((List.range (i + 1)).foldl (handleRow w map) (preState w ses map rows s)) true
    (preLog w ses map rows s)
  refine ⟨hrun, ?_, ?_, ?_, ?_⟩
  · rw [hstart]
    exact importFinish_returned_of_cancel w ses map _ _
  · rw [hstart]
    exact hfr.1
  · rw [hstart, hfr.2.2.2.2.2.2.2]
    simp
  · rw [hstart, hfr.2.2.2.1]

theorem append_singleton_ne_self (l : List Stmt) (q : Stmt) : l ++ [q] ≠ l := by
  intro h
  have := congrArg List.length h
  simp at this

theorem insertAction_exec_failure (w : World) (map : CSVMap) (append : Bool)
    (s : ToolState) (q : Stmt) (e : String)
    (hq : (insertAction w map append s).executed = s.executed ++ [q])
    (he : w.exec s.executed q = some e) :
    ∃ before : List String, before.length ≤ 1 ∧
      (insertAction w map append s)._errorList = s._errorList ++ before ++
        ["ERROR Record " ++ toString (s._current + 1) ++ ": " ++ e] ∧
      (insertAction w map append s)._error = s._error + before.length + 1 ∧
      (insertAction w map append s)._ignored = s._ignored := by
  by_cases h : rowTrace w map s = []
  · rw [insertAction_of_values_nil w map append s h] at hq
    exact absurd hq.symm (append_singleton_ne_self _ _)
  · rw [insertAction_of_values_ne_nil w map append s h] at hq ⊢
    simp only [List.append_cancel_left_eq, List.cons.injEq, and_true] at hq
    simp only [hq, he]
    refine ⟨_, ?_, rfl, ?_, trivial⟩
    · split <;> simp
    · simp

theorem updateAction_exec_failure (w : World) (map : CSVMap)
    (s : ToolState) (q : Stmt) (e : String)
    (hq : (updateAction w map s).executed = s.executed ++ [q])
    (he : w.exec s.executed q = some e) :
    ∃ before : List String, before.length ≤ 1 ∧
      (updateAction w map s)._errorList = s._errorList ++ before ++
        ["ERROR Record " ++ toString (s._current + 1) ++ ": " ++ e] ∧
      (updateAction w map s)._error = s._error + before.length + 1 ∧
      (updateAction w map s)._ignored = s._ignored := by
  by_cases h : rowSetValues w map s = []
  · rw [updateAction_of_values_nil w map s h] at hq
    exact absurd hq.symm (append_singleton_ne_self _ _)
  · rw [updateAction_of_values_ne_nil w map s h] at hq ⊢
    simp only [List.append_cancel_left_eq, List.cons.injEq, and_true] at hq
    simp only [hq, he]
    refine ⟨_, ?_, rfl, ?_, trivial⟩
    · split <;> simp
    · simp

/-- C12: when the executor rejects the statement assembled for the row
`_current` with the error text `e`, the action of the map (Insert, Update or
Append) raises the error count, leaves the ignored count unchanged, and
appends `ERROR Record <_current + 1>: <e>` as the last entry of the error
list.  The rejection itself adds exactly one to the count: the count grows by
one more than the number of messages recorded for the row before it. -/
theorem exec_failure_recorded (w : World) (map : CSVMap) (s : ToolState) (q : Stmt)
    (e : String)
    (hq : (rowAction w map s).executed = s.executed ++ [q])
    (he : w.exec s.executed q = some e) :
    s._error < (rowAction w map s)._error ∧
    (rowAction w map s)._ignored = s._ignored ∧
    (rowAction w map s)._errorList.getLast?
      = some ("ERROR Record " ++ toString (s._current + 1) ++ ": " ++ e) ∧
    ∃ before : List String, before.length ≤ 1 ∧
      (rowAction w map s)._errorList = s._errorList ++ before ++
        ["ERROR Record " ++ toString (s._current + 1) ++ ": " ++ e] ∧
      (rowAction w map s)._error = s._error + before.length + 1 := by
  have key : ∃ before : List String, before.length ≤ 1 ∧
      (rowAction w map s)._errorList = s._errorList ++ before ++
        ["ERROR Record " ++ toString (s._current + 1) ++ ": " ++ e] ∧
      (rowAction w map s)._error = s._error + before.length + 1 ∧
      (rowAction w map s)._ignored = s._ignored := by
    unfold rowAction at hq ⊢
    split at hq
    · exact insertAction_exec_failure w map false s q e hq he
    · exact updateAction_exec_failure w map s q e hq he
    · exact insertAction_exec_failure w map true s q e hq he
    · exact absurd hq.symm (append_singleton_ne_self _ _)
  obtain ⟨before, hlen, hlist, herr, hign⟩ := key
  refine ⟨?_, hign, ?_, before, hlen, hlist, herr⟩
  · rw [herr]
    have : (0 : Int) ≤ (before.length : Int) := Int.natCast_nonneg _
    omega
  · rw [hlist]
    simp

/-! ## The executor and `_errMsg` do not steer the rows -/

theorem insertLoop_exec (w : World) (f : List Stmt → Stmt → Option String) (map : CSVMap)
    (append : Bool) (s : ToolState) :
    insertLoop { w with exec := f } map append s = insertLoop w map append s := rfl

theorem updateLoop_exec (w : World) (f : List Stmt → Stmt → Option String) (map : CSVMap)
    (s : ToolState) :
    updateLoop { w with exec := f } map s = updateLoop w map s := rfl

theorem insertAction_exec (w : World) (f : List Stmt → Stmt → Option String) (map : CSVMap)
    (append : Bool) (s : ToolState) (hf : ∀ q, f s.executed q = w.exec s.executed q) :
    insertAction { w with exec := f } map append s = insertAction w map append s := by
  unfold insertAction
  simp only [insertLoop_exec, execStmt, ifTransaction_eq]
  cases append
  · simp only [Bool.false_eq_true, false_and, if_false, hf]
  · by_cases hw : (insertLoop w map true s).wheres = []
    · simp only [hw, and_self, if_true, hf]
    · simp only [hw, and_false, if_false, hf]

theorem updateAction_exec (w : World) (f : List Stmt → Stmt → Option String) (map : CSVMap)
    (s : ToolState) (hf : ∀ q, f s.executed q = w.exec s.executed q) :
    updateAction { w with exec := f } map s = updateAction w map s := by
  unfold updateAction
  simp only [updateLoop_exec, execStmt, ifTransaction_eq]
  by_cases hv : (updateLoop w map s).values = []
  · simp only [hv, if_true]
  · by_cases hc : (updateLoop w map s).wheres = []
    · simp only [hv, hc, if_true, if_false, hf]
    · simp only [hv, hc, if_false, hf]

theorem rowAction_exec (w : World) (f : List Stmt → Stmt → Option String) (map : CSVMap)
    (s : ToolState) (hf : ∀ q, f s.executed q = w.exec s.executed q) :
    rowAction { w with exec := f } map s = rowAction w map s := by
  unfold rowAction
  split
  · exact insertAction_exec w f map false s hf
  · exact updateAction_exec w f map s hf
  · exact insertAction_exec w f map true s hf
  · rfl

theorem SameMembers.refl (a : ToolState) : SameMembers a a :=
  ⟨rfl, rfl, rfl, rfl, rfl, rfl, rfl⟩

theorem SameMembers.eq_set (a b : ToolState) (h : SameMembers a b) :
    a = { b with _errMsg := a._errMsg } := by
  obtain ⟨h1, h2, h3, h4, h5, h6, h7⟩ := h
  cases a
  cases b
  simp only [ToolState.mk.injEq] at *
  simp_all

theorem insertAction_errMsg (w : World) (map : CSVMap) (append : Bool) (s : ToolState)
    (m : String) :
    SameMembers (insertAction w map append { s with _errMsg := m })
      (insertAction w map append s) := by
  by_cases h : rowTrace w map s = []
  · have h2 : rowTrace w map { s with _errMsg := m } = [] := h
    rw [insertAction_of_values_nil w map append _ h2,
      insertAction_of_values_nil w map append s h]
    exact ⟨rfl, rfl, rfl, rfl, rfl, rfl, rfl⟩
  · have h2 : rowTrace w map { s with _errMsg := m } ≠ [] := h
    rw [insertAction_of_values_ne_nil w map append _ h2,
      insertAction_of_values_ne_nil w map append s h]
    exact ⟨rfl, rfl, rfl, rfl, rfl, rfl, rfl⟩

theorem updateAction_errMsg (w : World) (map : CSVMap) (s : ToolState) (m : String) :
    SameMembers (updateAction w map { s with _errMsg := m }) (updateAction w map s) := by
  by_cases h : rowSetValues w map s = []
  · have h2 : rowSetValues w map { s with _errMsg := m } = [] := h
    rw [updateAction_of_values_nil w map _ h2, updateAction_of_values_nil w map s h]
    exact ⟨rfl, rfl, rfl, rfl, rfl, rfl, rfl⟩
  · have h2 : rowSetValues w map { s with _errMsg := m } ≠ [] := h
    rw [updateAction_of_values_ne_nil w map _ h2, updateAction_of_values_ne_nil w map s h]
    exact ⟨rfl, rfl, rfl, rfl, rfl, rfl, rfl⟩

theorem rowAction_errMsg (w : World) (map : CSVMap) (s : ToolState) (m : String) :
    SameMembers (rowAction w map { s with _errMsg := m }) (rowAction w map s) := by
  unfold rowAction
  split
  · exact insertAction_errMsg w map false s m
  · exact updateAction_errMsg w map s m
  · exact insertAction_errMsg w map true s m
  · exact ⟨rfl, rfl, rfl, rfl, rfl, rfl, rfl⟩

theorem rowAction_executed_length (w : World) (map : CSVMap) (s : ToolState) :
    s.executed.length ≤ (rowAction w map s).executed.length := by
  unfold rowAction
  split
  · by_cases h : rowTrace w map s = []
    · rw [insertAction_of_values_nil w map false s h]
    · rw [insertAction_of_values_ne_nil w map false s h]
      simp
  · by_cases h : rowSetValues w map s = []
    · rw [updateAction_of_values_nil w map s h]
    · rw [updateAction_of_values_ne_nil w map s h]
      simp
  · by_cases h : rowTrace w map s = []
    · rw [insertAction_of_values_nil w map true s h]
    · rw [insertAction_of_values_ne_nil w map true s h]
      simp
  · exact le_refl _

theorem rowAction_sim (w : World) (f : List Stmt → Stmt → Option String) (map : CSVMap)
    (a b : ToolState) (hab : SameMembers a b)
    (hf : ∀ q, f a.executed q = w.exec a.executed q) :
    SameMembers (rowAction w map a) (rowAction { w with exec := f } map b) := by
  have hb : ∀ q, f b.executed q = w.exec b.executed q := by
    intro q
    rw [← hab.2.2.2.2.2.2]
    exact hf q
  rw [rowAction_exec w f map b hb, SameMembers.eq_set a b hab]
  exact rowAction_errMsg w map b a._errMsg

theorem SameMembers.set_current (a b : ToolState) (h : SameMembers a b) (x : Int) :
    SameMembers { a with _current := x } { b with _current := x } :=
  ⟨h.1, rfl, h.2.2.1, h.2.2.2.1, h.2.2.2.2.1, h.2.2.2.2.2.1, h.2.2.2.2.2.2⟩

theorem rowLoop_sim (w : World) (f : List Stmt → Stmt → Option String) (ses : Session)
    (map : CSVMap) (len : Nat)
    (hf : ∀ h q, len < h.length → f h q = w.exec h q) :
    ∀ (fuel : Nat) (a b : ToolState), SameMembers a b → len < a.executed.length →
      SameMembers (rowLoop w ses map fuel a).1 (rowLoop { w with exec := f } ses map fuel b).1 ∧
      (rowLoop w ses map fuel a).2 = (rowLoop { w with exec := f } ses map fuel b).2 ∧
      len < (rowLoop w ses map fuel a).1.executed.length := by
  intro fuel
  induction fuel with
  | zero =>
    intro a b hab hlen
    exact ⟨hab, rfl, hlen⟩
  | succ k ih =>
    intro a b hab hlen
    have hsim := rowAction_sim w f map a b hab (fun q => hf a.executed q hlen)
    have hgrow := rowAction_executed_length w map a
    have hcond : (b._current < b._total) = (a._current < a._total) := by
      rw [hab.1, hab.2.1]
    simp only [rowLoop, ifTransaction_eq, hcond]
    by_cases hlt : a._current < a._total
    · simp only [hlt, if_true]
      rw [← hsim.2.1]
      by_cases hcan : ses.wasCanceled (rowAction w map a)._current = true
      · simp only [hcan, if_true]
        exact ⟨hsim, trivial, by omega⟩
      · simp only [hcan, if_false]
        exact ih _ _ (SameMembers.set_current _ _ hsim _) (by simp only []; omega)
    · simp only [hlt, if_false]
      exact ⟨hab, trivial, hlen⟩

theorem importFinish_sim (w : World) (f : List Stmt → Stmt → Option String) (ses : Session)
    (map : CSVMap) (a b : ToolState) (c : Bool) (log1 log2 : List LogEntry)
    (hab : SameMembers a b) (hf : ∀ q, f a.executed q = w.exec a.executed q) :
    SameRun (importFinish w ses map a c log1)
      (importFinish { w with exec := f } ses map b c log2) := by
  have h1 := importFinish_frame w ses map a c log1
  have h2 := importFinish_frame { w with exec := f } ses map b c log2
  obtain ⟨e1, e2, e3, e4, e5, e6, e7⟩ := hab
  refine ⟨?_, by rw [h1.1, h2.1], ?_⟩
  · cases c
    · by_cases ht : ses.trimmed map.sqlPost = ""
      · rw [importFinish_returned_of_post_ok w ses map a log1 (Or.inl ht),
          importFinish_returned_of_post_ok _ ses map b log2 (Or.inl ht), e3]
      · have hx2 : ∀ r, w.exec a.executed { sql := map.sqlPost, bound := [] } = r →
            ({ w with exec := f } : World).exec b.executed { sql := map.sqlPost, bound := [] }
              = r := by
          intro r hr
          show f b.executed _ = r
          rw [← e7, hf, hr]
        cases hx : w.exec a.executed { sql := map.sqlPost, bound := [] } with
        | none =>
          rw [importFinish_returned_of_post_ok w ses map a log1 (Or.inr hx),
            importFinish_returned_of_post_ok _ ses map b log2 (Or.inr (hx2 _ hx)), e3]
        | some e =>
          rw [(importFinish_of_post_rejected w ses map a log1 e ht hx).1,
            (importFinish_of_post_rejected _ ses map b log2 e ht (hx2 _ hx)).1]
    · rw [importFinish_returned_of_cancel, importFinish_returned_of_cancel]
  · refine ⟨?_, ?_, ?_, ?_, ?_, ?_, ?_⟩
    · rw [h1.2.1, h2.2.1, e1]
    · rw [h1.2.2.1, h2.2.2.1, e2]
    · rw [h1.2.2.2.1, h2.2.2.2.1, e3]
    · rw [h1.2.2.2.2.1, h2.2.2.2.2.1, e4]
    · rw [h1.2.2.2.2.2.1, h2.2.2.2.2.2.1, e5]
    · rw [h1.2.2.2.2.2.2.1, h2.2.2.2.2.2.2.1, e6]
    · rw [h1.2.2.2.2.2.2.2, h2.2.2.2.2.2.2.2, e7]

theorem acceptAt_exec_of_longer (w : World) (history : List Stmt) (q0 : Stmt)
    (h : List Stmt) (q : Stmt) (hlen : history.length < h.length) :
    (fun h x => if h = history ∧ x = q0 then none else w.exec h x) h q = w.exec h q := by
  have hne : h ≠ history := by
    intro e
    rw [e] at hlen
    exact lt_irrefl _ hlen
  simp [hne]

/-- C15: in a run that passed the preconditions, when the pre-statement is not
blank and the executor rejects it: if `sqlPreContinueOnError` is false,
`importStart` returns false, the pre-statement is the only statement handed to
the executor (no row statement, no post-statement) and the processed count
`_current` is 0; if it is true, the run returns the same value, hands the same
statements to the executor and leaves the same counters and error list as the
run in which the executor accepts the pre-statement and answers alike
otherwise.  A pre-statement that is empty after trimming is not handed to the
executor: the row loop starts with the statements executed before the run. -/
theorem pre_statement_stage (w : World) (ses : Session) (map : CSVMap) (rows : Int)
    (s : ToolState) (e : String) (hready : Ready ses map rows) :
    (ses.trimmed map.sqlPre ≠ "" →
      w.exec s.executed { sql := map.sqlPre, bound := [] } = some e →
      (map.sqlPreContinueOnError = false →
        (importStart w ses s).returned = false ∧
        (importStart w ses s).state.executed
          = s.executed ++ [{ sql := map.sqlPre, bound := [] }] ∧
        (importStart w ses s).state._current = 0) ∧
      (map.sqlPreContinueOnError = true →
        SameRun (importStart w ses s)
          (importStart (acceptAt w s.executed { sql := map.sqlPre, bound := [] }) ses s))) ∧
    (ses.trimmed map.sqlPre = "" →
      (preState w ses map rows s).executed = s.executed ∧
      importStart w ses s =
        importFinish w ses map (rowsRun w ses map rows s).1 (rowsRun w ses map rows s).2
          []) := by
  refine ⟨fun ht hx => ⟨fun hc => ?_, fun hc => ?_⟩, fun ht => ⟨?_, ?_⟩⟩
  · have hnp : ¬ PrePasses w ses map s := by
      intro hp
      rcases hp with h | h | h
      · exact ht h
      · rw [hx] at h
        exact Option.some_ne_none _ h
      · rw [hc] at h
        exact Bool.false_ne_true h
    rw [importStart_of_pre_abort w ses map rows s hready hnp]
    simp [importPre, execStmt, ifTransaction_eq, ht, hx, hc]
  · have hp1 : PrePasses w ses map s := Or.inr (Or.inr hc)
    have hp2 : PrePasses (acceptAt w s.executed { sql := map.sqlPre, bound := [] }) ses map s :=
      Or.inr (Or.inl (by simp [acceptAt]))
    rw [importStart_of_ready w ses map rows s hready hp1,
      importStart_of_ready _ ses map rows s hready hp2]
    have hfr1 := preState_frame w ses map rows s
    have hfr2 := preState_frame (acceptAt w s.executed { sql := map.sqlPre, bound := [] })
      ses map rows s
    have hex1 := preState_executed w ses map rows s
    have hex2 := preState_executed (acceptAt w s.executed { sql := map.sqlPre, bound := [] })
      ses map rows s
    have hsame : SameMembers (preState w ses map rows s)
        (preState (acceptAt w s.executed { sql := map.sqlPre, bound := [] }) ses map rows s) := by
      refine ⟨?_, ?_, ?_, ?_, ?_, ?_, ?_⟩
      · rw [hfr1.1, hfr2.1]
      · rw [hfr1.2.1, hfr2.2.1]
      · rw [hfr1.2.2.1, hfr2.2.2.1]
      · rw [hfr1.2.2.2.1, hfr2.2.2.2.1]
      · rw [hfr1.2.2.2.2.1, hfr2.2.2.2.2.1]
      · rw [hfr1.2.2.2.2.2, hfr2.2.2.2.2.2]
      · rw [hex1, hex2]
    have hlen : s.executed.length < (preState w ses map rows s).executed.length := by
      rw [hex1]
      simp [ht]
    have hsim := rowLoop_sim w
      (fun h x => if h = s.executed ∧ x = { sql := map.sqlPre, bound := [] } then none
        else w.exec h x) ses map s.executed.length
      (fun h q hl => acceptAt_exec_of_longer w s.executed _ h q hl)
      rows.toNat _ _ hsame hlen
    have hfin := importFinish_sim w
      (fun h x => if h = s.executed ∧ x = { sql := map.sqlPre, bound := [] } then none
        else w.exec h x) ses map _ _
      (rowLoop w ses map rows.toNat (preState w ses map rows s)).2
      (preLog w ses map rows s)
      (preLog (acceptAt w s.executed { sql := map.sqlPre, bound := [] }) ses map rows s)
      hsim.1 (fun q => acceptAt_exec_of_longer w s.executed _ _ q hsim.2.2)
    have hflag : (rowLoop (acceptAt w s.executed { sql := map.sqlPre, bound := [] }) ses map
        rows.toNat (preState (acceptAt w s.executed { sql := map.sqlPre, bound := [] })
          ses map rows s)).2
        = (rowLoop w ses map rows.toNat (preState w ses map rows s)).2 := hsim.2.1.symm
    rw [hflag]
    exact hfin
  · rw [preState_executed]
    simp [ht]
  · rw [importStart_of_ready w ses map rows s hready (Or.inl ht)]
    have hlog : preLog w ses map rows s = [] := by
      simp [preLog, importPre, ht]
    rw [hlog]
    rfl

/-! ## Concrete runs -/

/-- C11 fails on the code: in a dataset of two records whose first record has
no id, with an executor that rejects the statement assembled without a key
predicate, the first record is counted twice, once for the missing key and
once for the rejected statement.  The report of the run shows two errors for
Append and for Update, and both messages belong to record 1. -/
theorem no_key_row_counted_twice :
    (importStart strictWorld (demoSession (demoMap MapAction.Append) 2 none)
      freshState).state._error = 2 ∧
    (importStart strictWorld (demoSession (demoMap MapAction.Append) 2 none)
      freshState).state._errorList
        = ["No Key defined in Altas Map.", "ERROR Record 1: syntax error"] ∧
    (importStart strictWorld (demoSession (demoMap MapAction.Append) 2 none)
      freshState).log.head?
        = some (LogEntry.status "m" "t" MapAction.Append 2 2 0 2) ∧
    (importStart strictWorld (demoSession (demoMap MapAction.Update) 2 none)
      freshState).state._error = 2 ∧
    (importStart strictWorld (demoSession (demoMap MapAction.Update) 2 none)
      freshState).log.head?
        = some (LogEntry.status "m" "t" MapAction.Update 2 2 0 2) := by
  decide

/-- C12 at a concrete input: the executor rejects the statement of record 1
with the text `db error`. -/
theorem exec_failure_recorded_witness :
    ((rowAction failWorld (demoMap MapAction.Insert) (rowState 0)).executed
        = (rowState 0).executed ++ [firstInsert] ∧
      failWorld.exec (rowState 0).executed firstInsert = some "db error") ∧
    (rowState 0)._error < (rowAction failWorld (demoMap MapAction.Insert) (rowState 0))._error ∧
    (rowAction failWorld (demoMap MapAction.Insert) (rowState 0))._ignored
      = (rowState 0)._ignored ∧
    (rowAction failWorld (demoMap MapAction.Insert) (rowState 0))._errorList.getLast?
      = some ("ERROR Record " ++ toString ((rowState 0)._current + 1) ++ ": " ++ "db error") :=
  ⟨⟨by decide, by decide⟩,
    (exec_failure_recorded failWorld (demoMap MapAction.Insert) (rowState 0) firstInsert
      "db error" (by decide) (by decide)).1,
    (exec_failure_recorded failWorld (demoMap MapAction.Insert) (rowState 0) firstInsert
      "db error" (by decide) (by decide)).2.1,
    (exec_failure_recorded failWorld (demoMap MapAction.Insert) (rowState 0) firstInsert
      "db error" (by decide) (by decide)).2.2.1⟩

/-- C13 at a concrete input: three records, an executor that rejects every
statement, no cancellation; the loop ends with `_current` equal to 3. -/
theorem import_handles_every_row_witness :
    (Ready (demoSession (demoMap MapAction.Insert) 3 none) (demoMap MapAction.Insert) 3 ∧
      PrePasses failWorld (demoSession (demoMap MapAction.Insert) 3 none)
        (demoMap MapAction.Insert) freshState ∧
      ∀ i, (demoSession (demoMap MapAction.Insert) 3 none).wasCanceled i = false) ∧
    (importStart failWorld (demoSession (demoMap MapAction.Insert) 3 none)
      freshState).state._current = 3 ∧
    (importStart failWorld (demoSession (demoMap MapAction.Insert) 3 none)
      freshState).userCanceled = false :=
  ⟨⟨by decide, by decide, fun i => by simp [demoSession]⟩,
    (import_handles_every_row failWorld (demoSession (demoMap MapAction.Insert) 3 none)
      (demoMap MapAction.Insert) 3 freshState (by decide) (by decide)
      (fun i => by simp [demoSession])).2.2.1,
    (import_handles_every_row failWorld (demoSession (demoMap MapAction.Insert) 3 none)
      (demoMap MapAction.Insert) 3 freshState (by decide) (by decide)
      (fun i => by simp [demoSession])).2.2.2⟩

/-- C14 at a concrete input: a dataset without rows. -/
theorem import_precondition_failure_witness :
    (∃ r, (demoSession (demoMap MapAction.Insert) 0 none).dataRows = some r ∧ r < 1) ∧
    (importStart demoWorld (demoSession (demoMap MapAction.Insert) 0 none)
      (rowState 2)).returned = false ∧
    (importStart demoWorld (demoSession (demoMap MapAction.Insert) 0 none)
      (rowState 2)).state = rowState 2 ∧
    (importStart demoWorld (demoSession (demoMap MapAction.Insert) 0 none)
      (rowState 2)).log = [] :=
  ⟨⟨0, rfl, by decide⟩,
    import_precondition_failure demoWorld (demoSession (demoMap MapAction.Insert) 0 none)
      (rowState 2) "m" (Or.inr (Or.inr (Or.inr (Or.inr ⟨0, rfl, by decide⟩))))⟩

/-- C15 at a concrete input: the executor rejects the pre-statement `pre` of a
map that does not continue on error. -/
theorem pre_statement_stage_witness :
    (Ready (demoSession (preMap false) 3 none) (preMap false) 3 ∧
      (demoSession (preMap false) 3 none).trimmed (preMap false).sqlPre ≠ "" ∧
      (rejectWorld "pre").exec freshState.executed
        { sql := (preMap false).sqlPre, bound := [] } = some "rejected" ∧
      (preMap false).sqlPreContinueOnError = false) ∧
    (importStart (rejectWorld "pre") (demoSession (preMap false) 3 none)
      freshState).returned = false ∧
    (importStart (rejectWorld "pre") (demoSession (preMap false) 3 none)
      freshState).state.executed
        = freshState.executed ++ [{ sql := (preMap false).sqlPre, bound := [] }] ∧
    (importStart (rejectWorld "pre") (demoSession (preMap false) 3 none)
      freshState).state._current = 0 :=
  ⟨⟨by decide, by decide, by decide, rfl⟩,
    ((pre_statement_stage (rejectWorld "pre") (demoSession (preMap false) 3 none)
      (preMap false) 3 freshState "rejected" (by decide)).1 (by decide) (by decide)).1 rfl⟩

/-- C16 at a concrete input: no row fails, and the post-statement `post` is
rejected; `importStart` returns false. -/
theorem post_statement_executed_iff_witness :
    (Ready (demoSession postMap 3 none) postMap 3 ∧
      PrePasses (rejectWorld "post") (demoSession postMap 3 none) postMap freshState) ∧
    (importStart (rejectWorld "post") (demoSession postMap 3 none) freshState).state._error
      = 0 ∧
    (importStart (rejectWorld "post") (demoSession postMap 3 none) freshState).returned
      = false :=
  ⟨⟨by decide, by decide⟩, by decide,
    (post_statement_executed_iff (rejectWorld "post") (demoSession postMap 3 none) postMap 3
      freshState (by decide) (by decide)).2.2.2 (by decide) (by decide) "rejected"
      (by decide)⟩

/-- C17 as stated fails: the executor rejects the post-statement of a run over
three records; the three row statements and the post-statement are all that is
handed to the executor, and no ROLLBACK follows. -/
theorem post_failure_no_rollback_counterexample :
    (importStart (rejectWorld "post") (demoSession postMap 3 none) freshState).returned
      = false ∧
    (importStart (rejectWorld "post") (demoSession postMap 3 none)
      freshState).state.executed.map (fun q => q.sql)
        = ["INSERT INTO t (id, name)  VALUES(:id, :name)",
           "INSERT INTO t (id, name)  VALUES(:id, :name)",
           "INSERT INTO t (name)  VALUES(:name)", "post"] ∧
    ∀ q ∈ (importStart (rejectWorld "post") (demoSession postMap 3 none)
      freshState).state.executed, q.sql ≠ "ROLLBACK;" := by
  decide

/-- C17 as amended, at a concrete input. -/
theorem post_failure_no_rollback_witness :
    (Ready (demoSession postMap 3 none) postMap 3 ∧
      PrePasses (rejectWorld "post") (demoSession postMap 3 none) postMap freshState ∧
      (rowsRun (rejectWorld "post") (demoSession postMap 3 none) postMap 3 freshState).2
        = false ∧
      (demoSession postMap 3 none).trimmed postMap.sqlPost ≠ "" ∧
      (rejectWorld "post").exec
        (rowsRun (rejectWorld "post") (demoSession postMap 3 none) postMap 3
          freshState).1.executed
        { sql := postMap.sqlPost, bound := [] } = some "rejected") ∧
    (importStart (rejectWorld "post") (demoSession postMap 3 none) freshState).state._errMsg
      = "ERROR Running Post SQL query: " ++ "rejected" :=
  ⟨⟨by decide, by decide, by decide, by decide, by decide⟩,
    (post_failure_no_rollback (rejectWorld "post") (demoSession postMap 3 none) postMap 3
      freshState "rejected" (by decide) (by decide) (by decide) (by decide)
      (by decide)).2.2.1⟩

/-- C18 at a concrete input: the third record of a map with the only field
`id` is ignored, no error is counted, and `importStart` returns true. -/
theorem import_returns_true_iff_no_error_witness :
    (Ready (demoSession (keyOnlyMap MapAction.Insert) 3 none) (keyOnlyMap MapAction.Insert) 3 ∧
      PrePasses demoWorld (demoSession (keyOnlyMap MapAction.Insert) 3 none)
        (keyOnlyMap MapAction.Insert) freshState ∧
      (importStart demoWorld (demoSession (keyOnlyMap MapAction.Insert) 3 none)
        freshState).userCanceled = false ∧
      (demoSession (keyOnlyMap MapAction.Insert) 3 none).trimmed
        (keyOnlyMap MapAction.Insert).sqlPost = "") ∧
    (importStart demoWorld (demoSession (keyOnlyMap MapAction.Insert) 3 none)
      freshState).state._ignored = 1 ∧
    (importStart demoWorld (demoSession (keyOnlyMap MapAction.Insert) 3 none)
      freshState).returned = true :=
  ⟨⟨by decide, by decide, by decide, by decide⟩, by decide,
    (import_returns_true_iff_no_error demoWorld
      (demoSession (keyOnlyMap MapAction.Insert) 3 none) (keyOnlyMap MapAction.Insert) 3
      freshState (by decide) (by decide) (by decide) (Or.inl (by decide))).mpr (by decide)⟩

/-- C19 at a concrete input: the user cancels at the check after the second of
three records; no error was counted and `importStart` returns false. -/
theorem cancel_stops_run_witness :
    (Ready (demoSession postMap 3 (some 1)) postMap 3 ∧
      PrePasses demoWorld (demoSession postMap 3 (some 1)) postMap freshState ∧
      ((1 : Nat) : Int) < 3 ∧
      (demoSession postMap 3 (some 1)).wasCanceled ((1 : Nat) : Int) = true ∧
      ∀ j : Nat, j < 1 → (demoSession postMap 3 (some 1)).wasCanceled (j : Int) = false) ∧
    (importStart demoWorld (demoSession postMap 3 (some 1)) freshState).returned = false ∧
    (importStart demoWorld (demoSession postMap 3 (some 1)) freshState).state._error = 0 ∧
    (importStart demoWorld (demoSession postMap 3 (some 1)) freshState).state.executed.length
      = 2 :=
  ⟨⟨by decide, by decide, by decide, by decide,
      fun j hj => by
        have : j = 0 := by omega
        subst this
        decide⟩,
    (cancel_stops_run demoWorld (demoSession postMap 3 (some 1)) postMap 3 freshState 1
      (by decide) (by decide) (by decide) (by decide)
      (fun j hj => by
        have : j = 0 := by omega
        subst this
        decide)).2.1,
    by decide, by decide⟩

/-- C20 fails on the code: the user cancels at the check after the second of
three records.  Two records were handled (two statements reached the
executor), yet `_current` is 1 and the status block of the report shows one
processed record. -/
theorem cancel_report_misses_row :
    (importStart demoWorld (demoSession (demoMap MapAction.Insert) 3 (some 1))
      freshState).userCanceled = true ∧
    (importStart demoWorld (demoSession (demoMap MapAction.Insert) 3 (some 1))
      freshState).state.executed.map (fun q => q.bound)
        = [[(":id", QVariant.ofString (some "1")), (":name", QVariant.ofString (some "Ann"))],
           [(":id", QVariant.ofString (some "2")), (":name", QVariant.ofString (some ""))]] ∧
    (importStart demoWorld (demoSession (demoMap MapAction.Insert) 3 (some 1))
      freshState).state._current = 1 ∧
    (importStart demoWorld (demoSession (demoMap MapAction.Insert) 3 (some 1))
      freshState).log.head?
        = some (LogEntry.status "m" "t" MapAction.Insert 3 1 0 0) := by
  decide


/-! ## Resolution, synthesis and accounting (claims C21 to C29) -/

/-- C29: for a field with action `Action_UseColumn` whose primary cell is null
and whose `ifNullAction` is none of `UseDefault`, `UseEmptyString`,
`UseAlternateValue` and `UseAlternateColumn`, the `default:` branch is taken:
the field is not skipped, both loops run the rest of the loop body with the
null-marker, which binds the placeholder of the field to the null-marker, and
the field is among the fields included on the row of every map that holds it. -/
theorem useColumn_primary_default_binds_null (w : World) (row : Int) (f : CSVMapField)
    (append : Bool) (vi : InsertVars) (vu : UpdateVars)
    (h : f.action = Action.Action_UseColumn)
    (hnull : w.dataValue row (f.column - 1) = none)
    (h1 : f.ifNullAction ≠ IfNull.UseDefault)
    (h2 : f.ifNullAction ≠ IfNull.UseEmptyString)
    (h3 : f.ifNullAction ≠ IfNull.UseAlternateValue)
    (h4 : f.ifNullAction ≠ IfNull.UseAlternateColumn) :
    skipped w row f = false ∧
    insertField w row append vi f = insertTail append vi f nullMarker ∧
    updateField w row vu f = updateTail vu f nullMarker ∧
    QMap.find (insertField w row append vi f).values (":" ++ f.name) = some nullMarker ∧
    (f.isKey = true →
      QMap.find (updateField w row vu f).wheres (":" ++ f.name) = some nullMarker) ∧
    (f.isKey = false →
      QMap.find (updateField w row vu f).values (":" ++ f.name) = some nullMarker) ∧
    (∀ (map : CSVMap) (s : ToolState), s._current = row → f ∈ map.fields →
      (f, nullMarker) ∈ rowTrace w map s) := by
  have hres : ∀ mimetype image,
      insertResolve w row f mimetype image = ⟨some nullMarker, mimetype, image⟩ := by
    intro mimetype image
    cases hp : f.ifNullAction <;> simp_all [insertResolve, nullMarker]
  have hi : insertField w row append vi f = insertTail append vi f nullMarker :=
    insertField_of_resolve _ _ _ _ _ _ (hres _ _)
  have hu : updateField w row vu f = updateTail vu f nullMarker :=
    updateField_of_resolve _ _ _ _ _ (hres _ _)
  refine ⟨?_, hi, hu, ?_, fun hk => ?_, fun hk => ?_, fun map s hs hf => ?_⟩
  · simp [skipped, hres]
  · rw [hi]
    exact (insertTail_includes append vi f nullMarker).2.2.1
  · rw [hu]
    exact ((updateTail_includes vu f nullMarker).1 hk).2
  · rw [hu]
    exact ((updateTail_includes vu f nullMarker).2 hk).2
  · subst hs
    exact mem_resolveTrace w s._current f nullMarker (fun m i => by rw [hres]) _ hf _ _

/-- C25: the two copies of the value resolver agree.  For every field, row,
world (hence every answer of the blob loaders) and every earlier loop state,
the `switch` of `updateAction` yields the same outcome as the one of
`insertAction`: the same bound value or the same skip, the same local
`mimetype` and the same member `__image`.  As a consequence both field loops
end, on every row of every map, with the same detected MIME type, the same
`__image` and the same `foundMimeType`. -/
theorem resolver_copies_agree (w : World) (row : Int) (f : CSVMapField)
    (mimetype : String) (image : QImage) :
    (updateResolve w row f mimetype image).var = (insertResolve w row f mimetype image).var ∧
    (updateResolve w row f mimetype image).mimetype
      = (insertResolve w row f mimetype image).mimetype ∧
    (updateResolve w row f mimetype image).image
      = (insertResolve w row f mimetype image).image ∧
    ∀ (map : CSVMap) (append : Bool) (s : ToolState),
      (updateLoop w map s).mimetype = (insertLoop w map append s).mimetype ∧
      (updateLoop w map s).image = (insertLoop w map append s).image ∧
      (updateLoop w map s).foundMimeType = (insertLoop w map append s).foundMimeType := by
  refine ⟨?_, ?_, ?_, fun map append s => ?_⟩
  · rw [updateResolve_eq_insertResolve]
  · rw [updateResolve_eq_insertResolve]
  · rw [updateResolve_eq_insertResolve]
  · rw [updateLoop_eq, insertLoop_eq]
    exact ⟨rfl, rfl, rfl⟩

/-- C27: every call of `insertAction` and of `updateAction` keeps the
accounting consistent. -/
theorem row_accounting_consistent (w : World) (map : CSVMap) (append : Bool) (s : ToolState) :
    Accounted s (insertAction w map append s) ∧ Accounted s (updateAction w map s) := by
  constructor
  · by_cases hnil : rowTrace w map s = []
    · rw [insertAction_of_values_nil w map append s hnil]
      exact ⟨[_], rfl, by simp, by simp, by simp, fun _ => rfl⟩
    · rw [insertAction_of_values_ne_nil w map append s hnil]
      refine ⟨_, List.append_assoc _ _ _, ?_, ?_, ?_, ?_⟩
      · simp only [List.length_append]
        push_cast
        ring
      · simp only
        omega
      · simp
      · intro hlt
        simp at hlt
  · by_cases hnil : rowSetValues w map s = []
    · rw [updateAction_of_values_nil w map s hnil]
      exact ⟨[_], rfl, by simp, by simp, by simp, fun _ => rfl⟩
    · rw [updateAction_of_values_ne_nil w map s hnil]
      refine ⟨_, List.append_assoc _ _ _, ?_, ?_, ?_, ?_⟩
      · simp only [List.length_append]
        push_cast
        ring
      · simp only
        omega
      · simp
      · intro hlt
        simp at hlt

/-- C24: on a row on which at least one field is included and no key field
is, Append records the error `No Key defined in Altas Map.` and still hands
its statement to the executor, with nothing between `WHERE ` and `);` in the
`WHERE NOT EXISTS` guard; Update does the same with nothing after `WHERE `.
Each statement carries the bindings of the included fields. -/
theorem no_key_statement_still_executed (w : World) (map : CSVMap) (s : ToolState)
    (hkey : ∀ f ∈ map.fields, f.isKey = true → skipped w s._current f = true)
    (hsome : ∃ f ∈ map.fields, skipped w s._current f = false) :
    ((insertAction w map true s).executed = s.executed ++
        [{ sql := "INSERT INTO " ++ map.table ++ " (" ++
              ", ".intercalate (rowColumns w map s) ++ ")  SELECT " ++
              ", ".intercalate ((rowColumns w map s).map (fun n => ":" ++ n)) ++
              "  WHERE NOT EXISTS (SELECT 1 FROM " ++ map.table ++ " WHERE " ++ ");",
           bound := rowValues w map s }] ∧
      rowValues w map s ≠ [] ∧
      ∃ rest, (insertAction w map true s)._errorList
        = s._errorList ++ "No Key defined in Altas Map." :: rest) ∧
    ((updateAction w map s).executed = s.executed ++
        [{ sql := "UPDATE " ++ map.table ++ " SET " ++
              ", ".intercalate ((rowTrace w map s).map (fun p => clause p.1)) ++
              (if mimeSynthesized w map s then ", file_mime_type=:file_mime_type" else "") ++
              " WHERE ",
           bound := rowSetValues w map s }] ∧
      rowSetValues w map s ≠ [] ∧
      ∃ rest, (updateAction w map s)._errorList
        = s._errorList ++ "No Key defined in Altas Map." :: rest) := by
  have hk := keyPart_eq_nil_of_forall w map s hkey
  have hne := rowTrace_ne_nil_of_exists w map s hsome
  have hsp : setPart (rowTrace w map s) = rowTrace w map s := by
    have hmem : ∀ p ∈ rowTrace w map s, p.1.isKey = false := by
      intro p hp
      cases hpk : p.1.isKey
      · rfl
      · have : p ∈ keyPart (rowTrace w map s) := by
          simp [keyPart, hp, hpk]
        rw [hk] at this
        simp at this
    unfold setPart
    rw [List.filter_eq_self]
    intro p hp
    simp [hmem p hp]
  have hset : rowSetValues w map s ≠ [] := by
    intro e
    have := ((rowSetValues_eq_nil w map s).mp e).1
    rw [hsp] at this
    exact hne this
  have hv : rowValues w map s ≠ [] := fun e => hne ((rowValues_eq_nil w map s).mp e)
  have hint : " AND ".intercalate ([] : List String) = "" := rfl
  have hemp : ∀ x : String, "" ++ x = x := fun x => String.ext (by simp)
  have hright : ∀ x : String, x ++ "" = x := fun x => String.ext (by simp)
  refine ⟨⟨?_, hv, ?_⟩, ⟨?_, hset, ?_⟩⟩
  · rw [insertAction_of_values_ne_nil w map true s hne]
    simp [hk, hint, hemp, String.append_assoc]
  · rw [insertAction_of_values_ne_nil w map true s hne]
    simp only [hk, and_self, if_true]
    exact ⟨_, List.append_assoc _ _ _⟩
  · rw [updateAction_of_values_ne_nil w map s hset]
    simp [hk, hsp, hint, hright, bindAll, bindings, String.append_assoc]
  · rw [updateAction_of_values_ne_nil w map s hset]
    simp only [hk, if_true]
    exact ⟨_, List.append_assoc _ _ _⟩


/-! ## The synthesized MIME column (claim C23) -/

theorem insertResolve_mimetype (w : World) (row : Int) (f : CSVMapField)
    (mimetype : String) (image : QImage) :
    (insertResolve w row f mimetype image).mimetype
      = ((fileLoaded w row f).map w.mimeTypeForFile).getD mimetype := by
  unfold insertResolve fileLoaded
  cases ha : f.action <;> simp only [] <;> try (simp; done)
  · cases hv : w.dataValue row (f.column - 1) with
    | none =>
      cases f.ifNullAction <;> simp only [] <;> try (simp; done)
      cases w.dataValue row (f.columnAlt - 1) with
      | none => cases f.ifNullActionAlt <;> simp
      | some value => simp
    | some value => simp
  · cases hv : w.dataValue row (f.column - 1) with
    | none => simp
    | some fileName =>
      cases ht : f.fileType <;> simp only []
      · split <;> simp
      · split <;> simp
      · split <;> simp
      · simp

theorem resolveEnd_fst (w : World) (row : Int) (fields : List CSVMapField)
    (mimetype : String) (image : QImage) :
    (resolveEnd w row fields mimetype image).1
      = (detectedMimes w row fields).getLastD mimetype := by
  induction fields generalizing mimetype image with
  | nil => rfl
  | cons f fs ih =>
    simp only [resolveEnd]
    rw [ih, insertResolve_mimetype]
    unfold detectedMimes
    cases hl : fileLoaded w row f with
    | none => simp only [List.filterMap_cons, hl, Option.map_none', Option.getD_none]
    | some n =>
      simp only [List.filterMap_cons, hl, Option.map_some', Option.getD_some,
        List.getLastD_cons]

theorem rowTrace_names (w : World) (map : CSVMap) (s : ToolState) :
    (rowTrace w map s).map (fun p => p.1.name)
      = (includedFields w map s).map (fun f => f.name) := by
  have h := resolveTrace_map_fst w s._current map.fields "" s.__image
  unfold includedFields
  rw [← h, List.map_map]
  rfl

theorem mimeSynthesized_iff_due (w : World) (map : CSVMap) (s : ToolState) :
    mimeSynthesized w map s ↔ MimeColumnDue w map s := by
  have hn := rowTrace_names w map s
  have hmem : (∀ p ∈ rowTrace w map s, p.1.name ≠ "file_mime_type") ↔
      ∀ f ∈ includedFields w map s, f.name ≠ "file_mime_type" := by
    have h1 : (∀ p ∈ rowTrace w map s, p.1.name ≠ "file_mime_type") ↔
        "file_mime_type" ∉ (rowTrace w map s).map (fun p => p.1.name) := by
      simp only [List.mem_map, not_exists, not_and]
    have h2 : (∀ f ∈ includedFields w map s, f.name ≠ "file_mime_type") ↔
        "file_mime_type" ∉ (includedFields w map s).map (fun f => f.name) := by
      simp only [List.mem_map, not_exists, not_and]
    rw [h1, h2, hn]
  unfold mimeSynthesized MimeColumnDue rowMime detectedMime
  rw [resolveEnd_fst, hmem]
  exact And.comm

theorem rowColumns_eq_dueColumns (w : World) (map : CSVMap) (s : ToolState) :
    rowColumns w map s = dueColumns w map s := by
  unfold rowColumns dueColumns
  rw [rowTrace_names]
  by_cases h : mimeSynthesized w map s
  · rw [if_pos h, if_pos ((mimeSynthesized_iff_due w map s).mp h)]
  · rw [if_neg h, if_neg (fun hd => h ((mimeSynthesized_iff_due w map s).mpr hd))]

theorem rowMime_eq_detectedMime (w : World) (map : CSVMap) (s : ToolState) :
    rowMime w map s = detectedMime w map s := by
  unfold rowMime detectedMime
  exact resolveEnd_fst _ _ _ _ _

theorem fileLoaded_of_not_file (w : World) (row : Int) (f : CSVMapField)
    (h : f.action = Action.Action_SetColumnFromDataFile → f.fileType ≠ FileType.TYPE_FILE) :
    fileLoaded w row f = none := by
  unfold fileLoaded
  rw [if_neg]
  rintro ⟨ha, ht⟩
  exact h ha ht

theorem detectedMimes_eq_nil_iff (w : World) (row : Int) (fields : List CSVMapField) :
    detectedMimes w row fields = [] ↔ ∀ f ∈ fields, fileLoaded w row f = none := by
  unfold detectedMimes
  rw [List.filterMap_eq_nil_iff]
  simp

/-- C23, as amended: the synthesis step of `insertAction` (Insert and Append)
and of `updateAction` adds the extra column `file_mime_type`, bound to the MIME
type detected on the row, if and only if that MIME type (the one of the last
`Action_SetColumnFromDataFile` field of type `TYPE_FILE` that loaded its
document on the row) is not empty and no field included on the row has the
destination name `file_mime_type`.  The column follows the included fields in
the column list, the placeholder list and the SET clause.  A map without a
field of type `TYPE_FILE` never triggers the synthesis, and with a MIME
database that never answers the empty name the condition on the MIME type says
that some `TYPE_FILE` field loaded its document on the row. -/
theorem mime_column_synthesis (w : World) (map : CSVMap) (s : ToolState) (append : Bool) :
    (((insertLoop w map append s).foundMimeType = false ∧
        (insertLoop w map append s).mimetype ≠ "") ↔ MimeColumnDue w map s) ∧
    (((updateLoop w map s).foundMimeType = false ∧ (updateLoop w map s).mimetype ≠ "") ↔
      MimeColumnDue w map s) ∧
    (insertLoop w map append s).front = "(" ++ ", ".intercalate (dueColumns w map s) ∧
    (insertLoop w map append s).back = (if append then " SELECT " else " VALUES(") ++
      ", ".intercalate ((dueColumns w map s).map (fun n => ":" ++ n)) ∧
    (insertLoop w map append s).values =
      (if MimeColumnDue w map s then
        QMap.insert (bindAll [] (bindings (rowTrace w map s))) ":file_mime_type"
          (QVariant.ofString (some (detectedMime w map s)))
       else bindAll [] (bindings (rowTrace w map s))) ∧
    (updateLoop w map s).set =
      ", ".intercalate (((includedFields w map s).filter (fun f => !f.isKey)).map
          (fun f => f.name ++ "=" ++ (":" ++ f.name))) ++
        (if MimeColumnDue w map s then ", file_mime_type=:file_mime_type" else "") ∧
    (updateLoop w map s).values =
      (if MimeColumnDue w map s then
        QMap.insert (bindAll [] (bindings (setPart (rowTrace w map s)))) ":file_mime_type"
          (QVariant.ofString (some (detectedMime w map s)))
       else bindAll [] (bindings (setPart (rowTrace w map s)))) ∧
    (MimeColumnDue w map s →
      QMap.find (insertLoop w map append s).values ":file_mime_type"
          = some (QVariant.ofString (some (detectedMime w map s))) ∧
        QMap.find (updateLoop w map s).values ":file_mime_type"
          = some (QVariant.ofString (some (detectedMime w map s)))) ∧
    ((∀ f ∈ map.fields, f.action = Action.Action_SetColumnFromDataFile →
        f.fileType ≠ FileType.TYPE_FILE) → ¬ MimeColumnDue w map s) ∧
    ((∀ n, w.mimeTypeForFile n ≠ "") →
      (MimeColumnDue w map s ↔
        (∃ f ∈ map.fields, (fileLoaded w s._current f).isSome = true) ∧
          ∀ f ∈ includedFields w map s, f.name ≠ "file_mime_type")) := by
  have hiff := mimeSynthesized_iff_due w map s
  have hmime := rowMime_eq_detectedMime w map s
  have hvals : (insertLoop w map append s).values =
      (if MimeColumnDue w map s then
        QMap.insert (bindAll [] (bindings (rowTrace w map s))) ":file_mime_type"
          (QVariant.ofString (some (detectedMime w map s)))
       else bindAll [] (bindings (rowTrace w map s))) := by
    rw [insertLoop_eq]
    simp only [rowValues, hmime]
    by_cases h : mimeSynthesized w map s
    · rw [if_pos h, if_pos (hiff.mp h)]
    · rw [if_neg h, if_neg (fun hd => h (hiff.mpr hd))]
  have hsetvals : (updateLoop w map s).values =
      (if MimeColumnDue w map s then
        QMap.insert (bindAll [] (bindings (setPart (rowTrace w map s)))) ":file_mime_type"
          (QVariant.ofString (some (detectedMime w map s)))
       else bindAll [] (bindings (setPart (rowTrace w map s)))) := by
    rw [updateLoop_eq]
    simp only [rowSetValues, hmime]
    by_cases h : mimeSynthesized w map s
    · rw [if_pos h, if_pos (hiff.mp h)]
    · rw [if_neg h, if_neg (fun hd => h (hiff.mpr hd))]
  refine ⟨?_, ?_, ?_, ?_, hvals, ?_, hsetvals, fun hd => ⟨?_, ?_⟩, fun himg hd => ?_,
    fun hne => ?_⟩
  · rw [insertLoop_eq, ← hiff]
    simp [mimeSynthesized]
  · rw [updateLoop_eq, ← hiff]
    simp [mimeSynthesized]
  · rw [insertLoop_eq, rowColumns_eq_dueColumns]
  · rw [insertLoop_eq, rowColumns_eq_dueColumns]
  · rw [updateLoop_eq]
    have hset : (setPart (rowTrace w map s)).map (fun p => clause p.1)
        = ((includedFields w map s).filter (fun f => !f.isKey)).map
            (fun f => f.name ++ "=" ++ (":" ++ f.name)) := by
      have h := setPart_map_fst w map s
      have hf : (includedFields w map s).filter (fun f => !f.isKey)
          = map.fields.filter (fun f => !f.isKey && !skipped w s._current f) := by
        unfold includedFields
        rw [List.filter_filter]
      rw [hf, ← h, List.map_map]
      rfl
    rw [hset]
    by_cases h : mimeSynthesized w map s
    · rw [if_pos h, if_pos (hiff.mp h)]
    · rw [if_neg h, if_neg (fun hd => h (hiff.mpr hd))]
  · rw [hvals, if_pos hd]
    exact QMap.find_insert_self _ _ _
  · rw [hsetvals, if_pos hd]
    exact QMap.find_insert_self _ _ _
  · have hnil : detectedMimes w s._current map.fields = [] :=
      (detectedMimes_eq_nil_iff w s._current map.fields).mpr
        (fun f hf => fileLoaded_of_not_file w s._current f (himg f hf))
    exact hd.1 (by simp [detectedMime, hnil])
  · unfold MimeColumnDue
    refine and_congr_left (fun _ => ?_)
    constructor
    · intro hm
      by_contra hex
      have hnil : detectedMimes w s._current map.fields = [] := by
        rw [detectedMimes_eq_nil_iff]
        intro f hf
        cases hl : fileLoaded w s._current f with
        | none => rfl
        | some n => exact absurd ⟨f, hf, by simp [hl]⟩ hex
      exact hm (by simp [detectedMime, hnil])
    · rintro ⟨f, hf, hl⟩
      have hmem : ∀ m ∈ detectedMimes w s._current map.fields, m ≠ "" := by
        intro m hm
        simp only [detectedMimes, List.mem_filterMap, Option.map_eq_some'] at hm
        obtain ⟨g, _, n, _, rfl⟩ := hm
        exact hne n
      have hnn : detectedMimes w s._current map.fields ≠ [] := by
        intro e
        have := (detectedMimes_eq_nil_iff w s._current map.fields).mp e f hf
        simp [this] at hl
      unfold detectedMime
      obtain ⟨l, x, hx⟩ : ∃ l x, detectedMimes w s._current map.fields = l ++ [x] :=
        ⟨_, _, (List.dropLast_append_getLast hnn).symm⟩
      rw [hx]
      have hxm : x ∈ detectedMimes w s._current map.fields := by simp [hx]
      simpa using hmem x hxm


/-! ## Placeholders and bindings (claim C26) -/

theorem render_append (a b : List Piece) : render (a ++ b) = render a ++ render b := by
  induction a with
  | nil => simp [render]
  | cons p rest ih => simp [render, ih, String.append_assoc]

theorem placeholders_append (a b : List Piece) :
    placeholders (a ++ b) = placeholders a ++ placeholders b := by
  induction a with
  | nil => simp [placeholders]
  | cons p rest ih => cases p <;> simp [placeholders, ih]

theorem render_sepPieces (sep : String) (b : Bool) (l : List (List Piece)) :
    render (sepPieces sep b l) = sepItems sep b (l.map render) := by
  induction l generalizing b with
  | nil => simp [sepPieces, sepItems, render]
  | cons x rest ih =>
    cases b <;>
      simp [sepPieces, sepItems, render_append, render, Piece.text, ih, String.append_assoc]

theorem mem_placeholders_sepPieces (sep : String) (b : Bool) (l : List (List Piece))
    (k : String) :
    k ∈ placeholders (sepPieces sep b l) ↔ ∃ x ∈ l, k ∈ placeholders x := by
  induction l generalizing b with
  | nil => simp [sepPieces, placeholders]
  | cons x rest ih =>
    cases b <;> simp [sepPieces, placeholders_append, placeholders, ih]

theorem QMap.mem_keys_insert (m : QMap) (k : String) (v : QVariant) (x : String) :
    x ∈ QMap.keys (QMap.insert m k v) ↔ x ∈ QMap.keys m ∨ x = k := by
  rw [QMap.keys_insert]
  split
  · rename_i hk
    constructor
    · exact Or.inl
    · rintro (h | h)
      · exact h
      · rw [h]; exact hk
  · simp

theorem mem_keys_bindAll (b m : QMap) (x : String) :
    x ∈ QMap.keys (bindAll b m) ↔ x ∈ QMap.keys b ∨ x ∈ QMap.keys m := by
  induction m generalizing b with
  | nil => simp [bindAll, QMap.keys]
  | cons e rest ih =>
    have hstep : bindAll b (e :: rest) = bindAll (QMap.insert b e.1 e.2) rest := by
      simp [bindAll]
    rw [hstep, ih, QMap.mem_keys_insert]
    simp only [QMap.keys, List.map_cons, List.mem_cons]
    constructor
    · rintro ((h | h) | h)
      · exact Or.inl h
      · exact Or.inr (Or.inl h)
      · exact Or.inr (Or.inr h)
    · rintro (h | h | h)
      · exact Or.inl (Or.inl h)
      · exact Or.inl (Or.inr h)
      · exact Or.inr h

theorem render_lits (sep : String) (cols : List String) :
    render (sepPieces sep false (cols.map (fun n => [Piece.lit n]))) = sep.intercalate cols := by
  rw [render_sepPieces, ← sepItems_false, List.map_map]
  congr 1
  have h : (render ∘ fun n => [Piece.lit n]) = id := by
    funext n
    simp [render, Piece.text]
  rw [h, List.map_id]

theorem render_phs (sep : String) (cols : List String) :
    render (sepPieces sep false (cols.map (fun n => [Piece.ph n])))
      = sep.intercalate (cols.map (fun n => ":" ++ n)) := by
  rw [render_sepPieces, ← sepItems_false, List.map_map]
  congr 1
  apply List.map_congr_left
  intro n _
  simp [render, Piece.text]

theorem render_clauses (sep : String) (names : List String) :
    render (sepPieces sep false (names.map clausePieces))
      = sep.intercalate (names.map (fun n => n ++ "=" ++ (":" ++ n))) := by
  rw [render_sepPieces, ← sepItems_false, List.map_map]
  congr 1
  apply List.map_congr_left
  intro n _
  simp [render, Piece.text, clausePieces, String.append_assoc]

theorem mem_placeholders_lits (sep : String) (cols : List String) (k : String) :
    k ∉ placeholders (sepPieces sep false (cols.map (fun n => [Piece.lit n]))) := by
  rw [mem_placeholders_sepPieces]
  simp [placeholders]

theorem mem_placeholders_phs (sep : String) (cols : List String) (k : String) :
    k ∈ placeholders (sepPieces sep false (cols.map (fun n => [Piece.ph n]))) ↔
      k ∈ cols.map (fun n => ":" ++ n) := by
  rw [mem_placeholders_sepPieces]
  simp only [List.mem_map]
  constructor
  · rintro ⟨x, ⟨a, ha, rfl⟩, hk⟩
    simp [placeholders, clausePieces] at hk
    exact ⟨a, ha, hk.symm⟩
  · rintro ⟨a, ha, rfl⟩
    exact ⟨_, ⟨a, ha, rfl⟩, by simp [placeholders, clausePieces]⟩

theorem mem_placeholders_clauses (sep : String) (names : List String) (k : String) :
    k ∈ placeholders (sepPieces sep false (names.map clausePieces)) ↔
      k ∈ names.map (fun n => ":" ++ n) := by
  rw [mem_placeholders_sepPieces]
  simp only [List.mem_map]
  constructor
  · rintro ⟨x, ⟨a, ha, rfl⟩, hk⟩
    simp [placeholders, clausePieces] at hk
    exact ⟨a, ha, hk.symm⟩
  · rintro ⟨a, ha, rfl⟩
    exact ⟨_, ⟨a, ha, rfl⟩, by simp [placeholders, clausePieces]⟩

theorem keyPart_names (w : World) (map : CSVMap) (s : ToolState) :
    (keyPart (rowTrace w map s)).map (fun p => p.1.name) = keyNames w map s := by
  have h := keyPart_map_fst w map s
  have hf : (includedFields w map s).filter (fun f => f.isKey)
      = map.fields.filter (fun f => f.isKey && !skipped w s._current f) := by
    unfold includedFields
    rw [List.filter_filter]
  unfold keyNames
  rw [hf, ← h, List.map_map]
  rfl

theorem setPart_names (w : World) (map : CSVMap) (s : ToolState) :
    (setPart (rowTrace w map s)).map (fun p => p.1.name) = setNames w map s := by
  have h := setPart_map_fst w map s
  have hf : (includedFields w map s).filter (fun f => !f.isKey)
      = map.fields.filter (fun f => !f.isKey && !skipped w s._current f) := by
    unfold includedFields
    rw [List.filter_filter]
  unfold setNames
  rw [hf, ← h, List.map_map]
  rfl

theorem keys_bindings (tr : List (CSVMapField × QVariant)) :
    QMap.keys (bindings tr) = (tr.map (fun p => p.1.name)).map (fun n => ":" ++ n) := by
  simp [QMap.keys, bindings, label, List.map_map, Function.comp_def]

theorem mem_keys_rowValues (w : World) (map : CSVMap) (s : ToolState) (k : String) :
    k ∈ QMap.keys (rowValues w map s) ↔ k ∈ (dueColumns w map s).map (fun n => ":" ++ n) := by
  have e6 : ":file_mime_type" = ":" ++ "file_mime_type" := by decide
  rw [← rowColumns_eq_dueColumns]
  unfold rowValues rowColumns
  split
  · rw [QMap.mem_keys_insert, mem_keys_bindAll, keys_bindings, e6]
    simp [QMap.keys]
  · rw [mem_keys_bindAll, keys_bindings]
    simp [QMap.keys]

theorem mem_keys_rowSetValues (w : World) (map : CSVMap) (s : ToolState) (k : String) :
    k ∈ QMap.keys (rowSetValues w map s) ↔
      k ∈ (setNames w map s).map (fun n => ":" ++ n) ∨
        (MimeColumnDue w map s ∧ k = ":file_mime_type") := by
  rw [← setPart_names, ← mimeSynthesized_iff_due]
  unfold rowSetValues
  split
  · rename_i h
    rw [QMap.mem_keys_insert, mem_keys_bindAll, keys_bindings]
    simp [QMap.keys, h]
  · rename_i h
    rw [mem_keys_bindAll, keys_bindings]
    simp [QMap.keys, h]

theorem keyNames_sublist (w : World) (map : CSVMap) (s : ToolState) :
    (keyNames w map s).Sublist (dueColumns w map s) := by
  unfold keyNames dueColumns
  exact List.Sublist.trans (List.Sublist.map _ (List.filter_sublist _))
    (List.sublist_append_left _ _)

/-- C26: every statement that `insertAction` (Insert and Append) or
`updateAction` hands to the executor is assembled from literal text and
placeholders, a colon followed by a name, and the placeholders that occur in
its text are exactly the keys bound on the query: the included fields and the
synthesized `:file_mime_type` for Insert and Append (whose key placeholders
recur in the guard), and for Update the fields of the SET clause, the
synthesized `:file_mime_type` and the key fields of the WHERE clause. -/
theorem placeholders_are_bound (w : World) (map : CSVMap) (s : ToolState) (q : Stmt) :
    (∀ append, (insertAction w map append s).executed = s.executed ++ [q] →
      q.sql = render (insertPieces map.table append (dueColumns w map s) (keyNames w map s)) ∧
      ∀ k, k ∈ QMap.keys q.bound ↔
        k ∈ placeholders
          (insertPieces map.table append (dueColumns w map s) (keyNames w map s))) ∧
    ((updateAction w map s).executed = s.executed ++ [q] →
      q.sql = render (updatePieces map.table (setNames w map s)
        (decide (MimeColumnDue w map s)) (keyNames w map s)) ∧
      ∀ k, k ∈ QMap.keys q.bound ↔
        k ∈ placeholders (updatePieces map.table (setNames w map s)
          (decide (MimeColumnDue w map s)) (keyNames w map s))) := by
  have hkc : (keyPart (rowTrace w map s)).map (fun p => clause p.1)
      = (keyNames w map s).map (fun n => n ++ "=" ++ (":" ++ n)) := by
    rw [← keyPart_names, List.map_map]
    rfl
  have hsc : (setPart (rowTrace w map s)).map (fun p => clause p.1)
      = (setNames w map s).map (fun n => n ++ "=" ++ (":" ++ n)) := by
    rw [← setPart_names, List.map_map]
    rfl
  constructor
  · intro append hq
    by_cases hnil : rowTrace w map s = []
    · rw [insertAction_of_values_nil w map append s hnil] at hq
      exact absurd hq.symm (append_singleton_ne_self _ _)
    · rw [insertAction_of_values_ne_nil w map append s hnil] at hq
      have hq2 := List.append_cancel_left hq
      simp only [List.cons.injEq, and_true] at hq2
      subst hq2
      constructor
      · cases append
        · simp [insertPieces, render_append, render_lits, render_phs, render, Piece.text,
            rowColumns_eq_dueColumns, String.append_assoc]
        · simp [insertPieces, render_append, render_lits, render_phs, render_clauses, render,
            Piece.text, rowColumns_eq_dueColumns, hkc, String.append_assoc]
      · intro k
        simp only [mem_keys_rowValues]
        cases append
        · simp [insertPieces, placeholders_append, placeholders, mem_placeholders_lits,
            mem_placeholders_phs]
        · have hsub : k ∈ (keyNames w map s).map (fun n => ":" ++ n) →
              k ∈ (dueColumns w map s).map (fun n => ":" ++ n) :=
            fun h => (List.Sublist.map _ (keyNames_sublist w map s)).subset h
          have hmem : k ∈ placeholders (insertPieces map.table true (dueColumns w map s)
                (keyNames w map s)) ↔
              k ∈ (dueColumns w map s).map (fun n => ":" ++ n) ∨
                k ∈ (keyNames w map s).map (fun n => ":" ++ n) := by
            simp only [insertPieces, if_true, placeholders_append, List.mem_append,
              mem_placeholders_phs, mem_placeholders_clauses]
            simp [placeholders, mem_placeholders_lits]
          rw [hmem]
          exact ⟨Or.inl, fun h => h.elim id hsub⟩
  · intro hq
    by_cases hnil : rowSetValues w map s = []
    · rw [updateAction_of_values_nil w map s hnil] at hq
      exact absurd hq.symm (append_singleton_ne_self _ _)
    · rw [updateAction_of_values_ne_nil w map s hnil] at hq
      have hq2 := List.append_cancel_left hq
      simp only [List.cons.injEq, and_true] at hq2
      subst hq2
      constructor
      · by_cases hd : MimeColumnDue w map s
        · have hs := (mimeSynthesized_iff_due w map s).mpr hd
          have e9 : ∀ x : String, ", file_mime_type=:file_mime_type WHERE " ++ x
              = ", file_mime_type=" ++ (":file_mime_type" ++ (" WHERE " ++ x)) := by
            intro x
            rw [← String.append_assoc, ← String.append_assoc]
            rfl
          simp [updatePieces, render_append, render_clauses, render, Piece.text, hd, hs, hsc,
            hkc, String.append_assoc]
          rw [e9]
        · have hs : ¬ mimeSynthesized w map s :=
            fun h => hd ((mimeSynthesized_iff_due w map s).mp h)
          simp [updatePieces, render_append, render_clauses, render, Piece.text, hd, hs, hsc,
            hkc, String.append_assoc]
      · intro k
        have e6 : ":file_mime_type" = ":" ++ "file_mime_type" := by decide
        rw [mem_keys_bindAll, mem_keys_rowSetValues, mem_keys_bindAll, keys_bindings,
          keyPart_names]
        by_cases hd : MimeColumnDue w map s
        · simp [updatePieces, placeholders_append, placeholders, mem_placeholders_clauses, hd,
            QMap.keys, e6, or_assoc]
        · simp [updatePieces, placeholders_append, placeholders, mem_placeholders_clauses, hd,
            QMap.keys]


/-! ## Resolution and the image left by earlier calls (claim C21) -/

theorem imageLoadAndEncode_of_long_name (w : World) (i1 i2 : QImage) (fileName : String)
    (enc : Bool) (h : 1 < utf16Length fileName) :
    imageLoadAndEncode w i1 fileName enc = imageLoadAndEncode w i2 fileName enc := by
  unfold imageLoadAndEncode
  rw [if_pos h, if_pos h]

theorem insertResolve_var_of_loaded_names (w : World) (row : Int) (f : CSVMapField)
    (m1 m2 : String) (i1 i2 : QImage)
    (h : f.action = Action.Action_SetColumnFromDataFile →
      (f.fileType = FileType.TYPE_IMAGE ∨ f.fileType = FileType.TYPE_IMAGEENC) →
      ∀ fileName, w.dataValue row (f.column - 1) = some fileName → 1 < utf16Length fileName) :
    (insertResolve w row f m1 i1).var = (insertResolve w row f m2 i2).var := by
  unfold insertResolve
  cases ha : f.action <;> simp only [] <;> try rfl
  · cases hv : w.dataValue row (f.column - 1) with
    | none =>
      cases f.ifNullAction <;> try rfl
      cases w.dataValue row (f.columnAlt - 1) with
      | none => cases f.ifNullActionAlt <;> rfl
      | some value => rfl
    | some value => rfl
  · cases hv : w.dataValue row (f.column - 1) with
    | none => rfl
    | some fileName =>
      cases ht : f.fileType <;> simp only []
      · rw [imageLoadAndEncode_of_long_name w i1 i2 fileName false
          (h ha (Or.inl ht) fileName hv)]
        split <;> rfl
      · rw [imageLoadAndEncode_of_long_name w i1 i2 fileName true
          (h ha (Or.inr ht) fileName hv)]
        split <;> rfl
      · split <;> rfl

/-! ## Concrete rows and runs (claims C21 to C29) -/

/-- C21 fails on the code: the file name `x` of record 3 is one character
long, so `imageLoadAndEncode` loads nothing and encodes the member `__image`
as an earlier call left it.  Resolved in a fresh tool window the field `pic` of
record 3 is bound to the null-marker; resolved after the image of record 1 was
loaded it is bound to the PNG bytes of that image.  In a run over the three
records, record 3 is inserted with the image of record 1. -/
theorem image_resolution_reuses_earlier_image :
    demoWorld.dataValue 2 (fieldPic.column - 1) = some "x" ∧
    imageLoadAndEncode demoWorld none "x" false = (QVariant.ofBool false, none) ∧
    imageLoadAndEncode demoWorld (some "IMG") "x" false
      = (QVariant.ofString (some "PNG:IMG"), some "IMG") ∧
    (insertResolve demoWorld 2 fieldPic "" none).var = some nullMarker ∧
    (insertResolve demoWorld 2 fieldPic "" (some "IMG")).var
      = some (QVariant.ofString (some "PNG:IMG")) ∧
    (updateResolve demoWorld 2 fieldPic "" none).var = some nullMarker ∧
    (updateResolve demoWorld 2 fieldPic "" (some "IMG")).var
      = some (QVariant.ofString (some "PNG:IMG")) ∧
    (insertAction demoWorld (picMap MapAction.Insert) false (rowState 2)).executed
      = [{ sql := "INSERT INTO t (pic)  VALUES(:pic)", bound := [(":pic", nullMarker)] }] ∧
    (importStart demoWorld (demoSession (picMap MapAction.Insert) 3 none)
      freshState).state.executed.map (fun q => q.bound)
        = [[(":id", QVariant.ofString (some "1")),
            (":pic", QVariant.ofString (some "PNG:IMG"))],
           [(":id", QVariant.ofString (some "2")), (":pic", nullMarker)],
           [(":pic", QVariant.ofString (some "PNG:IMG"))]] := by
  decide

/-- C22 fails on the code: `importStart` resets the counters and `_errMsg` but
not `_errorList`.  Run twice over the demo table, the map with the only field
`id` ignores record 3 both times and hands the same two statements to the
executor; the counts of the two reports agree, but the error list of the second
run starts with the message of the first run, and so does the list appended to
the log.  The member `__image` is not reset either: over a table whose first
record names the image `x` and whose second record names `a.png`, the first run
inserts record 1 with the null-marker and the second run inserts it with the
image of record 2. -/
theorem second_run_keeps_error_list :
    firstRun.returned = true ∧ secondRun.returned = true ∧
    firstRun.state.executed.length = 2 ∧
    secondRun.state.executed = firstRun.state.executed ++ firstRun.state.executed ∧
    firstRun.log.head? = some (LogEntry.status "m" "t" MapAction.Insert 3 3 1 0) ∧
    secondRun.log.head? = some (LogEntry.status "m" "t" MapAction.Insert 3 3 1 0) ∧
    firstRun.state._errorList = ["IGNORED Record 3: There are no columns to append"] ∧
    secondRun.state._errorList
      = ["IGNORED Record 3: There are no columns to append",
         "IGNORED Record 3: There are no columns to append"] ∧
    firstRun.log.getLast?
      = some (LogEntry.text "IGNORED Record 3: There are no columns to append") ∧
    secondRun.log.getLast?
      = some (LogEntry.text ("IGNORED Record 3: There are no columns to append\n" ++
          "IGNORED Record 3: There are no columns to append")) ∧
    secondRun.log ≠ firstRun.log ∧
    firstPicRun.state.executed.map (fun q => q.bound)
      = [[(":id", QVariant.ofString (some "1")), (":pic", nullMarker)],
         [(":id", QVariant.ofString (some "2")),
          (":pic", QVariant.ofString (some "PNG:IMG"))]] ∧
    (secondPicRun.state.executed.drop 2).map (fun q => q.bound)
      = [[(":id", QVariant.ofString (some "1")),
          (":pic", QVariant.ofString (some "PNG:IMG"))],
         [(":id", QVariant.ofString (some "2")),
          (":pic", QVariant.ofString (some "PNG:IMG"))]] := by
  decide

/-- C28 fails on the code: on record 1 of the demo table, with the document
`doc` as the only field and marked as key, the only item of the SET clause is
the synthesized one, and it is written with the separator in front: the SET
clause of the statement handed to the executor is
`, file_mime_type=:file_mime_type`. -/
theorem update_set_clause_leading_separator :
    (updateAction demoWorld (mkMap MapAction.Update [fieldDocKey]) (rowState 0)).executed
      = [{ sql := "UPDATE t SET , file_mime_type=:file_mime_type WHERE doc=:doc",
           bound := [(":file_mime_type", QVariant.ofString (some "text/plain")),
                     (":doc", QVariant.ofByteArray "hello")] }] ∧
    (updateLoop demoWorld (mkMap MapAction.Update [fieldDocKey]) (rowState 0)).set
      = ", file_mime_type=:file_mime_type" := by
  decide

/-- C23 as stated fails.  The map holds a field named `file_mime_type` that is
skipped on record 1 (its cell is null and its policy `UseDefault`); the document
`doc` loads, and Insert and Update add the synthesized column all the same.
Moreover the MIME type that counts is the one of the last document loaded: when
`doc` loads with the type `text/plain` and `att` after it with the empty type,
no column is added. -/
theorem mime_column_synthesis_counterexample :
    (∃ f ∈ (mimeMap MapAction.Insert).fields, f.name = "file_mime_type") ∧
    skipped demoWorld 0 fieldMime = true ∧
    fileLoaded demoWorld 0 fieldDoc = some "doc.txt" ∧
    ¬ MimeColumnExpected demoWorld (mimeMap MapAction.Insert) (rowState 0) ∧
    ¬ MimeColumnExpected demoWorld (mimeMap MapAction.Update) (rowState 0) ∧
    (insertAction demoWorld (mimeMap MapAction.Insert) false (rowState 0)).executed
      = [{ sql := "INSERT INTO t (id, doc, file_mime_type)  VALUES(:id, :doc, :file_mime_type)",
           bound := [(":id", QVariant.ofString (some "1")),
                     (":doc", QVariant.ofByteArray "hello"),
                     (":file_mime_type", QVariant.ofString (some "text/plain"))] }] ∧
    (updateAction demoWorld (mimeMap MapAction.Update) (rowState 0)).executed
      = [{ sql := "UPDATE t SET doc=:doc, file_mime_type=:file_mime_type WHERE id=:id",
           bound := [(":doc", QVariant.ofByteArray "hello"),
                     (":file_mime_type", QVariant.ofString (some "text/plain")),
                     (":id", QVariant.ofString (some "1"))] }] ∧
    fileLoaded blankMimeWorld 0 fieldDoc = some "doc.txt" ∧
    blankMimeWorld.mimeTypeForFile "doc.txt" = "text/plain" ∧
    MimeColumnExpected blankMimeWorld (twoDocMap MapAction.Insert) (rowState 0) ∧
    (insertAction blankMimeWorld (twoDocMap MapAction.Insert) false (rowState 0)).executed
      = [{ sql := "INSERT INTO t (id, doc, att)  VALUES(:id, :doc, :att)",
           bound := [(":id", QVariant.ofString (some "1")),
                     (":doc", QVariant.ofByteArray "bytes of doc.txt"),
                     (":att", QVariant.ofByteArray "bytes of a.png")] }] := by
  decide

/-- C23 as amended, at concrete inputs: on record 1 the document `doc` loads
with the type `text/plain` and the column is added; on record 3 the document is
missing and no column is added; a map with the image `pic` adds none. -/
theorem mime_column_synthesis_witness :
    MimeColumnDue demoWorld (docMap MapAction.Insert) (rowState 0) ∧
    ¬ MimeColumnDue demoWorld (docMap MapAction.Insert) (rowState 2) ∧
    (insertLoop demoWorld (docMap MapAction.Insert) false (rowState 0)).front
      = "(id, name, doc, file_mime_type" ∧
    (insertLoop demoWorld (docMap MapAction.Insert) false (rowState 2)).front
      = "(name, doc" ∧
    QMap.find (updateLoop demoWorld (docMap MapAction.Insert) (rowState 0)).values
        ":file_mime_type"
      = some (QVariant.ofString (some "text/plain")) ∧
    ¬ MimeColumnDue demoWorld (picMap MapAction.Insert) (rowState 0) :=
  ⟨by decide, by decide,
    ((mime_column_synthesis demoWorld (docMap MapAction.Insert) (rowState 0)
      false).2.2.1).trans (by decide),
    ((mime_column_synthesis demoWorld (docMap MapAction.Insert) (rowState 2)
      false).2.2.1).trans (by decide),
    (((mime_column_synthesis demoWorld (docMap MapAction.Insert) (rowState 0)
      false).2.2.2.2.2.2.2.1 (by decide)).2).trans (by decide),
    (mime_column_synthesis demoWorld (picMap MapAction.Insert) (rowState 0)
      false).2.2.2.2.2.2.2.2.1 (by decide)⟩

/-- C29 at a concrete input: on record 2 the cell of `note` is null and its
policy is `Nothing`; the field is inserted with the null-marker. -/
theorem useColumn_primary_default_binds_null_witness :
    (fieldNote.action = Action.Action_UseColumn ∧
      demoWorld.dataValue 1 (fieldNote.column - 1) = none ∧
      fieldNote.ifNullAction = IfNull.Nothing) ∧
    skipped demoWorld 1 fieldNote = false ∧
    insertField demoWorld 1 false (insertStart false) fieldNote
      = insertTail false (insertStart false) fieldNote nullMarker ∧
    updateField demoWorld 1 updateStart fieldNote = updateTail updateStart fieldNote nullMarker ∧
    (insertAction demoWorld (mkMap MapAction.Insert [fieldId, fieldNote]) false
      (rowState 1)).executed
        = [{ sql := "INSERT INTO t (id, note)  VALUES(:id, :note)",
             bound := [(":id", QVariant.ofString (some "2")), (":note", nullMarker)] }] :=
  ⟨⟨rfl, by decide, rfl⟩,
    (useColumn_primary_default_binds_null demoWorld 1 fieldNote false (insertStart false)
      updateStart rfl (by decide) (by decide) (by decide) (by decide) (by decide)).1,
    (useColumn_primary_default_binds_null demoWorld 1 fieldNote false (insertStart false)
      updateStart rfl (by decide) (by decide) (by decide) (by decide) (by decide)).2.1,
    (useColumn_primary_default_binds_null demoWorld 1 fieldNote false (insertStart false)
      updateStart rfl (by decide) (by decide) (by decide) (by decide) (by decide)).2.2.1,
    by decide⟩

/-- C24 at a concrete input: on record 3 the key `id` is skipped and `name` is
included; Append and Update hand over a statement without key predicate. -/
theorem no_key_statement_still_executed_witness :
    ((∀ f ∈ (demoMap MapAction.Append).fields,
        f.isKey = true → skipped demoWorld (rowState 2)._current f = true) ∧
      ∃ f ∈ (demoMap MapAction.Append).fields,
        skipped demoWorld (rowState 2)._current f = false) ∧
    (insertAction demoWorld (demoMap MapAction.Append) true (rowState 2)).executed
      = [{ sql := "INSERT INTO t (name)  SELECT :name  WHERE NOT EXISTS (SELECT 1 FROM t WHERE );",
           bound := [(":name", QVariant.ofString (some "Cy"))] }] ∧
    (updateAction demoWorld (demoMap MapAction.Append) (rowState 2)).executed
      = [{ sql := "UPDATE t SET name=:name WHERE ",
           bound := [(":name", QVariant.ofString (some "Cy"))] }] :=
  ⟨⟨by decide, by decide⟩,
    ((no_key_statement_still_executed demoWorld (demoMap MapAction.Append) (rowState 2)
      (by decide) (by decide)).1.1).trans (by decide),
    ((no_key_statement_still_executed demoWorld (demoMap MapAction.Append) (rowState 2)
      (by decide) (by decide)).2.1).trans (by decide)⟩

/-- C26 at concrete inputs: the statements that Update and Append hand to the
executor for record 1 of the demo table, with the synthesized MIME column. -/
theorem placeholders_are_bound_witness :
    ((updateAction demoWorld (docMap MapAction.Update) (rowState 0)).executed
        = (rowState 0).executed ++ [docUpdate] ∧
      (insertAction demoWorld (docMap MapAction.Append) true (rowState 0)).executed
        = (rowState 0).executed ++ [docAppend]) ∧
    (docUpdate.sql = render (updatePieces "t" ["name", "doc"] true ["id"]) ∧
      ∀ k, k ∈ QMap.keys docUpdate.bound ↔
        k ∈ [":name", ":doc", ":file_mime_type", ":id"]) ∧
    (docAppend.sql
        = render (insertPieces "t" true ["id", "name", "doc", "file_mime_type"] ["id"]) ∧
      ∀ k, k ∈ QMap.keys docAppend.bound ↔
        k ∈ [":id", ":name", ":doc", ":file_mime_type", ":id"]) :=
  ⟨⟨by decide, by decide⟩,
    ⟨((placeholders_are_bound demoWorld (docMap MapAction.Update) (rowState 0) docUpdate).2
        (by decide)).1.trans (by decide),
      fun k =>
        (((placeholders_are_bound demoWorld (docMap MapAction.Update) (rowState 0)
          docUpdate).2 (by decide)).2 k).trans (by
            have h : placeholders (updatePieces (docMap MapAction.Update).table
                (setNames demoWorld (docMap MapAction.Update) (rowState 0))
                (decide (MimeColumnDue demoWorld (docMap MapAction.Update) (rowState 0)))
                (keyNames demoWorld (docMap MapAction.Update) (rowState 0)))
                = [":name", ":doc", ":file_mime_type", ":id"] := by decide
            rw [h])⟩,
    ⟨((placeholders_are_bound demoWorld (docMap MapAction.Append) (rowState 0) docAppend).1
        true (by decide)).1.trans (by decide),
      fun k =>
        (((placeholders_are_bound demoWorld (docMap MapAction.Append) (rowState 0)
          docAppend).1 true (by decide)).2 k).trans (by
            have h : placeholders (insertPieces (docMap MapAction.Append).table true
                (dueColumns demoWorld (docMap MapAction.Append) (rowState 0))
                (keyNames demoWorld (docMap MapAction.Append) (rowState 0)))
                = [":id", ":name", ":doc", ":file_mime_type", ":id"] := by decide
            rw [h])⟩⟩

end CSVImp
